import Mathlib

/-!
Hybrid mean / var / sd reducers and constant recycling of dplyr.

Shallow embedding of

* `inst/include/dplyr/hybrid/scalar_result/mean_sd_var.h`
  (`SimpleDispatch`, `SimpleDispatchImpl`, `MeanImpl`, `VarImpl`, `SdImpl`)
* `src/mutate.cpp` (`check_not_groups`, `ConstantRecycler`, `MutateCallProxy`,
  `mutate_grouped`)

The collaborators of `mutate.cpp` that are outside these two files (the
external evaluator, the gatherer, `all_na`, `check_supported_type`,
`is_vector`) are the fields of `Host`; results come with the list of calls
made to them.

Object identity.

`mutate_grouped` changes an R object in place
(`Rf_setAttrib(variable, R_NamesSymbol, R_NilValue)`), and the object it
changes can be one that other names are bound to: for a bare symbol bound in
the namespace `get()` returns the column bound there, and for an unquoted
vector it returns the expression object.  The state of the loop therefore holds
the objects by address (`Memory`), the namespace and the accumulator bind names
to addresses, and `MutateCallProxy` reads the current content of the objects.

Numeric model.

An R double is one of: the missing value `NA_REAL` (a NaN with payload 1954),
an ordinary NaN `R_NaN`, `+Inf`, `-Inf`, or a finite number.  Finite numbers are
rationals and finite arithmetic is exact (no rounding, no overflow), so the
`long double` accumulator of `MeanImpl` and the `double` accumulator of
`VarImpl` share one model.  Signed zeros are not distinguished.

When both operands of an arithmetic operation are NaNs, IEEE 754 leaves open
which payload the result carries; R documents that `NA` or `NaN` may result,
depending on the platform.  The choice is a parameter, `NaNRule`.
-/

namespace dplyr

/-! ## R doubles -/

/-- Values of an R double. -/
inductive Dbl
  | NA_REAL
  | R_NaN
  | R_PosInf
  | R_NegInf
  | fin (q : ℚ)
  deriving DecidableEq

/-- Which operand supplies the payload when both operands are NaNs. -/
inductive NaNRule
  | firstOperand
  | secondOperand
  | largerPayload
  | smallerPayload
  deriving DecidableEq

namespace Dbl

/-- C `isnan`, R `R_isnancpp`: true for `NA_REAL` and for `R_NaN`. -/
def isnan : Dbl → Bool
  | NA_REAL => true
  | R_NaN => true
  | _ => false

/-- R `R_IsNA`: true only for the missing value. -/
def R_IsNA : Dbl → Bool
  | NA_REAL => true
  | _ => false

/-- Infinity of the given sign. -/
def inf (positive : Bool) : Dbl := if positive then R_PosInf else R_NegInf

/-- Result of an operation with both operands NaN: one of the operands.
`NA_REAL` has the larger payload (1954 against 0). -/
def pick (r : NaNRule) (a b : Dbl) : Dbl :=
  match r with
  | .firstOperand => a
  | .secondOperand => b
  | .largerPayload => if a = NA_REAL then a else b
  | .smallerPayload => if a = R_NaN then a else b

/-- Result of an operation with at least one NaN operand: the NaN operand,
or the one selected by the rule when both are NaN. -/
def nanResult (r : NaNRule) (a b : Dbl) : Dbl :=
  if a.isnan && b.isnan then pick r a b
  else if a.isnan then a
  else b

/-- IEEE addition. -/
def add (r : NaNRule) (a b : Dbl) : Dbl :=
  if a.isnan || b.isnan then nanResult r a b
  else
    match a, b with
    | fin x, fin y => fin (x + y)
    | fin _, b => b
    | a, fin _ => a
    | R_PosInf, R_PosInf => R_PosInf
    | R_NegInf, R_NegInf => R_NegInf
    | _, _ => R_NaN

/-- Sign change; NaNs keep their payload. -/
def neg : Dbl → Dbl
  | R_PosInf => R_NegInf
  | R_NegInf => R_PosInf
  | fin x => fin (-x)
  | a => a

/-- IEEE subtraction. -/
def sub (r : NaNRule) (a b : Dbl) : Dbl := add r a (neg b)

/-- IEEE multiplication. -/
def mul (r : NaNRule) (a b : Dbl) : Dbl :=
  if a.isnan || b.isnan then nanResult r a b
  else
    match a, b with
    | fin x, fin y => fin (x * y)
    | fin x, b => if x = 0 then R_NaN else inf (decide (0 < x) == decide (b = R_PosInf))
    | a, fin y => if y = 0 then R_NaN else inf (decide (a = R_PosInf) == decide (0 < y))
    | a, b => inf (decide (a = R_PosInf) == decide (b = R_PosInf))

/-- IEEE division; a zero divisor is `+0`. -/
def div (r : NaNRule) (a b : Dbl) : Dbl :=
  if a.isnan || b.isnan then nanResult r a b
  else
    match a, b with
    | fin x, fin y =>
      if y = 0 then (if x = 0 then R_NaN else inf (decide (0 < x))) else fin (x / y)
    | fin _, _ => fin 0
    | a, fin y => inf (decide (a = R_PosInf) == decide (0 ≤ y))
    | _, _ => R_NaN

/-- Conversion of a C `int` to double. -/
def ofInt (i : Int) : Dbl := fin (i : ℚ)

end Dbl

/-- R `R_FINITE`: neither NaN nor infinite. -/
def R_FINITE : Dbl → Bool
  | .fin _ => true
  | _ => false

/-- The `int` sentinel for a missing integer: `INT_MIN`. -/
def NA_INTEGER : Int := -2147483648

/-- The `int` sentinel for a missing logical: `INT_MIN`. -/
def NA_LOGICAL : Int := -2147483648

/-! ## Element types of the reducers -/

/-- All R type codes (`SEXPTYPE`). -/
inductive SEXPTYPE
  | NILSXP | SYMSXP | LISTSXP | CLOSXP | ENVSXP | PROMSXP | LANGSXP | SPECIALSXP
  | BUILTINSXP | CHARSXP | LGLSXP | INTSXP | REALSXP | CPLXSXP | STRSXP | DOTSXP
  | ANYSXP | VECSXP | EXPRSXP | BCODESXP | EXTPTRSXP | WEAKREFSXP | RAWSXP | S4SXP
  deriving DecidableEq

/-- The values of the template parameter `RTYPE` at which `operate_narm`
instantiates `SimpleDispatchImpl`, hence `MeanImpl`, `VarImpl` and `SdImpl`. -/
inductive NumType
  | INTSXP
  | REALSXP
  | LGLSXP
  deriving DecidableEq

/-- The type code of a reducer element type. -/
def NumType.toSEXPTYPE : NumType → SEXPTYPE
  | .INTSXP => .INTSXP
  | .REALSXP => .REALSXP
  | .LGLSXP => .LGLSXP

/-- The type `Rcpp::traits::storage_type<RTYPE>::type`: `int` for integer and logical
vectors, `double` for numeric vectors. -/
abbrev storage_type : NumType → Type
  | .INTSXP => Int
  | .REALSXP => Dbl
  | .LGLSXP => Int

/-- The test `Rcpp::traits::is_na<RTYPE>` (also `Rcpp::Vector<RTYPE>::is_na`):
comparison with the sentinel for `int` storage, `R_isnancpp` for doubles. -/
def is_na : (RTYPE : NumType) → storage_type RTYPE → Bool
  | .INTSXP, x => decide (x = NA_INTEGER)
  | .REALSXP, x => Dbl.isnan x
  | .LGLSXP, x => decide (x = NA_LOGICAL)

/-- Implicit C++ conversion of a stored value to (long) double, as in
`res += value`: the sentinel of an `int` is converted like any other `int`. -/
def toDouble : (RTYPE : NumType) → storage_type RTYPE → Dbl
  | .INTSXP, x => Dbl.ofInt x
  | .REALSXP, x => x
  | .LGLSXP, x => Dbl.ofInt x

/-- The coercion `Rcpp::internal::r_coerce<RTYPE, REALSXP>`: the sentinel of an `int`
becomes `NA_REAL`, a double is returned unchanged. -/
def r_coerce : (RTYPE : NumType) → storage_type RTYPE → Dbl
  | .INTSXP, x => if x = NA_INTEGER then Dbl.NA_REAL else Dbl.ofInt x
  | .REALSXP, x => x
  | .LGLSXP, x => if x = NA_LOGICAL then Dbl.NA_REAL else Dbl.ofInt x

/-- One group's index view (`Data::slicing_index`): `rows[i]` is `indices[i]`,
`group` is `indices.group()`. -/
structure SlicingIndex where
  rows : List Nat
  group : Nat

/-- The C++ `indices.size()`. -/
def SlicingIndex.size (indices : SlicingIndex) : Int := indices.rows.length

/-! ## R objects -/

/-- Attribute list of an R object: attribute name and value. -/
abbrev Attributes : Type := List (String × List String)

/-- An R vector with elements of storage type `α` (`Rcpp::Vector<RTYPE>`). -/
structure Vector (α : Type) where
  data : List α
  attrib : Attributes

/-- Type codes of the R objects whose content is not modelled. -/
inductive ObjKind
  | LISTSXP | CLOSXP | ENVSXP | PROMSXP | SPECIALSXP | BUILTINSXP | CHARSXP | DOTSXP
  | ANYSXP | EXPRSXP | BCODESXP | EXTPTRSXP | WEAKREFSXP | S4SXP
  deriving DecidableEq

/-- The type code of an object of unmodelled content. -/
def ObjKind.toSEXPTYPE : ObjKind → SEXPTYPE
  | .LISTSXP => .LISTSXP
  | .CLOSXP => .CLOSXP
  | .ENVSXP => .ENVSXP
  | .PROMSXP => .PROMSXP
  | .SPECIALSXP => .SPECIALSXP
  | .BUILTINSXP => .BUILTINSXP
  | .CHARSXP => .CHARSXP
  | .DOTSXP => .DOTSXP
  | .ANYSXP => .ANYSXP
  | .EXPRSXP => .EXPRSXP
  | .BCODESXP => .BCODESXP
  | .EXTPTRSXP => .EXTPTRSXP
  | .WEAKREFSXP => .WEAKREFSXP
  | .S4SXP => .S4SXP

/-- An R object (`SEXP`).  List elements and calls are handles. -/
inductive SEXP
  | R_NilValue
  | R_UnboundValue
  | symbol (name : String)
  | lang (code : Nat)
  | lglsxp (v : Vector Int)
  | intsxp (v : Vector Int)
  | realsxp (v : Vector Dbl)
  | cplxsxp (v : Vector (Dbl × Dbl))
  | strsxp (v : Vector String)
  | vecsxp (v : Vector Nat)
  | rawsxp (v : Vector Nat)
  | object (kind : ObjKind) (handle : Nat)

/-- R `TYPEOF`. -/
def TYPEOF : SEXP → SEXPTYPE
  | .R_NilValue => .NILSXP
  | .R_UnboundValue => .SYMSXP
  | .symbol _ => .SYMSXP
  | .lang _ => .LANGSXP
  | .lglsxp _ => .LGLSXP
  | .intsxp _ => .INTSXP
  | .realsxp _ => .REALSXP
  | .cplxsxp _ => .CPLXSXP
  | .strsxp _ => .STRSXP
  | .vecsxp _ => .VECSXP
  | .rawsxp _ => .RAWSXP
  | .object kind _ => kind.toSEXPTYPE

/-- The values of the template parameter `RTYPE` of `Rcpp::Vector<RTYPE>` for
data vectors. -/
inductive VecType
  | LGLSXP | INTSXP | REALSXP | CPLXSXP | STRSXP | VECSXP | RAWSXP
  deriving DecidableEq

/-- The type code of a vector type. -/
def VecType.toSEXPTYPE : VecType → SEXPTYPE
  | .LGLSXP => .LGLSXP
  | .INTSXP => .INTSXP
  | .REALSXP => .REALSXP
  | .CPLXSXP => .CPLXSXP
  | .STRSXP => .STRSXP
  | .VECSXP => .VECSXP
  | .RAWSXP => .RAWSXP

/-- Storage type of the elements of a vector of type `RTYPE`. -/
abbrev VecType.storage : VecType → Type
  | .LGLSXP => Int
  | .INTSXP => Int
  | .REALSXP => Dbl
  | .CPLXSXP => Dbl × Dbl
  | .STRSXP => String
  | .VECSXP => Nat
  | .RAWSXP => Nat

/-- The R object holding a vector of type `RTYPE`. -/
def SEXP.ofVector : (RTYPE : VecType) → Vector RTYPE.storage → SEXP
  | .LGLSXP, v => .lglsxp v
  | .INTSXP, v => .intsxp v
  | .REALSXP, v => .realsxp v
  | .CPLXSXP, v => .cplxsxp v
  | .STRSXP, v => .strsxp v
  | .VECSXP, v => .vecsxp v
  | .RAWSXP, v => .rawsxp v

/-- The typed view of an R object as a vector of type `RTYPE`
(`r_vector_start<RTYPE>`); `none` when the object has another type, where the
typed read is undefined. -/
def SEXP.asVector : (RTYPE : VecType) → SEXP → Option (Vector RTYPE.storage)
  | .LGLSXP, .lglsxp v => some v
  | .INTSXP, .intsxp v => some v
  | .REALSXP, .realsxp v => some v
  | .CPLXSXP, .cplxsxp v => some v
  | .STRSXP, .strsxp v => some v
  | .VECSXP, .vecsxp v => some v
  | .RAWSXP, .rawsxp v => some v
  | _, _ => none

/-- The read `Rcpp::internal::r_vector_start<RTYPE>(x)[i]`.  A read outside the
payload of `x`, or of an object of another type, is undefined in the source;
here it yields zero. -/
def r_vector_start (RTYPE : NumType) (x : SEXP) (i : Nat) : storage_type RTYPE :=
  match RTYPE, x with
  | .INTSXP, .intsxp v => v.data.getD i 0
  | .LGLSXP, .lglsxp v => v.data.getD i 0
  | .REALSXP, .realsxp v => v.data.getD i (Dbl.fin 0)
  | .INTSXP, _ => (0 : Int)
  | .LGLSXP, _ => (0 : Int)
  | .REALSXP, _ => Dbl.fin 0

/-- A table variable (`Column`): its data and whether it holds one value per
group. -/
structure Column where
  data : SEXP
  is_summary : Bool

namespace hybrid
namespace internal

/-! ## Mean -/

/-- First loop of `MeanImpl::process` over the remaining rows, from the
accumulator `res` and the divisor `m`.  `none` is the early `return NA_REAL`. -/
def MeanImpl.sumLoop (r : NaNRule) (RTYPE : NumType) (NA_RM : Bool)
    (ptr : Nat → storage_type RTYPE) : List Nat → Dbl → Int → Option (Dbl × Int)
  | [], res, m => some (res, m)
  | i :: rest, res, m =>
    let value := ptr i
    if (NA_RM || RTYPE = .INTSXP || RTYPE = .LGLSXP) && is_na RTYPE value then
      if !NA_RM then none
      else MeanImpl.sumLoop r RTYPE NA_RM ptr rest res (m - 1)
    else MeanImpl.sumLoop r RTYPE NA_RM ptr rest (Dbl.add r res (toDouble RTYPE value)) m

/-- Second loop of `MeanImpl::process`: the sum `t` of the residuals. -/
def MeanImpl.residualLoop (r : NaNRule) (RTYPE : NumType) (NA_RM : Bool)
    (ptr : Nat → storage_type RTYPE) (res : Dbl) : List Nat → Dbl → Dbl
  | [], t => t
  | i :: rest, t =>
    let value := ptr i
    if !NA_RM || !is_na RTYPE value then
      MeanImpl.residualLoop r RTYPE NA_RM ptr res rest
        (Dbl.add r t (Dbl.sub r (toDouble RTYPE value) res))
    else MeanImpl.residualLoop r RTYPE NA_RM ptr res rest t

/-- The function `MeanImpl<RTYPE, NA_RM, Index>::process`. -/
def MeanImpl.process (r : NaNRule) (RTYPE : NumType) (NA_RM : Bool)
    (ptr : Nat → storage_type RTYPE) (indices : SlicingIndex) (is_summary : Bool) : Dbl :=
  if is_summary then r_coerce RTYPE (ptr indices.group)
  else
    let n := indices.size
    match MeanImpl.sumLoop r RTYPE NA_RM ptr indices.rows (Dbl.fin 0) n with
    | none => Dbl.NA_REAL
    | some (res, m) =>
      if m = 0 then Dbl.R_NaN
      else
        let res := Dbl.div r res (Dbl.ofInt m)
        if R_FINITE res then
          let t := MeanImpl.residualLoop r RTYPE NA_RM ptr res indices.rows (Dbl.fin 0)
          Dbl.add r res (Dbl.div r t (Dbl.ofInt m))
        else res

/-! ## Variance -/

/-- The C++ `square`. -/
def square (r : NaNRule) (x : Dbl) : Dbl := Dbl.mul r x x

/-- Loop of `VarImpl::process`: sum of squared deviations and count. -/
def VarImpl.loop (r : NaNRule) (RTYPE : NumType) (NA_RM : Bool)
    (data_ptr : Nat → storage_type RTYPE) (m : Dbl) : List Nat → Dbl → Int → Dbl × Int
  | [], sum, count => (sum, count)
  | i :: rest, sum, count =>
    let current := data_ptr i
    if NA_RM && is_na RTYPE current then VarImpl.loop r RTYPE NA_RM data_ptr m rest sum count
    else
      VarImpl.loop r RTYPE NA_RM data_ptr m rest
        (Dbl.add r sum (square r (Dbl.sub r (toDouble RTYPE current) m))) (count + 1)

/-- The function `VarImpl<RTYPE, NA_RM, Index>::process`. -/
def VarImpl.process (r : NaNRule) (RTYPE : NumType) (NA_RM : Bool)
    (data_ptr : Nat → storage_type RTYPE) (indices : SlicingIndex) (is_summary : Bool) : Dbl :=
  if is_summary then Dbl.NA_REAL
  else
    let n := indices.size
    if n ≤ 1 then Dbl.NA_REAL
    else
      let m := MeanImpl.process r RTYPE NA_RM data_ptr indices is_summary
      if !R_FINITE m then m
      else
        let (sum, count) := VarImpl.loop r RTYPE NA_RM data_ptr m indices.rows (Dbl.fin 0) 0
        if count ≤ 1 then Dbl.NA_REAL
        else Dbl.div r sum (Dbl.ofInt (count - 1))

/-- The function `SdImpl<RTYPE, NA_RM, Index>::process`; `sqrt` is the C
library function. -/
def SdImpl.process (sqrt : Dbl → Dbl) (r : NaNRule) (RTYPE : NumType) (NA_RM : Bool)
    (data_ptr : Nat → storage_type RTYPE) (indices : SlicingIndex) (is_summary : Bool) : Dbl :=
  sqrt (VarImpl.process r RTYPE NA_RM data_ptr indices is_summary)

/-! ## The elements the loops use as numbers -/

/-- The elements the first loop of `MeanImpl::process` adds to `res`, in
order; `none` when the loop returns early. -/
def MeanImpl.sumLoopAdded (RTYPE : NumType) (NA_RM : Bool) (ptr : Nat → storage_type RTYPE) :
    List Nat → Option (List (storage_type RTYPE))
  | [] => some []
  | i :: rest =>
    let value := ptr i
    if (NA_RM || RTYPE = .INTSXP || RTYPE = .LGLSXP) && is_na RTYPE value then
      if !NA_RM then none
      else MeanImpl.sumLoopAdded RTYPE NA_RM ptr rest
    else (MeanImpl.sumLoopAdded RTYPE NA_RM ptr rest).map (fun added => value :: added)

/-- The elements whose residual the second loop of `MeanImpl::process` adds
to `t`, in order. -/
def MeanImpl.residualLoopAdded (RTYPE : NumType) (NA_RM : Bool)
    (ptr : Nat → storage_type RTYPE) : List Nat → List (storage_type RTYPE)
  | [] => []
  | i :: rest =>
    let value := ptr i
    if !NA_RM || !is_na RTYPE value then
      value :: MeanImpl.residualLoopAdded RTYPE NA_RM ptr rest
    else MeanImpl.residualLoopAdded RTYPE NA_RM ptr rest

/-- The elements whose squared deviation the loop of `VarImpl::process` adds
to `sum`, in order. -/
def VarImpl.loopAdded (RTYPE : NumType) (NA_RM : Bool) (data_ptr : Nat → storage_type RTYPE) :
    List Nat → List (storage_type RTYPE)
  | [] => []
  | i :: rest =>
    let current := data_ptr i
    if NA_RM && is_na RTYPE current then VarImpl.loopAdded RTYPE NA_RM data_ptr rest
    else current :: VarImpl.loopAdded RTYPE NA_RM data_ptr rest

/-! ## Dispatch on the element type -/

/-- The reducer template argument `Impl` of `SimpleDispatch`
(`MeanImpl`, `VarImpl` or `SdImpl`), as its `process` function. -/
abbrev Reducer : Type :=
  (RTYPE : NumType) → Bool → (Nat → storage_type RTYPE) → SlicingIndex → Bool → Dbl

/-- The class `SimpleDispatchImpl<RTYPE, NA_RM, Data, Impl>`: the producer bound to the
column buffer. -/
structure SimpleDispatchImpl (Data : Type) where
  RTYPE : NumType
  NA_RM : Bool
  data : Data
  data_ptr : Nat → storage_type RTYPE
  is_summary : Bool

/-- Constructor `SimpleDispatchImpl(const Data& data, Column vec)`. -/
def SimpleDispatchImpl.new {Data : Type} (RTYPE : NumType) (NA_RM : Bool) (data : Data)
    (vec : Column) : SimpleDispatchImpl Data :=
  { RTYPE := RTYPE
    NA_RM := NA_RM
    data := data
    data_ptr := r_vector_start RTYPE vec.data
    is_summary := vec.is_summary }

/-- The method `SimpleDispatchImpl::process`. -/
def SimpleDispatchImpl.process {Data : Type} (Impl : Reducer) (self : SimpleDispatchImpl Data)
    (indices : SlicingIndex) : Dbl :=
  Impl self.RTYPE self.NA_RM self.data_ptr indices self.is_summary

/-- The class `SimpleDispatch<Data, Impl>`. -/
structure SimpleDispatch (Data : Type) where
  data : Data
  variable_ : Column
  narm : Bool

/-- The method `SimpleDispatch::operate_narm<Operation, NARM>`; `op` is the operation
functor (`Summary` or `Window`) applied to the producer. -/
def SimpleDispatch.operate_narm {Data : Type} (self : SimpleDispatch Data) (NARM : Bool)
    (op : SimpleDispatchImpl Data → SEXP) : SEXP :=
  match TYPEOF self.variable_.data with
  | .INTSXP => op (SimpleDispatchImpl.new .INTSXP NARM self.data self.variable_)
  | .REALSXP => op (SimpleDispatchImpl.new .REALSXP NARM self.data self.variable_)
  | .LGLSXP => op (SimpleDispatchImpl.new .LGLSXP NARM self.data self.variable_)
  | _ => SEXP.R_UnboundValue

/-- The method `SimpleDispatch::operate`. -/
def SimpleDispatch.operate {Data : Type} (self : SimpleDispatch Data)
    (op : SimpleDispatchImpl Data → SEXP) : SEXP :=
  if self.narm then self.operate_narm true op
  else self.operate_narm false op

end internal
end hybrid

/-! ## Constant recycling (`mutate.cpp`) -/

/-- Modelled from the spec: `copy_most_attributes(out, origin)` is declared
outside the two source files; it copies the non-positional attributes of
`origin` (all but `names`, `dim`, `dimnames`) onto `out`. -/
def copy_most_attributes {α β : Type} (out : Vector α) (origin : Vector β) : Vector α :=
  { out with
    attrib := out.attrib ++
      origin.attrib.filter (fun a => !(a.1 = "names" || a.1 = "dim" || a.1 = "dimnames")) }

/-- The class `ConstantRecycler<RTYPE>`. -/
structure ConstantRecycler (RTYPE : VecType) where
  constant : SEXP
  n : Int

/-- The method `ConstantRecycler::collect`.  `none` when `constant` is not a vector of
type `RTYPE` or is empty (the read of element 0 through
`r_vector_start<RTYPE>` is then undefined), or when the allocation of a vector
of negative length raises. -/
def ConstantRecycler.collect {RTYPE : VecType} (self : ConstantRecycler RTYPE) : Option SEXP :=
  match SEXP.asVector RTYPE self.constant with
  | none => none
  | some v =>
    match v.data with
    | [] => none
    | x :: _ =>
      if self.n < 0 then none
      else
        some (SEXP.ofVector RTYPE
          (copy_most_attributes { data := List.replicate self.n.toNat x, attrib := [] } v))

/-! ## Failures and R helpers used by `mutate.cpp` -/

/-- Failures of the transform.  The first four are the calls of `bad_col`
with the column name and the arguments of the message; `host` is a failure
raised by an external collaborator; `undefined` marks behaviour the source
leaves undefined (a typed read of an object of another type, an iterator moved
past the end). -/
inductive MutateError
  | unsupported_class (name : String) (cls : String)
  | unsupported_type (name : String) (type : SEXPTYPE)
  | length_mismatch (name : String) (actual : Int) (expected : Int)
  | grouping_variable (name : String)
  | host (code : Nat)
  | undefined
  deriving DecidableEq

/-- The attribute list of an R object; only vectors carry one here. -/
def ATTRIB : SEXP → Attributes
  | .lglsxp v => v.attrib
  | .intsxp v => v.attrib
  | .realsxp v => v.attrib
  | .cplxsxp v => v.attrib
  | .strsxp v => v.attrib
  | .vecsxp v => v.attrib
  | .rawsxp v => v.attrib
  | _ => []

/-- R `Rf_inherits`: the class attribute of `x` holds `what`. -/
def Rf_inherits (x : SEXP) (what : String) : Bool :=
  match (ATTRIB x).lookup "class" with
  | some klass => klass.contains what
  | none => false

/-- R `Rf_isNull`. -/
def Rf_isNull (x : SEXP) : Bool := decide (TYPEOF x = .NILSXP)

/-- R `Rf_length`: 0 for `NULL`, the number of elements of a vector, 1 for a
symbol; `objlen` gives the length of calls and of objects of unmodelled
content. -/
def Rf_length (objlen : SEXP → Int) : SEXP → Int
  | .R_NilValue => 0
  | .R_UnboundValue => 1
  | .symbol _ => 1
  | .lglsxp v => v.data.length
  | .intsxp v => v.data.length
  | .realsxp v => v.data.length
  | .cplxsxp v => v.data.length
  | .strsxp v => v.data.length
  | .vecsxp v => v.data.length
  | .rawsxp v => v.data.length
  | x => objlen x

/-- The name of a symbol, `CHAR(PRINTNAME(expr))`. -/
def PRINTNAME : SEXP → String
  | .symbol name => name
  | _ => ""

/-- The call `Rf_setAttrib(x, R_NamesSymbol, R_NilValue)`: the names attribute
is removed. -/
def clearNames : SEXP → SEXP
  | .lglsxp v => .lglsxp { v with attrib := v.attrib.filter (fun a => !(a.1 = "names")) }
  | .intsxp v => .intsxp { v with attrib := v.attrib.filter (fun a => !(a.1 = "names")) }
  | .realsxp v => .realsxp { v with attrib := v.attrib.filter (fun a => !(a.1 = "names")) }
  | .cplxsxp v => .cplxsxp { v with attrib := v.attrib.filter (fun a => !(a.1 = "names")) }
  | .strsxp v => .strsxp { v with attrib := v.attrib.filter (fun a => !(a.1 = "names")) }
  | .vecsxp v => .vecsxp { v with attrib := v.attrib.filter (fun a => !(a.1 = "names")) }
  | .rawsxp v => .rawsxp { v with attrib := v.attrib.filter (fun a => !(a.1 = "names")) }
  | x => x

/-- Modelled from the spec: `check_length(actual, expected, ...)` is declared
outside the two source files; a length is accepted when it equals the expected
count or is 1, and is a length mismatch otherwise. -/
def check_length (actual expected : Int) (name : String) : Except MutateError Unit :=
  if actual = expected ∨ actual = 1 then .ok ()
  else .error (.length_mismatch name actual expected)

/-! ## Tables, namespace and output accumulator -/

/-- The three classes the template parameter `Data` is instantiated at. -/
inductive DataKind
  | RowwiseDataFrame
  | GroupedDataFrame
  | NaturalDataFrame
  deriving DecidableEq

/-- Modelled from the spec: the `Data` object built from the table
(`Data gdf(df)`), whose classes are declared outside the two source files: the
row count, the groups in iteration order and the names of the grouping
variables. -/
structure TableView where
  kind : DataKind
  nrows : Int
  groups : List SlicingIndex
  group_vars : List String

/-- The C++ `data.ngroups()`. -/
def TableView.ngroups (data : TableView) : Int := data.groups.length

/-- The C++ `gdf.has_group(name)`. -/
def TableView.has_group (data : TableView) (name : String) : Bool :=
  data.group_vars.contains name

/-- The address of an R object: the value of a `SEXP` pointer.  Two names
bound to one address are bound to one object, and a change of that object in
place is seen under both. -/
abbrev Addr : Type := Nat

/-- The R objects in memory: the content of the object at each address, and
the first address not in use. -/
structure Memory where
  obj : Addr → SEXP
  next : Addr

/-- A new object with content `x`: the memory with it, and its address. -/
def Memory.alloc (memory : Memory) (x : SEXP) : Memory × Addr :=
  ({ obj := fun a => if a = memory.next then x else memory.obj a, next := memory.next + 1 },
    memory.next)

/-- A change in place of the object at address `a`. -/
def Memory.update (memory : Memory) (a : Addr) (x : SEXP) : Memory :=
  { memory with obj := fun b => if b = a then x else memory.obj b }

/-- A named expression of the request (`NamedQuosure`): output name, the
expression object and the handle of its environment. -/
structure NamedQuosure where
  name : String
  expr : Addr
  env : Nat

/-- Binding of a name in a named list: an existing binding is replaced in
place, a new one is appended. -/
def bind {β : Type} : List (String × β) → String → β → List (String × β)
  | [], name, x => [(name, x)]
  | (k, v) :: rest, name, x =>
    if k = name then (name, x) :: rest else (k, v) :: bind rest name x

/-- Modelled from the spec: the namespace (`Subsets`), whose classes are
declared outside the two source files, as `MutateCallProxy` and the external
evaluator read it: a mapping from variable name to the current content of its
column. -/
structure Subsets where
  vars : List (String × SEXP)

/-- The C++ `subsets.has_variable(name)`. -/
def Subsets.has_variable (subsets : Subsets) (name : String) : Bool :=
  (subsets.vars.lookup name).isSome

/-- The C++ `subsets.get_variable(name)`. -/
def Subsets.get_variable (subsets : Subsets) (name : String) : Option SEXP :=
  subsets.vars.lookup name

/-- Modelled from the spec: the C++ `subsets.input(name, x)`, on the objects
bound in the namespace by address: the name is bound to the object, replacing
an earlier binding of the name. -/
def Subsets.input (vars : List (String × Addr)) (name : String) (x : Addr) :
    List (String × Addr) :=
  bind vars name x

/-- Modelled from the spec: the output accumulator (`NamedListAccumulator`),
declared outside the two source files: the ordered named columns of the
output table, each the address of its object. -/
structure NamedListAccumulator where
  entries : List (String × Addr)

/-- The C++ `accumulator.set(name, x)`. -/
def NamedListAccumulator.set (acc : NamedListAccumulator) (name : String) (x : Addr) :
    NamedListAccumulator :=
  { entries := bind acc.entries name x }

/-- The C++ `accumulator.rm(name)`: the name is removed when present. -/
def NamedListAccumulator.rm (acc : NamedListAccumulator) (name : String) :
    NamedListAccumulator :=
  { entries := acc.entries.filter (fun e => !(e.1 = name)) }

/-- The functions `check_not_groups`: the first requested name that is a
grouping variable of a grouped table is an error; row-wise and ungrouped
tables are not checked. -/
def check_not_groups.loop (gdf : TableView) : List NamedQuosure → Except MutateError Unit
  | [] => .ok ()
  | q :: rest =>
    if gdf.has_group q.name then .error (.grouping_variable q.name)
    else check_not_groups.loop gdf rest

/-- The three overloads of `check_not_groups`. -/
def check_not_groups (quosures : List NamedQuosure) (gdf : TableView) :
    Except MutateError Unit :=
  match gdf.kind with
  | .RowwiseDataFrame => .ok ()
  | .NaturalDataFrame => .ok ()
  | .GroupedDataFrame => check_not_groups.loop gdf quosures

/-! ## The expression evaluator `MutateCallProxy` -/

/-- The class `MutateCallProxy<Data, Subsets>`. -/
structure MutateCallProxy where
  data : TableView
  subsets : Subsets
  expr : SEXP
  env : Nat
  name : String

/-- The collaborators of `MutateCallProxy` that are outside the two source
files: the external evaluator reached through `Rcpp_eval` (with the expression,
its environment, the namespace and the group), the helpers `all_na`,
`check_supported_type` (as the test it performs) and `is_vector`, the
collection of the gatherer built by `gatherer_impl`, and the length of calls
and of objects of unmodelled content. -/
structure Host where
  Rcpp_eval : SEXP → Nat → Subsets → SlicingIndex → Except MutateError SEXP
  all_na : SEXP → Bool
  supported_type : SEXP → Bool
  is_vector : SEXP → Bool
  gatherer_collect : SEXP → SlicingIndex → MutateCallProxy → Int → Except MutateError SEXP
  objlen : SEXP → Int

/-- Calls of the collaborators, in order: a per-group `get(indices)`, which
clears the per-group bindings and calls the external evaluator, and the
construction of the gatherer from the representative `first` at position
`i`. -/
inductive Event
  | get (indices : SlicingIndex)
  | gatherer (first : SEXP) (i : Int)

/-- The method `MutateCallProxy::mutate_constant_recycle`, with `collect`
undefined mapped to the `undefined` failure. -/
def MutateCallProxy.mutate_constant_recycle (self : MutateCallProxy) (x : SEXP) :
    Except MutateError SEXP :=
  if Rf_inherits x "POSIXlt" then .error (.unsupported_class self.name "POSIXlt")
  else
    let n := self.data.nrows
    let collected : Option SEXP → Except MutateError SEXP := fun out =>
      match out with
      | some column => .ok column
      | none => .error .undefined
    match TYPEOF x with
    | .INTSXP =>
      collected (ConstantRecycler.collect ({ constant := x, n := n } : ConstantRecycler .INTSXP))
    | .REALSXP =>
      collected (ConstantRecycler.collect ({ constant := x, n := n } : ConstantRecycler .REALSXP))
    | .LGLSXP =>
      collected (ConstantRecycler.collect ({ constant := x, n := n } : ConstantRecycler .LGLSXP))
    | .STRSXP =>
      collected (ConstantRecycler.collect ({ constant := x, n := n } : ConstantRecycler .REALSXP))
    | .CPLXSXP =>
      collected (ConstantRecycler.collect ({ constant := x, n := n } : ConstantRecycler .STRSXP))
    | .VECSXP =>
      collected (ConstantRecycler.collect ({ constant := x, n := n } : ConstantRecycler .VECSXP))
    | .RAWSXP =>
      collected (ConstantRecycler.collect ({ constant := x, n := n } : ConstantRecycler .RAWSXP))
    | t => .error (.unsupported_type self.name t)

/-- The method `MutateCallProxy::validate_unquoted_value`. -/
def MutateCallProxy.validate_unquoted_value (host : Host) (self : MutateCallProxy) :
    Except MutateError SEXP :=
  let nrows := self.data.nrows
  if host.is_vector self.expr then
    match check_length (Rf_length host.objlen self.expr) nrows self.name with
    | .error e => .error e
    | .ok _ => .ok self.expr
  else .error (.unsupported_type self.name (TYPEOF self.expr))

/-- The method `MutateCallProxy::get(const Index& indices)`: the external
evaluation of the expression for one group. -/
def MutateCallProxy.get_indices (host : Host) (self : MutateCallProxy)
    (indices : SlicingIndex) : Except MutateError SEXP :=
  host.Rcpp_eval self.expr self.env self.subsets indices

/-- State of `evaluate` between its phases: the current result `first`, its
group `indices`, the position `i`, the groups after the iterator and the calls
made so far. -/
structure Representative where
  first : SEXP
  indices : SlicingIndex
  i : Int
  rest : List SlicingIndex
  log : List Event

/-- Outcome of a search loop of `evaluate`: it left the function, or ended
with a representative. -/
inductive Search
  | returned (result : Except MutateError SEXP) (log : List Event)
  | reached (rep : Representative)

/-- Lines 165 to 173 of `evaluate`: advance while the result is `NULL`. -/
def MutateCallProxy.skipNull (host : Host) (self : MutateCallProxy) (ng : Int) :
    List SlicingIndex → SEXP → SlicingIndex → Int → List Event → Search
  | rest, first, indices, i, log =>
    if Rf_isNull first then
      if i + 1 = ng then .returned (.ok SEXP.R_NilValue) log
      else
        match rest with
        | [] => .returned (.error .undefined) log
        | g :: rest2 =>
          match self.get_indices host g with
          | .error e => .returned (.error e) (log ++ [Event.get g])
          | .ok next => MutateCallProxy.skipNull host self ng rest2 next g (i + 1)
              (log ++ [Event.get g])
    else .reached { first := first, indices := indices, i := i, rest := rest, log := log }

/-- Lines 178 to 184 of `evaluate`: advance while the result is all missing;
the loop breaks with `i = ng` after the last group. -/
def MutateCallProxy.skipAllNA (host : Host) (self : MutateCallProxy) (ng : Int) :
    List SlicingIndex → SEXP → SlicingIndex → Int → List Event → Search
  | rest, first, indices, i, log =>
    if host.all_na first then
      if i + 1 = ng then
        .reached { first := first, indices := indices, i := i + 1, rest := rest, log := log }
      else
        match rest with
        | [] => .returned (.error .undefined) log
        | g :: rest2 =>
          match self.get_indices host g with
          | .error e => .returned (.error e) (log ++ [Event.get g])
          | .ok next => MutateCallProxy.skipAllNA host self ng rest2 next g (i + 1)
              (log ++ [Event.get g])
    else .reached { first := first, indices := indices, i := i, rest := rest, log := log }

/-- Lines 148 to 173 of `evaluate`: the first group is evaluated, the classes
`POSIXlt` and `data.frame` of its result are rejected, and `NULL` results are
skipped. -/
def MutateCallProxy.firstNonNull (host : Host) (self : MutateCallProxy) : Search :=
  let ng := self.data.ngroups
  match self.data.groups with
  | [] => .returned (.error .undefined) []
  | g0 :: rest =>
    match self.get_indices host g0 with
    | .error e => .returned (.error e) [Event.get g0]
    | .ok first =>
      if Rf_inherits first "POSIXlt" then
        .returned (.error (.unsupported_class self.name "POSIXlt")) [Event.get g0]
      else if Rf_inherits first "data.frame" then
        .returned (.error (.unsupported_class self.name "data.frame")) [Event.get g0]
      else MutateCallProxy.skipNull host self ng rest first g0 0 [Event.get g0]

/-- Lines 174 to 188 of `evaluate`, from the first result that is not `NULL`:
the checks of type and length, the skip of all-missing results when there is
more than one group, and the gatherer. -/
def MutateCallProxy.checkAndGather (host : Host) (self : MutateCallProxy)
    (rep : Representative) : Except MutateError SEXP × List Event :=
  let ng := self.data.ngroups
  if !host.supported_type rep.first then
    (.error (.unsupported_type self.name (TYPEOF rep.first)), rep.log)
  else
    match check_length (Rf_length host.objlen rep.first) rep.indices.size self.name with
    | .error e => (.error e, rep.log)
    | .ok _ =>
      let found : Search :=
        if ng > 1 then
          MutateCallProxy.skipAllNA host self ng rep.rest rep.first rep.indices rep.i rep.log
        else .reached rep
      match found with
      | .returned result log => (result, log)
      | .reached last =>
        (host.gatherer_collect last.first last.indices self last.i,
          last.log ++ [Event.gatherer last.first last.i])

/-- The method `MutateCallProxy::evaluate`: the result and the calls made. -/
def MutateCallProxy.evaluate (host : Host) (self : MutateCallProxy) :
    Except MutateError SEXP × List Event :=
  match MutateCallProxy.firstNonNull host self with
  | .returned result log => (result, log)
  | .reached rep => MutateCallProxy.checkAndGather host self rep

/-- The method `MutateCallProxy::get()`: the result and the calls made. -/
def MutateCallProxy.get (host : Host) (self : MutateCallProxy) :
    Except MutateError SEXP × List Event :=
  if Rf_isNull self.expr then (.ok self.expr, [])
  else if TYPEOF self.expr = .SYMSXP && self.subsets.has_variable (PRINTNAME self.expr) then
    match self.subsets.get_variable (PRINTNAME self.expr) with
    | some column => (.ok column, [])
    | none => (.error .undefined, [])
  else if TYPEOF self.expr = .LANGSXP || TYPEOF self.expr = .SYMSXP then
    MutateCallProxy.evaluate host self
  else if Rf_length host.objlen self.expr = 1 then
    (MutateCallProxy.mutate_constant_recycle self self.expr, [])
  else (MutateCallProxy.validate_unquoted_value host self, [])

/-! ## The orchestrator `mutate_grouped` -/

/-- Where the object returned by `get()` comes from: the column bound to a
name in the namespace (`subsets.get_variable`, lines 78 to 79), the expression
object itself (`return expr`, lines 74 and 142), or a new object (the vector
built by `ConstantRecycler::collect`, line 47, and the column collected by the
gatherer, line 188, which the spec describes as the column under
construction). -/
inductive Origin
  | bound (name : String)
  | expression
  | created

/-- The origin of the object returned by `get()`, by the tests of `get()`. -/
def MutateCallProxy.origin (host : Host) (self : MutateCallProxy) : Origin :=
  if Rf_isNull self.expr then .expression
  else if TYPEOF self.expr = .SYMSXP && self.subsets.has_variable (PRINTNAME self.expr) then
    .bound (PRINTNAME self.expr)
  else if TYPEOF self.expr = .LANGSXP || TYPEOF self.expr = .SYMSXP then .created
  else if Rf_length host.objlen self.expr = 1 then .created
  else .expression

/-- State of `mutate_grouped` in its loop: the objects in memory, and the
objects bound in the namespace `subsets` and in the accumulator, by
address. -/
structure MutateState where
  memory : Memory
  subsets : List (String × Addr)
  accumulator : NamedListAccumulator

/-- The namespace as `MutateCallProxy` reads it: each name with the current
content of the object bound to it. -/
def MutateState.subsetsView (st : MutateState) : Subsets :=
  { vars := st.subsets.map (fun e => (e.1, st.memory.obj e.2)) }

/-- The named columns of the accumulator with their current content. -/
def MutateState.table (st : MutateState) : List (String × SEXP) :=
  st.accumulator.entries.map (fun e => (e.1, st.memory.obj e.2))

/-- The proxy built for one expression
(`MutateCallProxy<Data, Subsets>(gdf, subsets, quosure.expr(), quosure.env(), name)`). -/
def MutateState.proxy (st : MutateState) (gdf : TableView) (quosure : NamedQuosure) :
    MutateCallProxy :=
  { data := gdf, subsets := st.subsetsView, expr := st.memory.obj quosure.expr,
    env := quosure.env, name := quosure.name }

/-- The address of the object `variable_` returned by `get()`, with the memory
holding it: the address bound in the namespace, the address of the expression
object, or the address of a new object. -/
def MutateState.locate (st : MutateState) (quosure : NamedQuosure) (origin : Origin)
    (variable_ : SEXP) : Option (Memory × Addr) :=
  match origin with
  | .bound name => (st.subsets.lookup name).map (fun a => (st.memory, a))
  | .expression => some (st.memory, quosure.expr)
  | .created => some (st.memory.alloc variable_)

/-- Lines 271 to 276 of `mutate_grouped`: unless the table is a
`NaturalDataFrame` the names of the object at `a` are cleared in place
(`Rf_setAttrib(variable, R_NamesSymbol, R_NilValue)`), then the object is bound
to `name` in the namespace (`subsets.input(name, variable)`) and in the
accumulator (`accumulator.set(name, variable)`). -/
def MutateState.store (st : MutateState) (kind : DataKind) (name : String) (memory : Memory)
    (a : Addr) : MutateState :=
  { memory :=
      if kind ≠ .NaturalDataFrame then memory.update a (clearNames (memory.obj a)) else memory
    subsets := Subsets.input st.subsets name a
    accumulator := st.accumulator.set name a }

/-- The loop of `mutate_grouped` over the remaining expressions, from the
state and the calls made so far.  No user interrupt is pending. -/
def mutate_grouped.loop (host : Host) (gdf : TableView) :
    List NamedQuosure → MutateState → List Event → Except MutateError MutateState × List Event
  | [], st, log => (.ok st, log)
  | quosure :: rest, st, log =>
    let name := quosure.name
    match MutateCallProxy.get host (st.proxy gdf quosure) with
    | (.error e, calls) => (.error e, log ++ calls)
    | (.ok variable_, calls) =>
      if Rf_isNull variable_ then
        mutate_grouped.loop host gdf rest { st with accumulator := st.accumulator.rm name }
          (log ++ calls)
      else
        match st.locate quosure (MutateCallProxy.origin host (st.proxy gdf quosure)) variable_ with
        | none => (.error .undefined, log ++ calls)
        | some (memory, a) =>
          mutate_grouped.loop host gdf rest (st.store gdf.kind name memory a) (log ++ calls)

/-- The namespace built from the table (`Subsets subsets(gdf)`): every input
column under its name. -/
def MutateState.seedSubsets (df : List (String × Addr)) : List (String × Addr) :=
  df.foldl (fun subsets c => Subsets.input subsets c.1 c.2) []

/-- The accumulator after `copying data to accumulator`. -/
def NamedListAccumulator.ofColumns (df : List (String × Addr)) : NamedListAccumulator :=
  df.foldl (fun acc c => acc.set c.1 c.2) { entries := [] }

/-- The function `mutate_grouped<Data, Subsets>` on the table whose named
columns are the objects `df` of `memory`: the final state, or the failure, and
the calls made. -/
def mutate_grouped.run (host : Host) (gdf : TableView) (memory : Memory)
    (df : List (String × Addr)) (dots : List NamedQuosure) :
    Except MutateError MutateState × List Event :=
  match check_not_groups dots gdf with
  | .error e => (.error e, [])
  | .ok _ =>
    mutate_grouped.loop host gdf dots
      { memory := memory, subsets := MutateState.seedSubsets df,
        accumulator := NamedListAccumulator.ofColumns df } []

/-- The function `mutate_grouped<Data, Subsets>`: the named columns of the
output table with their content, or the failure, and the calls made.  The
class, row names and grouping metadata put on the result by collaborators are
not modelled. -/
def mutate_grouped (host : Host) (gdf : TableView) (memory : Memory)
    (df : List (String × Addr)) (dots : List NamedQuosure) :
    Except MutateError (List (String × SEXP)) × List Event :=
  match mutate_grouped.run host gdf memory df dots with
  | (.error e, log) => (.error e, log)
  | (.ok st, log) => (.ok st.table, log)

/-! ## A host for the examples -/

/-- A host for the examples: the external evaluator yields the element of
`results` at the group's ordinal (`NULL` past the end), a logical vector is all
missing when each element is the sentinel, the data vector types are the
supported ones, and the gatherer returns its representative. -/
def exampleHost (results : List SEXP) : Host :=
  { Rcpp_eval := fun _ _ _ indices => .ok (results.getD indices.group SEXP.R_NilValue)
    all_na := fun x =>
      match x with
      | .lglsxp v => v.data.all (fun b => decide (b = NA_LOGICAL))
      | _ => false
    supported_type := fun x =>
      match x with
      | .lglsxp _ => true
      | .intsxp _ => true
      | .realsxp _ => true
      | .cplxsxp _ => true
      | .strsxp _ => true
      | .vecsxp _ => true
      | .rawsxp _ => true
      | _ => false
    is_vector := fun x =>
      match x with
      | .lglsxp _ => true
      | .intsxp _ => true
      | .realsxp _ => true
      | .cplxsxp _ => true
      | .strsxp _ => true
      | .vecsxp _ => true
      | .rawsxp _ => true
      | _ => false
    gatherer_collect := fun first _ _ _ => .ok first
    objlen := fun _ => 1 }

/-- A memory for the examples: the objects of the list, at the addresses 0,
1, 2 and so on. -/
def exampleMemory (objects : List SEXP) : Memory :=
  { obj := fun a => objects.getD a SEXP.R_NilValue, next := objects.length }

/-! ## Reference definitions, following the specification -/

/-- The elements of a group, in index order. -/
def groupValues {α : Type} (ptr : Nat → α) (indices : SlicingIndex) : List α :=
  indices.rows.map ptr

/-- The elements a reducer includes: the non-missing ones when missing values
are dropped, all of them otherwise. -/
def included (RTYPE : NumType) (NA_RM : Bool) (vals : List (storage_type RTYPE)) :
    List (storage_type RTYPE) :=
  if NA_RM then vals.filter (fun v => !is_na RTYPE v) else vals

/-- Sum of doubles, from zero, left to right. -/
def Dbl.sum (r : NaNRule) (xs : List Dbl) : Dbl := xs.foldl (Dbl.add r) (Dbl.fin 0)

/-- Arithmetic mean: the sum divided by the number of elements. -/
def arithmeticMean (r : NaNRule) (xs : List Dbl) : Dbl :=
  Dbl.div r (Dbl.sum r xs) (Dbl.ofInt xs.length)

/-- Sum of squared deviations from `m`, divided by the count less one. -/
def sampleVariance (r : NaNRule) (m : Dbl) (xs : List Dbl) : Dbl :=
  Dbl.div r (Dbl.sum r (xs.map (fun x => Dbl.mul r (Dbl.sub r x m) (Dbl.sub r x m))))
    (Dbl.ofInt ((xs.length : Int) - 1))

/-! ## Arithmetic on finite doubles -/

namespace Dbl

@[simp] theorem add_fin_fin (r : NaNRule) (x y : ℚ) : add r (fin x) (fin y) = fin (x + y) := by
  simp [add, isnan]

@[simp] theorem sub_fin_fin (r : NaNRule) (x y : ℚ) : sub r (fin x) (fin y) = fin (x - y) := by
  simp [sub, neg, sub_eq_add_neg]

@[simp] theorem mul_fin_fin (r : NaNRule) (x y : ℚ) : mul r (fin x) (fin y) = fin (x * y) := by
  simp [mul, isnan]

theorem div_fin_fin (r : NaNRule) (x y : ℚ) (hy : y ≠ 0) :
    div r (fin x) (fin y) = fin (x / y) := by
  simp [div, isnan, hy]

/-- A finite sum has finite operands. -/
theorem add_eq_fin (r : NaNRule) (a b : Dbl) (s : ℚ) (h : add r a b = fin s) :
    ∃ x y, a = fin x ∧ b = fin y ∧ s = x + y := by
  cases a <;> cases b <;> cases r <;>
    simp [add, nanResult, pick, isnan] at h ⊢
  all_goals exact h.symm

/-- A sum with a non-finite left operand is not finite. -/
theorem add_not_finite (r : NaNRule) (a b : Dbl) (h : R_FINITE a = false) :
    R_FINITE (add r a b) = false := by
  cases hs : add r a b with
  | fin s =>
    obtain ⟨x, y, hx, _, _⟩ := add_eq_fin r a b s hs
    simp [hx, R_FINITE] at h
  | _ => rfl

/-- A sum with a non-finite right operand is not finite. -/
theorem add_not_finite_right (r : NaNRule) (a b : Dbl) (h : R_FINITE b = false) :
    R_FINITE (add r a b) = false := by
  cases hs : add r a b with
  | fin s =>
    obtain ⟨x, y, _, hy, _⟩ := add_eq_fin r a b s hs
    simp [hy, R_FINITE] at h
  | _ => rfl

/-- A finite quotient by a non-zero finite divisor has a finite dividend. -/
theorem div_eq_fin (r : NaNRule) (a : Dbl) (y μ : ℚ) (hy : y ≠ 0)
    (h : div r a (fin y) = fin μ) : ∃ x, a = fin x ∧ μ = x / y := by
  cases a <;> simp [div, nanResult, isnan, hy, inf] at h ⊢
  · split at h <;> simp at h
  · split at h <;> simp at h
  · exact h.symm

/-- Once the accumulator is not finite, the sum stays non-finite. -/
theorem foldl_add_not_finite (r : NaNRule) (xs : List Dbl) (a : Dbl)
    (h : R_FINITE a = false) : R_FINITE (xs.foldl (add r) a) = false := by
  induction xs generalizing a with
  | nil => simpa using h
  | cons x xs ih => exact ih _ (add_not_finite r a x h)

/-- Summing finite values is rational addition. -/
theorem foldl_add_map_fin (r : NaNRule) (qs : List ℚ) (a : ℚ) :
    (qs.map fin).foldl (add r) (fin a) = fin (a + qs.sum) := by
  induction qs generalizing a with
  | nil => simp
  | cons q qs ih => simp [ih, add_assoc]

/-- A finite sum is a sum of finite values. -/
theorem foldl_add_eq_fin (r : NaNRule) (xs : List Dbl) (a s : ℚ)
    (h : xs.foldl (add r) (fin a) = fin s) : ∃ qs : List ℚ, xs = qs.map fin ∧ s = a + qs.sum := by
  induction xs generalizing a with
  | nil =>
    refine ⟨[], rfl, ?_⟩
    simp at h
    simp [h]
  | cons x xs ih =>
    simp only [List.foldl_cons] at h
    cases hx : R_FINITE x with
    | false =>
      have hnf := foldl_add_not_finite r xs _ (add_not_finite_right r (fin a) x hx)
      rw [h] at hnf
      simp [R_FINITE] at hnf
    | true =>
      cases x with
      | fin q =>
        simp only [add_fin_fin] at h
        obtain ⟨qs, hqs, hs⟩ := ih _ h
        exact ⟨q :: qs, by simp [hqs], by simp [hs, add_assoc]⟩
      | _ => simp [R_FINITE] at hx

end Dbl

namespace hybrid
namespace internal

/-! ## The loops as folds over the included elements -/

/-- With missing values dropped, the first loop of Mean sums the non-missing
elements and lowers the divisor by the number of missing ones. -/
theorem MeanImpl.sumLoop_drop (r : NaNRule) (RTYPE : NumType) (ptr : Nat → storage_type RTYPE)
    (rows : List Nat) (res : Dbl) (m : Int) :
    MeanImpl.sumLoop r RTYPE true ptr rows res m =
      some (((included RTYPE true (rows.map ptr)).map (toDouble RTYPE)).foldl (Dbl.add r) res,
        m - ((rows.length : Int) - ((included RTYPE true (rows.map ptr)).length : Int))) := by
  induction rows generalizing res m with
  | nil => simp [MeanImpl.sumLoop, included]
  | cons i rest ih =>
    cases hna : is_na RTYPE (ptr i) with
    | true =>
      simp only [MeanImpl.sumLoop, hna, included, ih] at ih ⊢
      simp [hna]
      omega
    | false =>
      simp only [MeanImpl.sumLoop, hna, included, ih] at ih ⊢
      simp [hna]

/-- Without dropping, the first loop of Mean returns early at a missing
integer or logical element. -/
theorem MeanImpl.sumLoop_keep_na (r : NaNRule) (RTYPE : NumType) (ptr : Nat → storage_type RTYPE)
    (rows : List Nat) (res : Dbl) (m : Int) (ht : RTYPE ≠ .REALSXP)
    (h : ∃ i ∈ rows, is_na RTYPE (ptr i) = true) :
    MeanImpl.sumLoop r RTYPE false ptr rows res m = none := by
  induction rows generalizing res with
  | nil => simp at h
  | cons i rest ih =>
    have htest : (RTYPE = .INTSXP ∨ RTYPE = .LGLSXP) := by
      cases RTYPE <;> simp at ht ⊢
    cases hna : is_na RTYPE (ptr i) with
    | true => simp [MeanImpl.sumLoop, hna, htest]
    | false =>
      simp only [MeanImpl.sumLoop, hna]
      simp only [Bool.and_false, Bool.false_eq_true, if_false]
      apply ih
      obtain ⟨j, hj, hjna⟩ := h
      rcases List.mem_cons.mp hj with rfl | hj
      · rw [hna] at hjna; cases hjna
      · exact ⟨j, hj, hjna⟩

/-- Without dropping, the first loop of Mean sums every element when the
column is double or no element is missing. -/
theorem MeanImpl.sumLoop_keep (r : NaNRule) (RTYPE : NumType) (ptr : Nat → storage_type RTYPE)
    (rows : List Nat) (res : Dbl) (m : Int)
    (h : RTYPE = .REALSXP ∨ ∀ i ∈ rows, is_na RTYPE (ptr i) = false) :
    MeanImpl.sumLoop r RTYPE false ptr rows res m =
      some (((rows.map ptr).map (toDouble RTYPE)).foldl (Dbl.add r) res, m) := by
  induction rows generalizing res with
  | nil => simp [MeanImpl.sumLoop]
  | cons i rest ih =>
    have hskip : ((false || decide (RTYPE = .INTSXP) || decide (RTYPE = .LGLSXP)) &&
        is_na RTYPE (ptr i)) = false := by
      rcases h with h | h
      · subst h; simp
      · simp [h i (List.mem_cons_self _ _)]
    have hrest : RTYPE = .REALSXP ∨ ∀ j ∈ rest, is_na RTYPE (ptr j) = false := by
      rcases h with h | h
      · exact Or.inl h
      · exact Or.inr (fun j hj => h j (List.mem_cons_of_mem _ hj))
    simp only [MeanImpl.sumLoop, hskip, Bool.false_eq_true, if_false, List.map_cons,
      List.foldl_cons]
    exact ih _ hrest

/-- The second loop of Mean sums the residuals of the included elements. -/
theorem MeanImpl.residualLoop_eq (r : NaNRule) (RTYPE : NumType) (NA_RM : Bool)
    (ptr : Nat → storage_type RTYPE) (res : Dbl) (rows : List Nat) (t : Dbl) :
    MeanImpl.residualLoop r RTYPE NA_RM ptr res rows t =
      (((included RTYPE NA_RM (rows.map ptr)).map (toDouble RTYPE)).map
        (fun v => Dbl.sub r v res)).foldl (Dbl.add r) t := by
  induction rows generalizing t with
  | nil => cases NA_RM <;> simp [MeanImpl.residualLoop, included]
  | cons i rest ih =>
    cases NA_RM with
    | false =>
      simp only [MeanImpl.residualLoop, included] at ih ⊢
      simp [ih]
    | true =>
      cases hna : is_na RTYPE (ptr i) with
      | true =>
        simp only [MeanImpl.residualLoop, hna, included] at ih ⊢
        simp [ih, hna]
      | false =>
        simp only [MeanImpl.residualLoop, hna, included] at ih ⊢
        simp [ih, hna]

/-- The loop of Variance sums the squared deviations of the included elements
and counts them. -/
theorem VarImpl.loop_eq (r : NaNRule) (RTYPE : NumType) (NA_RM : Bool)
    (data_ptr : Nat → storage_type RTYPE) (m : Dbl) (rows : List Nat) (sum : Dbl) (count : Int) :
    VarImpl.loop r RTYPE NA_RM data_ptr m rows sum count =
      ((((included RTYPE NA_RM (rows.map data_ptr)).map (toDouble RTYPE)).map
          (fun v => Dbl.mul r (Dbl.sub r v m) (Dbl.sub r v m))).foldl (Dbl.add r) sum,
        count + ((included RTYPE NA_RM (rows.map data_ptr)).length : Int)) := by
  induction rows generalizing sum count with
  | nil => cases NA_RM <;> simp [VarImpl.loop, included]
  | cons i rest ih =>
    cases NA_RM with
    | false =>
      simp only [VarImpl.loop, included] at ih ⊢
      simp [ih, square]
      omega
    | true =>
      cases hna : is_na RTYPE (data_ptr i) with
      | true =>
        simp only [VarImpl.loop, hna, included] at ih ⊢
        simp [ih, hna]
      | false =>
        simp only [VarImpl.loop, hna, included] at ih ⊢
        simp [ih, hna, square]
        omega

/-- Sum of the residuals about `μ` of rational values. -/
theorem sum_residuals (qs : List ℚ) (μ : ℚ) :
    (qs.map (fun q => q - μ)).sum = qs.sum - (qs.length : ℚ) * μ := by
  induction qs with
  | nil => simp
  | cons q qs ih =>
    simp only [List.map_cons, List.sum_cons, List.length_cons, ih]
    push_cast
    ring

/-- Whenever the first loop of Mean does not return early, it yields the sum
of the included elements and their count. -/
theorem MeanImpl.sumLoop_included (r : NaNRule) (RTYPE : NumType) (NA_RM : Bool)
    (ptr : Nat → storage_type RTYPE) (indices : SlicingIndex)
    (h : NA_RM = true ∨ RTYPE = .REALSXP ∨ ∀ i ∈ indices.rows, is_na RTYPE (ptr i) = false) :
    MeanImpl.sumLoop r RTYPE NA_RM ptr indices.rows (Dbl.fin 0) indices.size =
      some (Dbl.sum r ((included RTYPE NA_RM (groupValues ptr indices)).map (toDouble RTYPE)),
        ((included RTYPE NA_RM (groupValues ptr indices)).length : Int)) := by
  cases NA_RM with
  | true =>
    rw [MeanImpl.sumLoop_drop]
    simp only [Dbl.sum, groupValues, SlicingIndex.size]
    congr 2
    omega
  | false =>
    have h2 : RTYPE = .REALSXP ∨ ∀ i ∈ indices.rows, is_na RTYPE (ptr i) = false := by
      rcases h with h | h
      · cases h
      · exact h
    rw [MeanImpl.sumLoop_keep r RTYPE ptr indices.rows _ _ h2]
    simp [Dbl.sum, groupValues, SlicingIndex.size, included]

/-- The compensating pass contributes nothing: adding the mean residual to a
finite mean of a non-empty list returns that mean. -/
theorem mean_correction (r : NaNRule) (vals : List Dbl) (hne : vals ≠ []) (μ : ℚ)
    (hdiv : Dbl.div r (Dbl.sum r vals) (Dbl.ofInt (vals.length : Int)) = Dbl.fin μ) :
    Dbl.add r (Dbl.fin μ)
      (Dbl.div r ((vals.map (fun v => Dbl.sub r v (Dbl.fin μ))).foldl (Dbl.add r) (Dbl.fin 0))
        (Dbl.ofInt (vals.length : Int))) = Dbl.fin μ := by
  have hpos := List.length_pos.mpr hne
  have hq : ((vals.length : Int) : ℚ) ≠ 0 := by
    have : (vals.length : Int) ≠ 0 := by omega
    exact_mod_cast this
  obtain ⟨s, hs, hμ⟩ := Dbl.div_eq_fin r _ _ μ hq hdiv
  obtain ⟨qs, hqs, hsum⟩ := Dbl.foldl_add_eq_fin r _ 0 s hs
  subst hqs
  have hmap : (qs.map Dbl.fin).map (fun v => Dbl.sub r v (Dbl.fin μ)) =
      (qs.map (fun q => q - μ)).map Dbl.fin := by
    simp [List.map_map, Function.comp_def]
  rw [hmap, Dbl.foldl_add_map_fin, sum_residuals]
  simp only [List.length_map] at hq hμ ⊢
  have hzero : (0 : ℚ) + (qs.sum - (qs.length : ℚ) * μ) = 0 := by
    have hq2 : (qs.length : ℚ) ≠ 0 := by exact_mod_cast hq
    rw [hμ, hsum]
    push_cast
    field_simp
  rw [hzero, Dbl.ofInt, Dbl.div_fin_fin r 0 _ hq]
  simp

/-- When the first pass ends with the sum and the count of a non-empty list of
included elements, Mean is their arithmetic mean. -/
theorem MeanImpl.process_included (r : NaNRule) (RTYPE : NumType) (NA_RM : Bool)
    (ptr : Nat → storage_type RTYPE) (indices : SlicingIndex)
    (h : NA_RM = true ∨ RTYPE = .REALSXP ∨ ∀ i ∈ indices.rows, is_na RTYPE (ptr i) = false)
    (hne : included RTYPE NA_RM (groupValues ptr indices) ≠ []) :
    MeanImpl.process r RTYPE NA_RM ptr indices false =
      arithmeticMean r ((included RTYPE NA_RM (groupValues ptr indices)).map (toDouble RTYPE)) := by
  have hlen : ((included RTYPE NA_RM (groupValues ptr indices)).length : Int) ≠ 0 := by
    have := List.length_pos.mpr hne
    omega
  have hne2 : (included RTYPE NA_RM (groupValues ptr indices)).map (toDouble RTYPE) ≠ [] := by
    simpa using hne
  simp only [MeanImpl.process, Bool.false_eq_true, if_false,
    MeanImpl.sumLoop_included r RTYPE NA_RM ptr indices h, hlen, arithmeticMean,
    MeanImpl.residualLoop_eq]
  have hcorr := mean_correction r _ hne2
  simp only [List.length_map, groupValues] at hcorr ⊢
  cases hdiv : Dbl.div r
      (Dbl.sum r ((included RTYPE NA_RM (indices.rows.map ptr)).map (toDouble RTYPE)))
      (Dbl.ofInt ((included RTYPE NA_RM (indices.rows.map ptr)).length : Int)) with
  | fin μ => simpa [R_FINITE] using hcorr μ hdiv
  | NA_REAL => simp [R_FINITE]
  | R_NaN => simp [R_FINITE]
  | R_PosInf => simp [R_FINITE]
  | R_NegInf => simp [R_FINITE]

/-- Without dropping, Mean of a non-summary integer or logical column is the
missing value as soon as the group holds a missing element. -/
theorem MeanImpl.process_keep_na (r : NaNRule) (RTYPE : NumType)
    (ptr : Nat → storage_type RTYPE) (indices : SlicingIndex) (ht : RTYPE ≠ .REALSXP)
    (h : ∃ i ∈ indices.rows, is_na RTYPE (ptr i) = true) :
    MeanImpl.process r RTYPE false ptr indices false = Dbl.NA_REAL := by
  simp [MeanImpl.process, MeanImpl.sumLoop_keep_na r RTYPE ptr indices.rows _ _ ht h]

/-- When the first pass ends with nothing included, Mean is NaN. -/
theorem MeanImpl.process_nothing_included (r : NaNRule) (RTYPE : NumType) (NA_RM : Bool)
    (ptr : Nat → storage_type RTYPE) (indices : SlicingIndex)
    (h : NA_RM = true ∨ RTYPE = .REALSXP ∨ ∀ i ∈ indices.rows, is_na RTYPE (ptr i) = false)
    (hempty : included RTYPE NA_RM (groupValues ptr indices) = []) :
    MeanImpl.process r RTYPE NA_RM ptr indices false = Dbl.R_NaN := by
  simp [MeanImpl.process, MeanImpl.sumLoop_included r RTYPE NA_RM ptr indices h, hempty]

/-- A finite Mean of a non-summary column: the included elements are finite
values `qs`, there is at least one, and Mean is `qs.sum / qs.length`. -/
theorem MeanImpl.finite_mean_included (r : NaNRule) (RTYPE : NumType) (NA_RM : Bool)
    (ptr : Nat → storage_type RTYPE) (indices : SlicingIndex)
    (hm : R_FINITE (MeanImpl.process r RTYPE NA_RM ptr indices false) = true) :
    ∃ qs : List ℚ,
      (included RTYPE NA_RM (groupValues ptr indices)).map (toDouble RTYPE) = qs.map Dbl.fin ∧
      qs ≠ [] ∧
      MeanImpl.process r RTYPE NA_RM ptr indices false = Dbl.fin (qs.sum / (qs.length : ℚ)) := by
  have hearly : NA_RM = true ∨ RTYPE = .REALSXP ∨
      ∀ i ∈ indices.rows, is_na RTYPE (ptr i) = false := by
    by_contra hcon
    push_neg at hcon
    obtain ⟨hrm, ht, i, hi, hna⟩ := hcon
    have hrm2 : NA_RM = false := by simpa using hrm
    have hna2 : is_na RTYPE (ptr i) = true := by simpa using hna
    subst hrm2
    rw [MeanImpl.process_keep_na r RTYPE ptr indices ht ⟨i, hi, hna2⟩] at hm
    simp [R_FINITE] at hm
  by_cases hempty : included RTYPE NA_RM (groupValues ptr indices) = []
  · rw [MeanImpl.process_nothing_included r RTYPE NA_RM ptr indices hearly hempty] at hm
    simp [R_FINITE] at hm
  · have hmean := MeanImpl.process_included r RTYPE NA_RM ptr indices hearly hempty
    rw [hmean] at hm ⊢
    have hlen : (((included RTYPE NA_RM (groupValues ptr indices)).length : Int) : ℚ) ≠ 0 := by
      have := List.length_pos.mpr hempty
      have h0 : ((included RTYPE NA_RM (groupValues ptr indices)).length : Int) ≠ 0 := by omega
      exact_mod_cast h0
    cases hdiv : arithmeticMean r
        ((included RTYPE NA_RM (groupValues ptr indices)).map (toDouble RTYPE)) with
    | fin μ =>
      simp only [arithmeticMean, List.length_map] at hdiv
      obtain ⟨s, hs, hμ⟩ := Dbl.div_eq_fin r _ _ μ hlen hdiv
      obtain ⟨qs, hqs, hsum⟩ := Dbl.foldl_add_eq_fin r _ 0 s hs
      refine ⟨qs, hqs, ?_, ?_⟩
      · intro hnil
        rw [hnil] at hqs
        simp only [List.map_nil, List.map_eq_nil_iff] at hqs
        exact hempty hqs
      · have hl := congrArg List.length hqs
        simp only [List.length_map] at hl
        rw [hμ, hsum, hl]
        simp
    | NA_REAL => rw [hdiv] at hm; simp [R_FINITE] at hm
    | R_NaN => rw [hdiv] at hm; simp [R_FINITE] at hm
    | R_PosInf => rw [hdiv] at hm; simp [R_FINITE] at hm
    | R_NegInf => rw [hdiv] at hm; simp [R_FINITE] at hm

/-! ## Mean: claims -/

/-- C1: for a non-summary column and a group with at least one non-missing
element, Mean with missing values dropped is the sum of the non-missing
elements divided by their number; when these elements are the finite values
`qs`, it is the rational `qs.sum / qs.length`. -/
theorem mean_drop_missing_is_arithmetic_mean (r : NaNRule) (RTYPE : NumType)
    (ptr : Nat → storage_type RTYPE) (indices : SlicingIndex)
    (h : ∃ i ∈ indices.rows, is_na RTYPE (ptr i) = false) :
    MeanImpl.process r RTYPE true ptr indices false =
        arithmeticMean r
          (((groupValues ptr indices).filter (fun v => !is_na RTYPE v)).map (toDouble RTYPE)) ∧
      ∀ qs : List ℚ,
        ((groupValues ptr indices).filter (fun v => !is_na RTYPE v)).map (toDouble RTYPE) =
            qs.map Dbl.fin →
          MeanImpl.process r RTYPE true ptr indices false =
            Dbl.fin (qs.sum / (qs.length : ℚ)) := by
  have hne : included RTYPE true (groupValues ptr indices) ≠ [] := by
    obtain ⟨i, hi, hna⟩ := h
    have hmem : ptr i ∈ included RTYPE true (groupValues ptr indices) := by
      simp only [included, if_true, groupValues, List.mem_filter, List.mem_map]
      exact ⟨⟨i, hi, rfl⟩, by simp [hna]⟩
    exact List.ne_nil_of_mem hmem
  have hmean := MeanImpl.process_included r RTYPE true ptr indices (Or.inl rfl) hne
  simp only [included, if_true] at hmean hne
  refine ⟨hmean, fun qs hqs => ?_⟩
  rw [hmean, hqs, arithmeticMean, Dbl.sum, Dbl.foldl_add_map_fin, Dbl.ofInt]
  have hlen : qs ≠ [] := by
    intro hnil
    rw [hnil] at hqs
    simp only [List.map_nil, List.map_eq_nil_iff] at hqs
    exact hne hqs
  have hq : (((qs.map Dbl.fin).length : Int) : ℚ) ≠ 0 := by
    have := List.length_pos.mpr hlen
    simp only [List.length_map]
    have h0 : (qs.length : Int) ≠ 0 := by omega
    exact_mod_cast h0
  rw [Dbl.div_fin_fin r _ _ hq]
  simp

/-- Witness for C1: the column `[1, 2, NA, 4]` with groups `{0, 1}` and
`{2, 3}` has means `1.5` and `4` when missing values are dropped. -/
theorem mean_drop_missing_is_arithmetic_mean_witness :
    MeanImpl.process .firstOperand .INTSXP true
        (fun i => [1, 2, NA_INTEGER, 4].getD i 0) ⟨[0, 1], 0⟩ false = Dbl.fin (3 / 2) ∧
      MeanImpl.process .firstOperand .INTSXP true
        (fun i => [1, 2, NA_INTEGER, 4].getD i 0) ⟨[2, 3], 1⟩ false = Dbl.fin 4 := by
  constructor
  · have h := (mean_drop_missing_is_arithmetic_mean .firstOperand .INTSXP
      (fun i => [1, 2, NA_INTEGER, 4].getD i 0) ⟨[0, 1], 0⟩
      ⟨0, by simp, by simp [is_na, NA_INTEGER]⟩).2 [1, 2]
      (by simp [groupValues, is_na, NA_INTEGER, toDouble, Dbl.ofInt])
    rw [h]
    norm_num
  · have h := (mean_drop_missing_is_arithmetic_mean .firstOperand .INTSXP
      (fun i => [1, 2, NA_INTEGER, 4].getD i 0) ⟨[2, 3], 1⟩
      ⟨3, by simp, by simp [is_na, NA_INTEGER]⟩).2 [4]
      (by simp [groupValues, is_na, NA_INTEGER, toDouble, Dbl.ofInt])
    rw [h]
    norm_num

/-- C7: on a summary column Mean returns the value stored at the group's
ordinal coerced to double, whatever the flag, the NaN rule and the rows of the
group are; coercion maps the integer and logical sentinels to the missing
double and leaves every other value numerically unchanged. -/
theorem mean_of_summary_column (r : NaNRule) (RTYPE : NumType) (NA_RM : Bool)
    (ptr : Nat → storage_type RTYPE) (indices : SlicingIndex) :
    MeanImpl.process r RTYPE NA_RM ptr indices true = r_coerce RTYPE (ptr indices.group) ∧
      (∀ (r2 : NaNRule) (NA_RM2 : Bool) (rows2 : List Nat),
        MeanImpl.process r2 RTYPE NA_RM2 ptr ⟨rows2, indices.group⟩ true =
          MeanImpl.process r RTYPE NA_RM ptr indices true) ∧
      r_coerce .INTSXP NA_INTEGER = Dbl.NA_REAL ∧
      r_coerce .LGLSXP NA_LOGICAL = Dbl.NA_REAL ∧
      (∀ x : Int, x ≠ NA_INTEGER → r_coerce .INTSXP x = Dbl.fin (x : ℚ)) ∧
      (∀ x : Int, x ≠ NA_LOGICAL → r_coerce .LGLSXP x = Dbl.fin (x : ℚ)) ∧
      (∀ x : Dbl, r_coerce .REALSXP x = x) := by
  refine ⟨by simp [MeanImpl.process], fun r2 NA_RM2 rows2 => by simp [MeanImpl.process],
    by simp [r_coerce], by simp [r_coerce], fun x hx => by simp [r_coerce, hx, Dbl.ofInt],
    fun x hx => by simp [r_coerce, hx, Dbl.ofInt], fun x => rfl⟩

/-- Witness for C7: a summary column `[5, NA]` read at group 0 and at
group 1, with a group of rows unrelated to the stored values. -/
theorem mean_of_summary_column_witness :
    MeanImpl.process .firstOperand .INTSXP false
        (fun i => [5, NA_INTEGER].getD i 0) ⟨[7, 8, 9], 0⟩ true = Dbl.fin 5 ∧
      MeanImpl.process .firstOperand .INTSXP true
        (fun i => [5, NA_INTEGER].getD i 0) ⟨[], 1⟩ true = Dbl.NA_REAL := by
  constructor
  · have h := mean_of_summary_column .firstOperand .INTSXP false
      (fun i => [5, NA_INTEGER].getD i 0) ⟨[7, 8, 9], 0⟩
    rw [h.1]
    have h5 := h.2.2.2.2.1 5 (by simp [NA_INTEGER])
    simpa using h5
  · have h := mean_of_summary_column .firstOperand .INTSXP true
      (fun i => [5, NA_INTEGER].getD i 0) ⟨[], 1⟩
    rw [h.1]
    simpa using h.2.2.1

/-- C8: on a non-summary column Mean is NaN, which is not the missing value,
whenever nothing is included: for an empty group with either flag, and for a
group whose elements are all missing when missing values are dropped. -/
theorem mean_nan_when_nothing_included (r : NaNRule) (RTYPE : NumType)
    (ptr : Nat → storage_type RTYPE) (indices : SlicingIndex) :
    (indices.rows = [] →
        ∀ NA_RM : Bool, MeanImpl.process r RTYPE NA_RM ptr indices false = Dbl.R_NaN) ∧
      ((∀ i ∈ indices.rows, is_na RTYPE (ptr i) = true) →
        MeanImpl.process r RTYPE true ptr indices false = Dbl.R_NaN) ∧
      Dbl.R_NaN ≠ Dbl.NA_REAL ∧ R_FINITE Dbl.R_NaN = false := by
  refine ⟨fun hrows NA_RM => ?_, fun hall => ?_, by simp, rfl⟩
  · have hloop := MeanImpl.sumLoop_included r RTYPE NA_RM ptr indices
      (Or.inr (Or.inr (by simp [hrows])))
    have hempty : included RTYPE NA_RM (groupValues ptr indices) = [] := by
      cases NA_RM <;> simp [included, groupValues, hrows]
    simp [MeanImpl.process, hloop, hempty]
  · have hloop := MeanImpl.sumLoop_included r RTYPE true ptr indices (Or.inl rfl)
    have hempty : included RTYPE true (groupValues ptr indices) = [] := by
      simp only [included, if_true, groupValues, List.filter_eq_nil_iff, List.mem_map]
      rintro v ⟨i, hi, rfl⟩
      simp [hall i hi]
    simp [MeanImpl.process, hloop, hempty]

/-- Witness for C8: the empty group, and the group `{0, 1}` of the integer
column `[NA, NA]` with missing values dropped. -/
theorem mean_nan_when_nothing_included_witness :
    MeanImpl.process .firstOperand .INTSXP false (fun _ => 0) ⟨[], 0⟩ false = Dbl.R_NaN ∧
      MeanImpl.process .firstOperand .INTSXP true
        (fun i => [NA_INTEGER, NA_INTEGER].getD i 0) ⟨[0, 1], 0⟩ false = Dbl.R_NaN :=
  ⟨(mean_nan_when_nothing_included .firstOperand .INTSXP (fun _ => 0) ⟨[], 0⟩).1 rfl false,
    (mean_nan_when_nothing_included .firstOperand .INTSXP
      (fun i => [NA_INTEGER, NA_INTEGER].getD i 0) ⟨[0, 1], 0⟩).2.1
      (by simp [is_na, NA_INTEGER])⟩

/-! ## Variance: claims -/

/-- Variance past its guards: for a non-summary column, a group of two or
more elements and a finite Mean `m`, the result is decided by the count of
included elements. -/
theorem VarImpl.process_finite_mean (r : NaNRule) (RTYPE : NumType) (NA_RM : Bool)
    (data_ptr : Nat → storage_type RTYPE) (indices : SlicingIndex)
    (hn : 2 ≤ indices.rows.length)
    (hm : R_FINITE (MeanImpl.process r RTYPE NA_RM data_ptr indices false) = true) :
    VarImpl.process r RTYPE NA_RM data_ptr indices false =
      if (included RTYPE NA_RM (groupValues data_ptr indices)).length ≤ 1 then Dbl.NA_REAL
      else sampleVariance r (MeanImpl.process r RTYPE NA_RM data_ptr indices false)
        ((included RTYPE NA_RM (groupValues data_ptr indices)).map (toDouble RTYPE)) := by
  have hsize : ¬ indices.size ≤ 1 := by
    simp only [SlicingIndex.size]
    omega
  simp only [VarImpl.process, Bool.false_eq_true, if_false, hsize, hm, Bool.not_true,
    VarImpl.loop_eq, sampleVariance, Dbl.sum, groupValues, List.length_map, zero_add]
  by_cases hc : (included RTYPE NA_RM (indices.rows.map data_ptr)).length ≤ 1
  · have hc2 : ((included RTYPE NA_RM (indices.rows.map data_ptr)).length : Int) ≤ 1 := by
      omega
    simp [hc, hc2]
  · have hc2 : ¬ ((included RTYPE NA_RM (indices.rows.map data_ptr)).length : Int) ≤ 1 := by
      omega
    simp [hc, hc2]

/-- C3: Variance is the missing value for every summary column and for every
group of size 0 or 1, whatever the element type, the flag and the values. -/
theorem var_missing_for_summary_or_small_group (r : NaNRule) (RTYPE : NumType) (NA_RM : Bool)
    (data_ptr : Nat → storage_type RTYPE) (indices : SlicingIndex) (is_summary : Bool)
    (h : is_summary = true ∨ indices.rows.length ≤ 1) :
    VarImpl.process r RTYPE NA_RM data_ptr indices is_summary = Dbl.NA_REAL := by
  rcases h with h | h
  · simp [VarImpl.process, h]
  · have hsize : indices.size ≤ 1 := by
      simp only [SlicingIndex.size]
      omega
    simp [VarImpl.process, hsize]

/-- Witness for C3: a summary column with a large group, and a group of one
infinite double. -/
theorem var_missing_for_summary_or_small_group_witness :
    VarImpl.process .firstOperand .INTSXP true (fun i => [1, 5, 9].getD i 0)
        ⟨[0, 1, 2], 0⟩ true = Dbl.NA_REAL ∧
      VarImpl.process .firstOperand .REALSXP false (fun _ => Dbl.R_PosInf)
        ⟨[0], 0⟩ false = Dbl.NA_REAL :=
  ⟨var_missing_for_summary_or_small_group .firstOperand .INTSXP true
      (fun i => [1, 5, 9].getD i 0) ⟨[0, 1, 2], 0⟩ true (Or.inl rfl),
    var_missing_for_summary_or_small_group .firstOperand .REALSXP false
      (fun _ => Dbl.R_PosInf) ⟨[0], 0⟩ false (Or.inr (by simp))⟩

/-- C4 fails as stated: for the group `{0}` of the double column `[+Inf]`
Mean is `+Inf`, which is not finite, while Variance is the missing value. -/
theorem var_of_nonfinite_mean_counterexample :
    MeanImpl.process .firstOperand .REALSXP false (fun _ => Dbl.R_PosInf) ⟨[0], 0⟩ false =
        Dbl.R_PosInf ∧
      R_FINITE (MeanImpl.process .firstOperand .REALSXP false (fun _ => Dbl.R_PosInf)
        ⟨[0], 0⟩ false) = false ∧
      VarImpl.process .firstOperand .REALSXP false (fun _ => Dbl.R_PosInf) ⟨[0], 0⟩ false =
        Dbl.NA_REAL ∧
      VarImpl.process .firstOperand .REALSXP false (fun _ => Dbl.R_PosInf) ⟨[0], 0⟩ false ≠
        MeanImpl.process .firstOperand .REALSXP false (fun _ => Dbl.R_PosInf) ⟨[0], 0⟩ false := by
  have hmean : MeanImpl.process .firstOperand .REALSXP false (fun _ => Dbl.R_PosInf)
      ⟨[0], 0⟩ false = Dbl.R_PosInf := by
    simp [MeanImpl.process, MeanImpl.sumLoop, SlicingIndex.size, is_na, toDouble, Dbl.add,
      Dbl.div, Dbl.isnan, Dbl.ofInt, Dbl.inf, R_FINITE]
  have hvar : VarImpl.process .firstOperand .REALSXP false (fun _ => Dbl.R_PosInf)
      ⟨[0], 0⟩ false = Dbl.NA_REAL := by
    simp [VarImpl.process, SlicingIndex.size]
  rw [hmean, hvar]
  simp [R_FINITE]

/-- C4 as amended: for a non-summary column and a group of two or more
elements, a non-finite Mean is returned by Variance unchanged. -/
theorem var_returns_nonfinite_mean (r : NaNRule) (RTYPE : NumType) (NA_RM : Bool)
    (data_ptr : Nat → storage_type RTYPE) (indices : SlicingIndex)
    (hn : 2 ≤ indices.rows.length)
    (hm : R_FINITE (MeanImpl.process r RTYPE NA_RM data_ptr indices false) = false) :
    VarImpl.process r RTYPE NA_RM data_ptr indices false =
      MeanImpl.process r RTYPE NA_RM data_ptr indices false := by
  have hsize : ¬ indices.size ≤ 1 := by
    simp only [SlicingIndex.size]
    omega
  simp [VarImpl.process, hsize, hm]

/-- Witness for C4 as amended: the group `{0, 1}` of the double column
`[-Inf, 1]` has Mean `-Inf` and Variance `-Inf`. -/
theorem var_returns_nonfinite_mean_witness :
    VarImpl.process .firstOperand .REALSXP false
        (fun i => [Dbl.R_NegInf, Dbl.fin 1].getD i (Dbl.fin 0)) ⟨[0, 1], 0⟩ false =
      Dbl.R_NegInf := by
  have hmean : MeanImpl.process .firstOperand .REALSXP false
      (fun i => [Dbl.R_NegInf, Dbl.fin 1].getD i (Dbl.fin 0)) ⟨[0, 1], 0⟩ false =
        Dbl.R_NegInf := by
    simp [MeanImpl.process, MeanImpl.sumLoop, SlicingIndex.size, is_na, toDouble, Dbl.add,
      Dbl.div, Dbl.isnan, Dbl.ofInt, Dbl.inf, R_FINITE]
  have h := var_returns_nonfinite_mean .firstOperand .REALSXP false
    (fun i => [Dbl.R_NegInf, Dbl.fin 1].getD i (Dbl.fin 0)) ⟨[0, 1], 0⟩ (by simp)
    (by rw [hmean]; rfl)
  rw [h, hmean]

/-- C5 fails as stated: for the group `{0, 1}` of the integer column
`[NA, NA]` with missing values dropped nothing is included, and Variance is
NaN, not the missing value. -/
theorem var_all_missing_counterexample :
    ((groupValues (fun i => [NA_INTEGER, NA_INTEGER].getD i 0) ⟨[0, 1], 0⟩).filter
        (fun v => !is_na .INTSXP v)).length = 0 ∧
      VarImpl.process .firstOperand .INTSXP true
        (fun i => [NA_INTEGER, NA_INTEGER].getD i 0) ⟨[0, 1], 0⟩ false = Dbl.R_NaN ∧
      VarImpl.process .firstOperand .INTSXP true
        (fun i => [NA_INTEGER, NA_INTEGER].getD i 0) ⟨[0, 1], 0⟩ false ≠ Dbl.NA_REAL := by
  have hvar : VarImpl.process .firstOperand .INTSXP true
      (fun i => [NA_INTEGER, NA_INTEGER].getD i 0) ⟨[0, 1], 0⟩ false = Dbl.R_NaN := by
    simp [VarImpl.process, MeanImpl.process, MeanImpl.sumLoop, SlicingIndex.size, is_na,
      NA_INTEGER, R_FINITE]
  refine ⟨by simp [groupValues, is_na, NA_INTEGER], hvar, ?_⟩
  rw [hvar]
  simp

/-- C5 as amended: for a non-summary column with missing values dropped and
at most one non-missing element in the group, Variance is the missing value
when Mean is finite or the group has at most one element; for a group of two
or more elements with a non-finite Mean it is that Mean, which is NaN when
every element is missing. -/
theorem var_drop_missing_few_included (r : NaNRule) (RTYPE : NumType)
    (data_ptr : Nat → storage_type RTYPE) (indices : SlicingIndex)
    (hc : ((groupValues data_ptr indices).filter (fun v => !is_na RTYPE v)).length ≤ 1) :
    (R_FINITE (MeanImpl.process r RTYPE true data_ptr indices false) = true →
        VarImpl.process r RTYPE true data_ptr indices false = Dbl.NA_REAL) ∧
      (indices.rows.length ≤ 1 →
        VarImpl.process r RTYPE true data_ptr indices false = Dbl.NA_REAL) ∧
      (2 ≤ indices.rows.length →
        R_FINITE (MeanImpl.process r RTYPE true data_ptr indices false) = false →
        VarImpl.process r RTYPE true data_ptr indices false =
          MeanImpl.process r RTYPE true data_ptr indices false) ∧
      (2 ≤ indices.rows.length →
        (groupValues data_ptr indices).filter (fun v => !is_na RTYPE v) = [] →
        VarImpl.process r RTYPE true data_ptr indices false = Dbl.R_NaN) := by
  have hsmall : indices.rows.length ≤ 1 →
      VarImpl.process r RTYPE true data_ptr indices false = Dbl.NA_REAL := by
    intro hn
    have hsize : indices.size ≤ 1 := by
      simp only [SlicingIndex.size]
      omega
    simp [VarImpl.process, hsize]
  have hnonfin : 2 ≤ indices.rows.length →
      R_FINITE (MeanImpl.process r RTYPE true data_ptr indices false) = false →
      VarImpl.process r RTYPE true data_ptr indices false =
        MeanImpl.process r RTYPE true data_ptr indices false := by
    intro hn hm
    have hsize : ¬ indices.size ≤ 1 := by
      simp only [SlicingIndex.size]
      omega
    simp [VarImpl.process, hsize, hm]
  refine ⟨fun hm => ?_, hsmall, hnonfin, fun hn hempty => ?_⟩
  · by_cases hn : indices.rows.length ≤ 1
    · exact hsmall hn
    · rw [VarImpl.process_finite_mean r RTYPE true data_ptr indices (by omega) hm]
      simp only [included, if_true]
      simp [hc]
  · have hmean := MeanImpl.process_nothing_included r RTYPE true data_ptr indices (Or.inl rfl)
      (by simpa [included] using hempty)
    rw [hnonfin hn (by rw [hmean]; rfl), hmean]

/-- Witness for C5 as amended: the group `{0, 1}` of the integer column
`[NA, 3]` has one non-missing element and a finite Mean, so Variance is the
missing value; the group `{0, 1}` of `[NA, NA]` gives NaN. -/
theorem var_drop_missing_few_included_witness :
    VarImpl.process .firstOperand .INTSXP true
        (fun i => [NA_INTEGER, 3].getD i 0) ⟨[0, 1], 0⟩ false = Dbl.NA_REAL ∧
      VarImpl.process .firstOperand .INTSXP true
        (fun i => [NA_INTEGER, NA_INTEGER].getD i 0) ⟨[0, 1], 0⟩ false = Dbl.R_NaN := by
  constructor
  · refine (var_drop_missing_few_included .firstOperand .INTSXP
      (fun i => [NA_INTEGER, 3].getD i 0) ⟨[0, 1], 0⟩
      (by simp [groupValues, is_na, NA_INTEGER])).1 ?_
    simp [MeanImpl.process, MeanImpl.sumLoop, MeanImpl.residualLoop, SlicingIndex.size, is_na,
      NA_INTEGER, R_FINITE, toDouble, Dbl.ofInt, Dbl.div, Dbl.isnan]
  · exact (var_drop_missing_few_included .firstOperand .INTSXP
      (fun i => [NA_INTEGER, NA_INTEGER].getD i 0) ⟨[0, 1], 0⟩
      (by simp [groupValues, is_na, NA_INTEGER])).2.2.2 (by simp)
      (by simp [groupValues, is_na, NA_INTEGER])

/-- Sum of the squared deviations of finite values about a finite centre. -/
theorem sum_squared_deviations (r : NaNRule) (qs : List ℚ) (μ : ℚ) :
    Dbl.sum r ((qs.map Dbl.fin).map
        (fun x => Dbl.mul r (Dbl.sub r x (Dbl.fin μ)) (Dbl.sub r x (Dbl.fin μ)))) =
      Dbl.fin ((qs.map (fun q => (q - μ) ^ 2)).sum) := by
  have hmap : (qs.map Dbl.fin).map
      (fun x => Dbl.mul r (Dbl.sub r x (Dbl.fin μ)) (Dbl.sub r x (Dbl.fin μ))) =
        (qs.map (fun q => (q - μ) ^ 2)).map Dbl.fin := by
    simp [List.map_map, Function.comp_def, sq]
  rw [Dbl.sum, hmap, Dbl.foldl_add_map_fin]
  simp

/-- C6: for a non-summary column, a group of two or more elements, a finite
Mean and two or more included elements, Variance is the sum over the included
elements of the squared deviation from Mean divided by their count less one;
the included elements are then finite values `qs`, Mean is the rational
`μ = qs.sum / qs.length` and Variance is the rational
`(Σ (q - μ)²) / (qs.length - 1)`. -/
theorem var_is_sample_variance (r : NaNRule) (RTYPE : NumType) (NA_RM : Bool)
    (data_ptr : Nat → storage_type RTYPE) (indices : SlicingIndex)
    (hn : 2 ≤ indices.rows.length)
    (hm : R_FINITE (MeanImpl.process r RTYPE NA_RM data_ptr indices false) = true)
    (hc : 2 ≤ (included RTYPE NA_RM (groupValues data_ptr indices)).length) :
    VarImpl.process r RTYPE NA_RM data_ptr indices false =
        sampleVariance r (MeanImpl.process r RTYPE NA_RM data_ptr indices false)
          ((included RTYPE NA_RM (groupValues data_ptr indices)).map (toDouble RTYPE)) ∧
      ∃ (qs : List ℚ) (μ : ℚ),
        (included RTYPE NA_RM (groupValues data_ptr indices)).map (toDouble RTYPE) =
            qs.map Dbl.fin ∧
          μ = qs.sum / (qs.length : ℚ) ∧
          MeanImpl.process r RTYPE NA_RM data_ptr indices false = Dbl.fin μ ∧
          VarImpl.process r RTYPE NA_RM data_ptr indices false =
            Dbl.fin ((qs.map (fun q => (q - μ) ^ 2)).sum / ((qs.length : ℚ) - 1)) := by
  have hvar := VarImpl.process_finite_mean r RTYPE NA_RM data_ptr indices hn hm
  have hc2 : ¬ (included RTYPE NA_RM (groupValues data_ptr indices)).length ≤ 1 := by omega
  rw [if_neg hc2] at hvar
  refine ⟨hvar, ?_⟩
  obtain ⟨qs, hqs, _, hmean⟩ := MeanImpl.finite_mean_included r RTYPE NA_RM data_ptr indices hm
  refine ⟨qs, qs.sum / (qs.length : ℚ), hqs, rfl, hmean, ?_⟩
  have hl := congrArg List.length hqs
  simp only [List.length_map] at hl
  rw [hvar, hmean, hqs, sampleVariance, sum_squared_deviations, Dbl.ofInt]
  have hden : ((((qs.map Dbl.fin).length : Int) - 1 : Int) : ℚ) ≠ 0 := by
    have h0 : ((qs.map Dbl.fin).length : Int) - 1 ≠ 0 := by
      simp only [List.length_map]
      omega
    exact_mod_cast h0
  rw [Dbl.div_fin_fin r _ _ hden]
  simp

/-- Witness for C6: the group of all four rows of the integer column
`[1, 2, 3, 4]` has Mean `5/2` and Variance `5/3`. -/
theorem var_is_sample_variance_witness :
    VarImpl.process .firstOperand .INTSXP false
        (fun i => [1, 2, 3, 4].getD i 0) ⟨[0, 1, 2, 3], 0⟩ false = Dbl.fin (5 / 3) := by
  have hmean : MeanImpl.process .firstOperand .INTSXP false
      (fun i => [1, 2, 3, 4].getD i 0) ⟨[0, 1, 2, 3], 0⟩ false = Dbl.fin (5 / 2) := by
    simp [MeanImpl.process, MeanImpl.sumLoop, MeanImpl.residualLoop, SlicingIndex.size, is_na,
      NA_INTEGER, R_FINITE, toDouble, Dbl.ofInt, Dbl.div, Dbl.isnan]
    norm_num
  have h := (var_is_sample_variance .firstOperand .INTSXP false
    (fun i => [1, 2, 3, 4].getD i 0) ⟨[0, 1, 2, 3], 0⟩ (by simp)
    (by rw [hmean]; rfl) (by simp [included, groupValues])).1
  rw [h, hmean]
  simp [included, groupValues, toDouble, Dbl.ofInt, sampleVariance, Dbl.sum, Dbl.div, Dbl.isnan]
  norm_num

/-! ## Mean without dropping, on a group with a missing element -/

/-- Adding anything to the missing value leaves it when the platform keeps
the larger payload. -/
theorem foldl_add_na_larger (xs : List Dbl) :
    xs.foldl (Dbl.add .largerPayload) Dbl.NA_REAL = Dbl.NA_REAL := by
  induction xs with
  | nil => rfl
  | cons x xs ih =>
    have hx : Dbl.add .largerPayload Dbl.NA_REAL x = Dbl.NA_REAL := by
      cases x <;> simp [Dbl.add, Dbl.nanResult, Dbl.pick, Dbl.isnan]
    simpa [hx] using ih

/-- When the platform keeps the larger payload, a sum over a list holding the
missing value is the missing value. -/
theorem foldl_add_mem_na_larger (xs : List Dbl) (a : Dbl) (h : Dbl.NA_REAL ∈ xs) :
    xs.foldl (Dbl.add .largerPayload) a = Dbl.NA_REAL := by
  induction xs generalizing a with
  | nil => simp at h
  | cons x xs ih =>
    rcases List.mem_cons.mp h with hx | hx
    · have hadd : Dbl.add .largerPayload a Dbl.NA_REAL = Dbl.NA_REAL := by
        cases a <;> simp [Dbl.add, Dbl.nanResult, Dbl.pick, Dbl.isnan]
      rw [← hx, List.foldl_cons, hadd]
      exact foldl_add_na_larger xs
    · exact ih _ hx

/-- On a platform that keeps the larger payload, Mean without dropping of a
non-summary double column is the missing value for every group holding a
missing element. -/
theorem MeanImpl.process_keep_na_real_larger (ptr : Nat → Dbl) (indices : SlicingIndex)
    (h : ∃ i ∈ indices.rows, ptr i = Dbl.NA_REAL) :
    MeanImpl.process .largerPayload .REALSXP false ptr indices false = Dbl.NA_REAL := by
  obtain ⟨i, hi, hna⟩ := h
  have hmem : Dbl.NA_REAL ∈ (included .REALSXP false (groupValues ptr indices)).map
      (toDouble .REALSXP) := by
    simp only [included, groupValues, Bool.false_eq_true, if_false]
    exact List.mem_map.mpr ⟨ptr i, List.mem_map_of_mem _ hi, by rw [hna]; rfl⟩
  have hne : included .REALSXP false (groupValues ptr indices) ≠ [] := by
    intro hnil
    rw [hnil] at hmem
    simp at hmem
  rw [MeanImpl.process_included .largerPayload .REALSXP false ptr indices (Or.inr (Or.inl rfl))
    hne, arithmeticMean, Dbl.sum, foldl_add_mem_na_larger _ _ hmem]
  simp [Dbl.div, Dbl.nanResult, Dbl.isnan, Dbl.ofInt]

/-- C2, evaluated where the code departs from it: on a platform that keeps
the payload of the first NaN operand, Mean without dropping of the double
group `[NaN, NA]`, and of the double group `[+Inf, -Inf, NA]`, is NaN and not
the missing value, although both groups hold a missing element. -/
theorem mean_keep_missing_nan_before_na :
    Dbl.R_IsNA ([Dbl.R_NaN, Dbl.NA_REAL].getD 1 (Dbl.fin 0)) = true ∧
      MeanImpl.process .firstOperand .REALSXP false
        (fun i => [Dbl.R_NaN, Dbl.NA_REAL].getD i (Dbl.fin 0)) ⟨[0, 1], 0⟩ false = Dbl.R_NaN ∧
      MeanImpl.process .firstOperand .REALSXP false
        (fun i => [Dbl.R_PosInf, Dbl.R_NegInf, Dbl.NA_REAL].getD i (Dbl.fin 0))
        ⟨[0, 1, 2], 0⟩ false = Dbl.R_NaN ∧
      Dbl.R_IsNA Dbl.R_NaN = false := by
  refine ⟨rfl, ?_, ?_, rfl⟩
  · simp [MeanImpl.process, MeanImpl.sumLoop, SlicingIndex.size, is_na, toDouble, Dbl.add,
      Dbl.div, Dbl.isnan, Dbl.ofInt, Dbl.nanResult, Dbl.pick, R_FINITE]
  · simp [MeanImpl.process, MeanImpl.sumLoop, SlicingIndex.size, is_na, toDouble, Dbl.add,
      Dbl.div, Dbl.isnan, Dbl.ofInt, Dbl.nanResult, Dbl.pick, R_FINITE]

/-! ## Dispatch: claims -/

/-- C9: `operate` applies the operation to the producer instantiated at the
column's element type and the dispatcher's flag when that type is integer,
double or logical, and returns `R_UnboundValue` for every other type; as the
operation never yields `R_UnboundValue`, a producer is returned exactly for
those three types.  The producer carries the given type and flag and is bound
to the column's buffer and summary tag. -/
theorem dispatch_on_element_type {Data : Type} (self : SimpleDispatch Data)
    (op : SimpleDispatchImpl Data → SEXP) :
    (∀ t : NumType, TYPEOF self.variable_.data = t.toSEXPTYPE →
        self.operate op = op (SimpleDispatchImpl.new t self.narm self.data self.variable_)) ∧
      ((∀ t : NumType, TYPEOF self.variable_.data ≠ t.toSEXPTYPE) →
        self.operate op = SEXP.R_UnboundValue) ∧
      ((∀ impl, op impl ≠ SEXP.R_UnboundValue) →
        (self.operate op ≠ SEXP.R_UnboundValue ↔
          (TYPEOF self.variable_.data = .INTSXP ∨ TYPEOF self.variable_.data = .REALSXP ∨
            TYPEOF self.variable_.data = .LGLSXP))) ∧
      (∀ (t : NumType) (NARM : Bool),
        (SimpleDispatchImpl.new t NARM self.data self.variable_).RTYPE = t ∧
        (SimpleDispatchImpl.new t NARM self.data self.variable_).NA_RM = NARM ∧
        (SimpleDispatchImpl.new t NARM self.data self.variable_).is_summary =
          self.variable_.is_summary ∧
        ∀ i, (SimpleDispatchImpl.new t NARM self.data self.variable_).data_ptr i =
          r_vector_start t self.variable_.data i) := by
  have hop : ∀ NARM : Bool, self.narm = NARM →
      self.operate op = self.operate_narm NARM op := by
    intro NARM h
    cases NARM <;> simp [SimpleDispatch.operate, h]
  rw [hop self.narm rfl]
  refine ⟨fun t ht => ?_, fun hno => ?_, fun hop2 => ?_, fun t NARM => ⟨rfl, rfl, rfl, fun _ => rfl⟩⟩
  · cases t <;> simp [SimpleDispatch.operate_narm, ht, NumType.toSEXPTYPE]
  · have h1 := hno .INTSXP
    have h2 := hno .REALSXP
    have h3 := hno .LGLSXP
    simp only [NumType.toSEXPTYPE] at h1 h2 h3
    cases hty : TYPEOF self.variable_.data <;>
      simp [SimpleDispatch.operate_narm, hty] at h1 h2 h3 ⊢
  · cases hty : TYPEOF self.variable_.data <;>
      simp [SimpleDispatch.operate_narm, hty, hop2]

/-- Witness for C9: with an operation that evaluates Mean on the group
`{0, 1}`, an integer column is dispatched to the integer producer with the
flag set, and a character column is declined. -/
theorem dispatch_on_element_type_witness :
    SimpleDispatch.operate
        { data := (), variable_ := ⟨SEXP.intsxp ⟨[1, NA_INTEGER], []⟩, false⟩, narm := true }
        (fun impl => SEXP.realsxp
          ⟨[impl.process (MeanImpl.process .firstOperand) ⟨[0, 1], 0⟩], []⟩) =
      SEXP.realsxp ⟨[Dbl.fin 1], []⟩ ∧
    SimpleDispatch.operate
        { data := (), variable_ := ⟨SEXP.strsxp ⟨["a", "b"], []⟩, false⟩, narm := true }
        (fun impl => SEXP.realsxp
          ⟨[impl.process (MeanImpl.process .firstOperand) ⟨[0, 1], 0⟩], []⟩) =
      SEXP.R_UnboundValue := by
  constructor
  · rw [(dispatch_on_element_type
      { data := (), variable_ := ⟨SEXP.intsxp ⟨[1, NA_INTEGER], []⟩, false⟩, narm := true }
      (fun impl => SEXP.realsxp
        ⟨[impl.process (MeanImpl.process .firstOperand) ⟨[0, 1], 0⟩], []⟩)).1 .INTSXP rfl]
    simp [SimpleDispatchImpl.process, SimpleDispatchImpl.new, r_vector_start, MeanImpl.process,
      MeanImpl.sumLoop, MeanImpl.residualLoop, SlicingIndex.size, is_na, NA_INTEGER, R_FINITE,
      toDouble, Dbl.ofInt, Dbl.div, Dbl.isnan]
  · exact (dispatch_on_element_type
      { data := (), variable_ := ⟨SEXP.strsxp ⟨["a", "b"], []⟩, false⟩, narm := true }
      (fun impl => SEXP.realsxp
        ⟨[impl.process (MeanImpl.process .firstOperand) ⟨[0, 1], 0⟩], []⟩)).2.1
      (by intro t; cases t <;> simp [TYPEOF, NumType.toSEXPTYPE])

end internal
end hybrid

/-! ## Constant recycling: claims -/

/-- The typed view of a vector of type `RTYPE` is that vector. -/
theorem SEXP.asVector_ofVector (RTYPE : VecType) (v : Vector RTYPE.storage) :
    SEXP.asVector RTYPE (SEXP.ofVector RTYPE v) = some v := by
  cases RTYPE <;> rfl

/-- The type code of a vector of type `RTYPE`. -/
theorem SEXP.TYPEOF_ofVector (RTYPE : VecType) (v : Vector RTYPE.storage) :
    TYPEOF (SEXP.ofVector RTYPE v) = RTYPE.toSEXPTYPE := by
  cases RTYPE <;> rfl

/-- C10: for every vector type, every constant of that type with at least
one element and every `n ≥ 0`, `collect` returns a vector of the same type
with exactly `n` elements, each equal to the first element of the constant. -/
theorem constant_recycler_collect (RTYPE : VecType) (constant : SEXP)
    (v : Vector RTYPE.storage) (n : Int)
    (hv : SEXP.asVector RTYPE constant = some v) (hne : v.data ≠ []) (hn : 0 ≤ n) :
    ∃ (out : Vector RTYPE.storage) (x : RTYPE.storage),
      ConstantRecycler.collect ({ constant := constant, n := n } : ConstantRecycler RTYPE) =
          some (SEXP.ofVector RTYPE out) ∧
        TYPEOF (SEXP.ofVector RTYPE out) = RTYPE.toSEXPTYPE ∧
        v.data.head? = some x ∧
        out.data = List.replicate n.toNat x ∧
        (out.data.length : Int) = n ∧
        ∀ y ∈ out.data, y = x := by
  cases hd : v.data with
  | nil => exact absurd hd hne
  | cons x rest =>
    have hn2 : ¬ n < 0 := by omega
    refine ⟨copy_most_attributes { data := List.replicate n.toNat x, attrib := [] } v, x,
      ?_, SEXP.TYPEOF_ofVector _ _, rfl, rfl, ?_, ?_⟩
    · simp [ConstantRecycler.collect, hv, hd, hn2]
    · simp [copy_most_attributes, Int.toNat_of_nonneg hn]
    · intro y hy
      simp only [copy_most_attributes, List.mem_replicate] at hy
      exact hy.2

/-- Witness for C10: recycling the integer constant 7 over 5 rows gives the
integer vector `[7, 7, 7, 7, 7]`. -/
theorem constant_recycler_collect_witness :
    ∃ out : Vector Int,
      ConstantRecycler.collect
          ({ constant := SEXP.intsxp ⟨[7], []⟩, n := 5 } : ConstantRecycler .INTSXP) =
        some (SEXP.intsxp out) ∧ out.data = [7, 7, 7, 7, 7] := by
  obtain ⟨out, x, hc, _, hx, hdata, _, _⟩ :=
    constant_recycler_collect .INTSXP (SEXP.intsxp ⟨[7], []⟩) ⟨[7], []⟩ 5 rfl (by simp)
      (by decide)
  refine ⟨out, hc, ?_⟩
  have hx7 : x = 7 := by
    simp only [List.head?_cons, Option.some.injEq] at hx
    exact hx.symm
  rw [hdata, hx7]
  rfl

/-! ## Constant recycling in `mutate_constant_recycle`: claims -/

/-- For a constant of type integer, double, logical, list or raw that has at
least one element and is not of class `POSIXlt`, and a non-negative row count,
`mutate_constant_recycle` returns a column of the constant's type holding the
first element at every row. -/
theorem MutateCallProxy.mutate_constant_recycle_own_type (self : MutateCallProxy)
    (RTYPE : VecType) (v : Vector RTYPE.storage)
    (ht : RTYPE = .INTSXP ∨ RTYPE = .REALSXP ∨ RTYPE = .LGLSXP ∨ RTYPE = .VECSXP ∨
      RTYPE = .RAWSXP)
    (hcls : Rf_inherits (SEXP.ofVector RTYPE v) "POSIXlt" = false)
    (hne : v.data ≠ []) (hn : 0 ≤ self.data.nrows) :
    ∃ (out : Vector RTYPE.storage) (x : RTYPE.storage),
      self.mutate_constant_recycle (SEXP.ofVector RTYPE v) = .ok (SEXP.ofVector RTYPE out) ∧
        v.data.head? = some x ∧ out.data = List.replicate self.data.nrows.toNat x := by
  cases hd : v.data with
  | nil => exact absurd hd hne
  | cons x rest =>
    have hn2 : ¬ self.data.nrows < 0 := by omega
    refine ⟨copy_most_attributes
      { data := List.replicate self.data.nrows.toNat x, attrib := [] } v, x, ?_, rfl, rfl⟩
    rcases ht with h | h | h | h | h <;> subst h <;>
      simp [MutateCallProxy.mutate_constant_recycle, hcls, SEXP.ofVector, TYPEOF,
        ConstantRecycler.collect, SEXP.asVector, hd, hn2] at hcls ⊢

/-- A constant of class `POSIXlt` is rejected whatever its type, and a
constant whose type is none of the seven data vector types fails with the
unsupported-type error. -/
theorem MutateCallProxy.mutate_constant_recycle_rejects (self : MutateCallProxy) (x : SEXP) :
    (Rf_inherits x "POSIXlt" = true →
        self.mutate_constant_recycle x = .error (.unsupported_class self.name "POSIXlt")) ∧
      (Rf_inherits x "POSIXlt" = false →
        (∀ t : VecType, TYPEOF x ≠ t.toSEXPTYPE) →
        self.mutate_constant_recycle x = .error (.unsupported_type self.name (TYPEOF x))) := by
  refine ⟨fun h => by simp [MutateCallProxy.mutate_constant_recycle, h], fun h hno => ?_⟩
  have h1 := hno .INTSXP
  have h2 := hno .REALSXP
  have h3 := hno .LGLSXP
  have h4 := hno .STRSXP
  have h5 := hno .CPLXSXP
  have h6 := hno .VECSXP
  have h7 := hno .RAWSXP
  simp only [VecType.toSEXPTYPE] at h1 h2 h3 h4 h5 h6 h7
  cases hty : TYPEOF x <;>
    simp [MutateCallProxy.mutate_constant_recycle, h, hty] at h1 h2 h3 h4 h5 h6 h7 ⊢

/-- C11, evaluated where the code departs from it: for a length-1 character
constant the recycler of doubles is selected, and for a length-1 complex
constant the recycler of character vectors; the typed read of the constant is
then undefined and no column of the constant's type is returned. -/
theorem constant_recycle_selects_other_type (self : MutateCallProxy) :
    self.mutate_constant_recycle (SEXP.strsxp ⟨["a"], []⟩) =
        (match ConstantRecycler.collect
            ({ constant := SEXP.strsxp ⟨["a"], []⟩, n := self.data.nrows } :
              ConstantRecycler .REALSXP) with
          | some column => .ok column
          | none => .error .undefined) ∧
      self.mutate_constant_recycle (SEXP.strsxp ⟨["a"], []⟩) = .error .undefined ∧
      self.mutate_constant_recycle (SEXP.cplxsxp ⟨[(Dbl.fin 1, Dbl.fin 2)], []⟩) =
        (match ConstantRecycler.collect
            ({ constant := SEXP.cplxsxp ⟨[(Dbl.fin 1, Dbl.fin 2)], []⟩, n := self.data.nrows } :
              ConstantRecycler .STRSXP) with
          | some column => .ok column
          | none => .error .undefined) ∧
      self.mutate_constant_recycle (SEXP.cplxsxp ⟨[(Dbl.fin 1, Dbl.fin 2)], []⟩) =
        .error .undefined := by
  refine ⟨?_, ?_, ?_, ?_⟩ <;>
    simp [MutateCallProxy.mutate_constant_recycle, Rf_inherits, ATTRIB, TYPEOF,
      ConstantRecycler.collect, SEXP.asVector]

/-- A list with an element satisfying a predicate splits at the first such
element. -/
theorem List.append_cons_of_exists_mem_decide {α : Type} (l : List α) (P : α → Prop)
    [DecidablePred P] (h : ∃ x ∈ l, decide (P x) = true) :
    ∃ (pre : List α) (x : α) (post : List α), l = pre ++ x :: post ∧ P x ∧ ∀ p ∈ pre, ¬ P p := by
  induction l with
  | nil => simp at h
  | cons a l ih =>
    by_cases ha : P a
    · exact ⟨[], a, l, rfl, ha, by simp⟩
    · have h2 : ∃ x ∈ l, decide (P x) = true := by
        obtain ⟨x, hx, hpx⟩ := h
        rcases List.mem_cons.mp hx with rfl | hx
        · simp [ha] at hpx
        · exact ⟨x, hx, hpx⟩
      obtain ⟨pre, x, post, hsplit, hx, hpre⟩ := ih h2
      refine ⟨a :: pre, x, post, by simp [hsplit], hx, ?_⟩
      intro p hp
      rcases List.mem_cons.mp hp with rfl | hp
      · exact ha
      · exact hpre p hp

/-! ## The grouping-variable check: claims -/

/-- The check loop fails exactly at the first requested name that is a
grouping variable. -/
theorem check_not_groups.loop_first (gdf : TableView) (pre post : List NamedQuosure)
    (q : NamedQuosure) (hpre : ∀ p ∈ pre, gdf.has_group p.name = false)
    (hq : gdf.has_group q.name = true) :
    check_not_groups.loop gdf (pre ++ q :: post) = .error (.grouping_variable q.name) := by
  induction pre with
  | nil => simp [check_not_groups.loop, hq]
  | cons p pre ih =>
    have hp := hpre p (List.mem_cons_self _ _)
    simp only [List.cons_append, check_not_groups.loop, hp, Bool.false_eq_true, if_false]
    exact ih (fun x hx => hpre x (List.mem_cons_of_mem _ hx))

/-- The check loop succeeds when no requested name is a grouping variable. -/
theorem check_not_groups.loop_ok (gdf : TableView) (dots : List NamedQuosure)
    (h : ∀ q ∈ dots, gdf.has_group q.name = false) :
    check_not_groups.loop gdf dots = .ok () := by
  induction dots with
  | nil => rfl
  | cons q rest ih =>
    have hq := h q (List.mem_cons_self _ _)
    simp only [check_not_groups.loop, hq, Bool.false_eq_true, if_false]
    exact ih (fun x hx => h x (List.mem_cons_of_mem _ hx))

/-- C12: for a grouped table the check fails with the grouping-variable error
exactly when some requested output name is a grouping variable, whatever the
expressions are; the error names the first such expression in request order,
and `mutate_grouped` then fails with it before any collaborator is called;
for row-wise and ungrouped tables the check never fails. -/
theorem grouping_variable_check (host : Host) (gdf : TableView) (memory : Memory)
    (df : List (String × Addr)) (dots : List NamedQuosure) :
    (gdf.kind = .GroupedDataFrame →
        ((∃ name, check_not_groups dots gdf = .error (.grouping_variable name)) ↔
          ∃ q ∈ dots, q.name ∈ gdf.group_vars) ∧
        (∀ e, check_not_groups dots gdf = .error e → ∃ name, e = .grouping_variable name) ∧
        (∀ (pre post : List NamedQuosure) (q : NamedQuosure), dots = pre ++ q :: post →
          (∀ p ∈ pre, p.name ∉ gdf.group_vars) → q.name ∈ gdf.group_vars →
          check_not_groups dots gdf = .error (.grouping_variable q.name) ∧
          mutate_grouped host gdf memory df dots =
            (.error (.grouping_variable q.name), []))) ∧
      (gdf.kind ≠ .GroupedDataFrame → check_not_groups dots gdf = .ok ()) := by
  have hfirst : ∀ (pre post : List NamedQuosure) (q : NamedQuosure), dots = pre ++ q :: post →
      (∀ p ∈ pre, p.name ∉ gdf.group_vars) → q.name ∈ gdf.group_vars →
      check_not_groups.loop gdf dots = .error (.grouping_variable q.name) := by
    intro pre post q hdots hpre hq
    rw [hdots]
    exact check_not_groups.loop_first gdf pre post q
      (fun p hp => by simpa [TableView.has_group] using hpre p hp)
      (by simpa [TableView.has_group] using hq)
  refine ⟨fun hkind => ⟨⟨?_, ?_⟩, ?_, ?_⟩, fun hkind => ?_⟩
  · rintro ⟨name, hname⟩
    by_contra hno
    push_neg at hno
    have hok := check_not_groups.loop_ok gdf dots
      (fun q hq => by simpa [TableView.has_group] using hno q hq)
    simp [check_not_groups, hkind, hok] at hname
  · rintro ⟨q, hq, hmem⟩
    have hex : ∃ x ∈ dots, decide (x.name ∈ gdf.group_vars) = true := ⟨q, hq, by simpa using hmem⟩
    obtain ⟨pre, x, post, hsplit, hx, hpre⟩ :=
      List.append_cons_of_exists_mem_decide dots (fun x => x.name ∈ gdf.group_vars) hex
    exact ⟨x.name, by simpa [check_not_groups, hkind] using hfirst pre post x hsplit hpre hx⟩
  · intro e he
    by_cases hex : ∃ q ∈ dots, q.name ∈ gdf.group_vars
    · obtain ⟨q, hq, hmem⟩ := hex
      have hex2 : ∃ x ∈ dots, decide (x.name ∈ gdf.group_vars) = true :=
        ⟨q, hq, by simpa using hmem⟩
      obtain ⟨pre, x, post, hsplit, hx, hpre⟩ :=
        List.append_cons_of_exists_mem_decide dots (fun x => x.name ∈ gdf.group_vars) hex2
      have := hfirst pre post x hsplit hpre hx
      simp only [check_not_groups, hkind, this, Except.error.injEq] at he
      exact ⟨x.name, he.symm⟩
    · push_neg at hex
      have hok := check_not_groups.loop_ok gdf dots
        (fun q hq => by simpa [TableView.has_group] using hex q hq)
      simp [check_not_groups, hkind, hok] at he
  · intro pre post q hdots hpre hq
    have hc : check_not_groups dots gdf = .error (.grouping_variable q.name) := by
      simpa [check_not_groups, hkind] using hfirst pre post q hdots hpre hq
    exact ⟨hc, by simp [mutate_grouped, mutate_grouped.run, hc]⟩
  · cases hk : gdf.kind <;> simp [check_not_groups, hk] at hkind ⊢

/-- Witness for C12: with grouping variable `g`, the request `y = NULL`,
`g = NULL` fails on `g` before any collaborator is called. -/
theorem grouping_variable_check_witness :
    mutate_grouped (exampleHost [])
        { kind := .GroupedDataFrame, nrows := 2, groups := [⟨[0, 1], 0⟩], group_vars := ["g"] }
        (exampleMemory [SEXP.intsxp ⟨[1, 1], []⟩, SEXP.R_NilValue])
        [("g", 0)] [⟨"y", 1, 0⟩, ⟨"g", 1, 0⟩] =
      (.error (.grouping_variable "g"), []) :=
  ((grouping_variable_check (exampleHost [])
      { kind := .GroupedDataFrame, nrows := 2, groups := [⟨[0, 1], 0⟩], group_vars := ["g"] }
      (exampleMemory [SEXP.intsxp ⟨[1, 1], []⟩, SEXP.R_NilValue])
      [("g", 0)] [⟨"y", 1, 0⟩, ⟨"g", 1, 0⟩]).1 rfl).2.2
    [⟨"y", 1, 0⟩] [] ⟨"g", 1, 0⟩ rfl (by simp) (by simp) |>.2

/-! ## Resolution order of `MutateCallProxy::get`: claims -/

/-- C14: `get` resolves by first match: a literal `NULL` returns `NULL`; a
symbol bound in the namespace returns the namespace's column; a call, or a
symbol not bound in the namespace, goes to per-group evaluation; any other
expression of length 1 goes to constant recycling; anything else goes to the
whole-vector validation.  In the first two cases no collaborator is called and
the result does not depend on the host. -/
theorem get_resolution_order (host : Host) (self : MutateCallProxy) :
    (self.expr = SEXP.R_NilValue → self.get host = (.ok SEXP.R_NilValue, [])) ∧
      (∀ column, TYPEOF self.expr = .SYMSXP →
        self.subsets.get_variable (PRINTNAME self.expr) = some column →
        self.get host = (.ok column, [])) ∧
      (TYPEOF self.expr = .LANGSXP ∨
          (TYPEOF self.expr = .SYMSXP ∧
            self.subsets.has_variable (PRINTNAME self.expr) = false) →
        self.get host = self.evaluate host) ∧
      (TYPEOF self.expr ≠ .NILSXP → TYPEOF self.expr ≠ .SYMSXP →
        TYPEOF self.expr ≠ .LANGSXP → Rf_length host.objlen self.expr = 1 →
        self.get host = (self.mutate_constant_recycle self.expr, [])) ∧
      (TYPEOF self.expr ≠ .NILSXP → TYPEOF self.expr ≠ .SYMSXP →
        TYPEOF self.expr ≠ .LANGSXP → Rf_length host.objlen self.expr ≠ 1 →
        self.get host = (self.validate_unquoted_value host, [])) := by
  refine ⟨fun h => ?_, fun column hsym hget => ?_, fun h => ?_, fun h1 h2 h3 hlen => ?_,
    fun h1 h2 h3 hlen => ?_⟩
  · simp [MutateCallProxy.get, h, Rf_isNull, TYPEOF]
  · have hhas : self.subsets.has_variable (PRINTNAME self.expr) = true := by
      simp only [Subsets.get_variable] at hget
      simp [Subsets.has_variable, hget]
    simp [MutateCallProxy.get, Rf_isNull, hsym, hhas, hget]
  · rcases h with h | ⟨h, hno⟩
    · simp [MutateCallProxy.get, Rf_isNull, h]
    · simp [MutateCallProxy.get, Rf_isNull, h, hno]
  · simp [MutateCallProxy.get, Rf_isNull, h1, h2, h3, hlen]
  · simp [MutateCallProxy.get, Rf_isNull, h1, h2, h3, hlen]

/-- Witness for C14: with `x` bound in the namespace, the symbol `x` returns
the bound column and the literal `NULL` returns `NULL`, both without a call. -/
theorem get_resolution_order_witness :
    MutateCallProxy.get (exampleHost [])
        { data := { kind := .NaturalDataFrame, nrows := 2, groups := [⟨[0, 1], 0⟩],
                    group_vars := [] }
          subsets := { vars := [("x", SEXP.intsxp ⟨[1, 2], []⟩)] }
          expr := SEXP.symbol "x", env := 0, name := "y" } =
        (.ok (SEXP.intsxp ⟨[1, 2], []⟩), []) ∧
      MutateCallProxy.get (exampleHost [])
        { data := { kind := .NaturalDataFrame, nrows := 2, groups := [⟨[0, 1], 0⟩],
                    group_vars := [] }
          subsets := { vars := [("x", SEXP.intsxp ⟨[1, 2], []⟩)] }
          expr := SEXP.R_NilValue, env := 0, name := "y" } =
        (.ok SEXP.R_NilValue, []) :=
  ⟨(get_resolution_order (exampleHost [])
      { data := { kind := .NaturalDataFrame, nrows := 2, groups := [⟨[0, 1], 0⟩],
                  group_vars := [] }
        subsets := { vars := [("x", SEXP.intsxp ⟨[1, 2], []⟩)] }
        expr := SEXP.symbol "x", env := 0, name := "y" }).2.1 _ rfl
      (by simp [Subsets.get_variable, PRINTNAME, List.lookup]),
    (get_resolution_order (exampleHost [])
      { data := { kind := .NaturalDataFrame, nrows := 2, groups := [⟨[0, 1], 0⟩],
                  group_vars := [] }
        subsets := { vars := [("x", SEXP.intsxp ⟨[1, 2], []⟩)] }
        expr := SEXP.R_NilValue, env := 0, name := "y" }).1 rfl⟩

/-! ## Per-group evaluation: the search for the first result -/

/-- A result that is not `NULL` ends the `NULL` search at once. -/
theorem MutateCallProxy.skipNull_of_not_null (host : Host) (self : MutateCallProxy) (ng : Int)
    (rest : List SlicingIndex) (first : SEXP) (indices : SlicingIndex) (i : Int)
    (log : List Event) (h : Rf_isNull first = false) :
    MutateCallProxy.skipNull host self ng rest first indices i log =
      .reached { first := first, indices := indices, i := i, rest := rest, log := log } := by
  cases rest <;> simp [MutateCallProxy.skipNull, h]

/-- When every remaining group evaluates to `NULL`, the `NULL` search
evaluates each of them once, in order, and returns `NULL`. -/
theorem MutateCallProxy.skipNull_all_null (host : Host) (self : MutateCallProxy) (ng : Int)
    (rest : List SlicingIndex) (first : SEXP) (indices : SlicingIndex) (i : Int)
    (log : List Event) (hfirst : Rf_isNull first = true)
    (hrest : ∀ g ∈ rest, self.get_indices host g = .ok SEXP.R_NilValue)
    (hng : i + 1 + (rest.length : Int) = ng) :
    MutateCallProxy.skipNull host self ng rest first indices i log =
      .returned (.ok SEXP.R_NilValue) (log ++ rest.map Event.get) := by
  induction rest generalizing first indices i log with
  | nil =>
    have hi : i + 1 = ng := by simpa using hng
    simp [MutateCallProxy.skipNull, hfirst, hi]
  | cons g rest ih =>
    have hi : ¬ i + 1 = ng := by
      simp only [List.length_cons] at hng
      omega
    have hg := hrest g (List.mem_cons_self _ _)
    have hnext := ih SEXP.R_NilValue g (i + 1) (log ++ [Event.get g]) (by simp [Rf_isNull, TYPEOF])
      (fun x hx => hrest x (List.mem_cons_of_mem _ hx))
      (by simp only [List.length_cons] at hng; push_cast at hng ⊢; omega)
    simp [MutateCallProxy.skipNull, hfirst, hi, hg, hnext]

/-- When the remaining groups evaluate to `NULL` up to a group `g` whose
result is not `NULL`, the `NULL` search ends at `g` with that result, having
evaluated the groups up to `g` once each, in order. -/
theorem MutateCallProxy.skipNull_reaches (host : Host) (self : MutateCallProxy) (ng : Int)
    (pre post : List SlicingIndex) (g : SlicingIndex) (v first : SEXP)
    (indices : SlicingIndex) (i : Int) (log : List Event)
    (hfirst : Rf_isNull first = true)
    (hpre : ∀ p ∈ pre, self.get_indices host p = .ok SEXP.R_NilValue)
    (hg : self.get_indices host g = .ok v) (hv : Rf_isNull v = false)
    (hng : i + 1 + ((pre ++ g :: post).length : Int) = ng) :
    MutateCallProxy.skipNull host self ng (pre ++ g :: post) first indices i log =
      .reached { first := v, indices := g, i := i + 1 + (pre.length : Int), rest := post,
                 log := log ++ (pre ++ [g]).map Event.get } := by
  induction pre generalizing first indices i log with
  | nil =>
    have hi : ¬ i + 1 = ng := by
      simp only [List.nil_append, List.length_cons] at hng
      omega
    simp [MutateCallProxy.skipNull, hfirst, hi, hg,
      MutateCallProxy.skipNull_of_not_null host self ng post v g (i + 1) _ hv]
  | cons p pre ih =>
    have hi : ¬ i + 1 = ng := by
      simp only [List.cons_append, List.length_cons] at hng
      omega
    have hp := hpre p (List.mem_cons_self _ _)
    have hnext := ih SEXP.R_NilValue p (i + 1) (log ++ [Event.get p])
      (by simp [Rf_isNull, TYPEOF]) (fun x hx => hpre x (List.mem_cons_of_mem _ hx))
      (by simp only [List.cons_append, List.length_cons] at hng; push_cast at hng ⊢; omega)
    have hidx : i + 1 + ((p :: pre).length : Int) = i + 1 + 1 + (pre.length : Int) := by
      simp only [List.length_cons]
      push_cast
      omega
    simp only [List.cons_append, MutateCallProxy.skipNull, hfirst, if_true, hi, if_false, hp,
      hidx]
    refine Eq.trans hnext ?_
    simp

/-- The value `NULL` has no class. -/
theorem Rf_inherits_nil (what : String) : Rf_inherits SEXP.R_NilValue what = false := by
  simp [Rf_inherits, ATTRIB]

/-- The state in which `evaluate` reaches its checks when the groups before
`g` evaluate to `NULL` and `g` is the first group whose result `v` is not
`NULL`: the representative is `v` with the group `g`. -/
theorem MutateCallProxy.firstNonNull_reaches (host : Host) (self : MutateCallProxy)
    (pre post : List SlicingIndex) (g : SlicingIndex) (v : SEXP)
    (hgroups : self.data.groups = pre ++ g :: post)
    (hpre : ∀ p ∈ pre, self.get_indices host p = .ok SEXP.R_NilValue)
    (hg : self.get_indices host g = .ok v) (hv : Rf_isNull v = false)
    (hcls : pre = [] → Rf_inherits v "POSIXlt" = false ∧ Rf_inherits v "data.frame" = false) :
    MutateCallProxy.firstNonNull host self =
      .reached { first := v, indices := g, i := (pre.length : Int), rest := post,
                 log := (pre ++ [g]).map Event.get } := by
  cases pre with
  | nil =>
    obtain ⟨h1, h2⟩ := hcls rfl
    simp only [List.nil_append] at hgroups
    simp [MutateCallProxy.firstNonNull, hgroups, hg, h1, h2,
      MutateCallProxy.skipNull_of_not_null host self _ post v g 0 _ hv]
  | cons p pre =>
    have hp := hpre p (List.mem_cons_self _ _)
    simp only [List.cons_append] at hgroups
    have hreach := MutateCallProxy.skipNull_reaches host self self.data.ngroups pre post g v
      SEXP.R_NilValue p 0 [Event.get p] (by simp [Rf_isNull, TYPEOF])
      (fun x hx => hpre x (List.mem_cons_of_mem _ hx)) hg hv
      (by simp [TableView.ngroups, hgroups]; omega)
    have hidx : ((p :: pre).length : Int) = 0 + 1 + (pre.length : Int) := by
      simp only [List.length_cons]
      push_cast
      omega
    simp only [MutateCallProxy.firstNonNull, hgroups, hp, Rf_inherits_nil, Bool.false_eq_true,
      if_false, hidx]
    refine Eq.trans hreach ?_
    simp

/-- The calls made by the `NULL` search are per-group evaluations. -/
theorem MutateCallProxy.skipNull_log (host : Host) (self : MutateCallProxy) (ng : Int)
    (rest : List SlicingIndex) (first : SEXP) (indices : SlicingIndex) (i : Int)
    (log : List Event) (hlog : ∀ e ∈ log, ∃ g, e = Event.get g) :
    match MutateCallProxy.skipNull host self ng rest first indices i log with
    | .returned _ out => ∀ e ∈ out, ∃ g, e = Event.get g
    | .reached rep => ∀ e ∈ rep.log, ∃ g, e = Event.get g := by
  induction rest generalizing first indices i log with
  | nil =>
    cases hn : Rf_isNull first <;> by_cases hi : i + 1 = ng <;>
      simpa [MutateCallProxy.skipNull, hn, hi] using hlog
  | cons g rest ih =>
    cases hn : Rf_isNull first with
    | false => simpa [MutateCallProxy.skipNull, hn] using hlog
    | true =>
      by_cases hi : i + 1 = ng
      · simpa [MutateCallProxy.skipNull, hn, hi] using hlog
      · have hlog2 : ∀ e ∈ log ++ [Event.get g], ∃ x, e = Event.get x := by
          intro e he
          rcases List.mem_append.mp he with he | he
          · exact hlog e he
          · exact ⟨g, by simpa using he⟩
        cases hg : self.get_indices host g with
        | error err => simpa [MutateCallProxy.skipNull, hn, hi, hg] using hlog2
        | ok next =>
          have := ih next g (i + 1) (log ++ [Event.get g]) hlog2
          simpa [MutateCallProxy.skipNull, hn, hi, hg] using this

/-- The calls made before `evaluate` reaches its checks are per-group
evaluations: no gatherer has been built. -/
theorem MutateCallProxy.firstNonNull_log (host : Host) (self : MutateCallProxy)
    (rep : Representative) (h : MutateCallProxy.firstNonNull host self = .reached rep) :
    ∀ e ∈ rep.log, ∃ g, e = Event.get g := by
  cases hgroups : self.data.groups with
  | nil => simp [MutateCallProxy.firstNonNull, hgroups] at h
  | cons g0 rest =>
    cases hg : self.get_indices host g0 with
    | error err => simp [MutateCallProxy.firstNonNull, hgroups, hg] at h
    | ok first =>
      cases h1 : Rf_inherits first "POSIXlt" with
      | true => simp [MutateCallProxy.firstNonNull, hgroups, hg, h1] at h
      | false =>
        cases h2 : Rf_inherits first "data.frame" with
        | true => simp [MutateCallProxy.firstNonNull, hgroups, hg, h1, h2] at h
        | false =>
          have hlog := MutateCallProxy.skipNull_log host self self.data.ngroups rest first g0 0
            [Event.get g0] (fun e he => ⟨g0, by simpa using he⟩)
          simp only [MutateCallProxy.firstNonNull, hgroups, hg, h1, h2, Bool.false_eq_true,
            if_false] at h
          rw [h] at hlog
          exact hlog

/-- An unsupported type of the first result that is not `NULL` fails in
`evaluate` with the calls made so far. -/
theorem MutateCallProxy.checkAndGather_unsupported (host : Host) (self : MutateCallProxy)
    (rep : Representative) (h : host.supported_type rep.first = false) :
    MutateCallProxy.checkAndGather host self rep =
      (.error (.unsupported_type self.name (TYPEOF rep.first)), rep.log) := by
  simp [MutateCallProxy.checkAndGather, h]

/-- A wrong length of the first result that is not `NULL` fails in `evaluate`
with the calls made so far. -/
theorem MutateCallProxy.checkAndGather_length (host : Host) (self : MutateCallProxy)
    (rep : Representative) (h : host.supported_type rep.first = true)
    (hlen : ¬ (Rf_length host.objlen rep.first = rep.indices.size ∨
      Rf_length host.objlen rep.first = 1)) :
    MutateCallProxy.checkAndGather host self rep =
      (.error (.length_mismatch self.name (Rf_length host.objlen rep.first) rep.indices.size),
        rep.log) := by
  simp [MutateCallProxy.checkAndGather, h, check_length, hlen]

/-! ## Per-group evaluation: claims -/

/-- C15: over at least one group, when the external evaluator yields `NULL`
for every group, `evaluate` returns `NULL` without error, having evaluated
each group exactly once in group order and built no gatherer; and when the
groups before `g` yield `NULL` and `g` yields a result `v` that is not `NULL`,
the type and length checks are applied to `v` with the group `g`. -/
theorem evaluate_null_search (host : Host) (self : MutateCallProxy) :
    (self.data.groups ≠ [] →
        (∀ g ∈ self.data.groups, self.get_indices host g = .ok SEXP.R_NilValue) →
        self.evaluate host = (.ok SEXP.R_NilValue, self.data.groups.map Event.get) ∧
        ∀ first i, Event.gatherer first i ∉ (self.evaluate host).2) ∧
      (∀ (pre post : List SlicingIndex) (g : SlicingIndex) (v : SEXP),
        self.data.groups = pre ++ g :: post →
        (∀ p ∈ pre, self.get_indices host p = .ok SEXP.R_NilValue) →
        self.get_indices host g = .ok v → Rf_isNull v = false →
        (pre = [] → Rf_inherits v "POSIXlt" = false ∧ Rf_inherits v "data.frame" = false) →
        self.evaluate host =
            self.checkAndGather host
              { first := v, indices := g, i := (pre.length : Int), rest := post,
                log := (pre ++ [g]).map Event.get } ∧
          (host.supported_type v = false →
            self.evaluate host =
              (.error (.unsupported_type self.name (TYPEOF v)), (pre ++ [g]).map Event.get)) ∧
          (host.supported_type v = true →
            ¬ (Rf_length host.objlen v = g.size ∨ Rf_length host.objlen v = 1) →
            self.evaluate host =
              (.error (.length_mismatch self.name (Rf_length host.objlen v) g.size),
                (pre ++ [g]).map Event.get))) := by
  refine ⟨fun hne hall => ?_, fun pre post g v hgroups hpre hg hv hcls => ?_⟩
  · cases hgroups : self.data.groups with
    | nil => exact absurd hgroups hne
    | cons g0 rest =>
      rw [hgroups] at hall
      have hg0 := hall g0 (List.mem_cons_self _ _)
      have hsearch := MutateCallProxy.skipNull_all_null host self self.data.ngroups rest
        SEXP.R_NilValue g0 0 [Event.get g0] (by simp [Rf_isNull, TYPEOF])
        (fun x hx => hall x (List.mem_cons_of_mem _ hx))
        (by simp [TableView.ngroups, hgroups]; omega)
      have hev : self.evaluate host = (.ok SEXP.R_NilValue, (g0 :: rest).map Event.get) := by
        simp [MutateCallProxy.evaluate, MutateCallProxy.firstNonNull, hgroups, hg0,
          Rf_inherits_nil, hsearch]
      refine ⟨hev, fun first i hmem => ?_⟩
      rw [hev] at hmem
      simp at hmem
  · have hreach := MutateCallProxy.firstNonNull_reaches host self pre post g v hgroups hpre hg hv
      hcls
    have hev : self.evaluate host =
        self.checkAndGather host
          { first := v, indices := g, i := (pre.length : Int), rest := post,
            log := (pre ++ [g]).map Event.get } := by
      simp [MutateCallProxy.evaluate, hreach]
    refine ⟨hev, fun hs => ?_, fun hs hlen => ?_⟩
    · rw [hev, MutateCallProxy.checkAndGather_unsupported host self _ hs]
    · rw [hev, MutateCallProxy.checkAndGather_length host self _ hs hlen]

/-- Witness for C15: three groups whose results are all `NULL` give `NULL`
after one evaluation of each group, in order; when the third group yields an
integer vector of length 3 for a group of 2 rows, the length check fails on
that result. -/
theorem evaluate_null_search_witness :
    MutateCallProxy.evaluate (exampleHost [])
        { data := { kind := .GroupedDataFrame, nrows := 6,
                    groups := [⟨[0, 1], 0⟩, ⟨[2, 3], 1⟩, ⟨[4, 5], 2⟩], group_vars := ["g"] }
          subsets := { vars := [] }, expr := SEXP.lang 0, env := 0, name := "y" } =
        (.ok SEXP.R_NilValue,
          [Event.get ⟨[0, 1], 0⟩, Event.get ⟨[2, 3], 1⟩, Event.get ⟨[4, 5], 2⟩]) ∧
      MutateCallProxy.evaluate
        (exampleHost [SEXP.R_NilValue, SEXP.R_NilValue, SEXP.intsxp ⟨[1, 2, 3], []⟩])
        { data := { kind := .GroupedDataFrame, nrows := 6,
                    groups := [⟨[0, 1], 0⟩, ⟨[2, 3], 1⟩, ⟨[4, 5], 2⟩], group_vars := ["g"] }
          subsets := { vars := [] }, expr := SEXP.lang 0, env := 0, name := "y" } =
        (.error (.length_mismatch "y" 3 2),
          [Event.get ⟨[0, 1], 0⟩, Event.get ⟨[2, 3], 1⟩, Event.get ⟨[4, 5], 2⟩]) := by
  constructor
  · exact ((evaluate_null_search (exampleHost [])
      { data := { kind := .GroupedDataFrame, nrows := 6,
                  groups := [⟨[0, 1], 0⟩, ⟨[2, 3], 1⟩, ⟨[4, 5], 2⟩], group_vars := ["g"] }
        subsets := { vars := [] }, expr := SEXP.lang 0, env := 0, name := "y" }).1
      (by simp) (by simp [MutateCallProxy.get_indices, exampleHost])).1
  · exact ((evaluate_null_search
      (exampleHost [SEXP.R_NilValue, SEXP.R_NilValue, SEXP.intsxp ⟨[1, 2, 3], []⟩])
      { data := { kind := .GroupedDataFrame, nrows := 6,
                  groups := [⟨[0, 1], 0⟩, ⟨[2, 3], 1⟩, ⟨[4, 5], 2⟩], group_vars := ["g"] }
        subsets := { vars := [] }, expr := SEXP.lang 0, env := 0, name := "y" }).2
      [⟨[0, 1], 0⟩, ⟨[2, 3], 1⟩] [] ⟨[4, 5], 2⟩ (SEXP.intsxp ⟨[1, 2, 3], []⟩) rfl
      (by simp [MutateCallProxy.get_indices, exampleHost])
      (by simp [MutateCallProxy.get_indices, exampleHost])
      (by simp [Rf_isNull, TYPEOF]) (by simp)).2.2 rfl
      (by simp [Rf_length, SlicingIndex.size])

/-- C18 fails as stated: with two groups of 2 rows, the first yielding the
all-missing logical vector `[NA, NA]` and the second an integer vector of
length 3, the representative handed to the gatherer is the second result,
whose length is neither 2 nor 1, and `evaluate` has built the gatherer without
failing; likewise when the second result is a closure, of unsupported type. -/
theorem evaluate_unchecked_representative_counterexample :
    MutateCallProxy.evaluate
        (exampleHost [SEXP.lglsxp ⟨[NA_LOGICAL, NA_LOGICAL], []⟩, SEXP.intsxp ⟨[1, 2, 3], []⟩])
        { data := { kind := .GroupedDataFrame, nrows := 4,
                    groups := [⟨[0, 1], 0⟩, ⟨[2, 3], 1⟩], group_vars := ["g"] }
          subsets := { vars := [] }, expr := SEXP.lang 0, env := 0, name := "y" } =
        (.ok (SEXP.intsxp ⟨[1, 2, 3], []⟩),
          [Event.get ⟨[0, 1], 0⟩, Event.get ⟨[2, 3], 1⟩,
            Event.gatherer (SEXP.intsxp ⟨[1, 2, 3], []⟩) 1]) ∧
      Rf_length (exampleHost []).objlen (SEXP.intsxp ⟨[1, 2, 3], []⟩) = 3 ∧
      SlicingIndex.size ⟨[2, 3], 1⟩ = 2 ∧
      MutateCallProxy.evaluate
        (exampleHost [SEXP.lglsxp ⟨[NA_LOGICAL, NA_LOGICAL], []⟩, SEXP.object .CLOSXP 0])
        { data := { kind := .GroupedDataFrame, nrows := 4,
                    groups := [⟨[0, 1], 0⟩, ⟨[2, 3], 1⟩], group_vars := ["g"] }
          subsets := { vars := [] }, expr := SEXP.lang 0, env := 0, name := "y" } =
        (.ok (SEXP.object .CLOSXP 0),
          [Event.get ⟨[0, 1], 0⟩, Event.get ⟨[2, 3], 1⟩,
            Event.gatherer (SEXP.object .CLOSXP 0) 1]) ∧
      (exampleHost []).supported_type (SEXP.object .CLOSXP 0) = false := by
  refine ⟨?_, rfl, rfl, ?_, rfl⟩
  · simp [MutateCallProxy.evaluate, MutateCallProxy.firstNonNull, MutateCallProxy.get_indices,
      MutateCallProxy.skipNull, MutateCallProxy.checkAndGather, MutateCallProxy.skipAllNA,
      exampleHost, Rf_inherits, ATTRIB, Rf_isNull, TYPEOF, check_length, Rf_length,
      SlicingIndex.size, TableView.ngroups, NA_LOGICAL]
  · simp [MutateCallProxy.evaluate, MutateCallProxy.firstNonNull, MutateCallProxy.get_indices,
      MutateCallProxy.skipNull, MutateCallProxy.checkAndGather, MutateCallProxy.skipAllNA,
      exampleHost, Rf_inherits, ATTRIB, Rf_isNull, TYPEOF, check_length, Rf_length,
      SlicingIndex.size, TableView.ngroups, NA_LOGICAL]

/-- C18 as amended: the first result that is not `NULL`, with its own group,
is the one whose type and length `evaluate` checks; an unsupported type or a
length that is neither the group's size nor 1 makes `evaluate` fail before a
gatherer is built, so a gatherer is only built after that result passed both
checks. -/
theorem evaluate_checks_first_result (host : Host) (self : MutateCallProxy)
    (rep : Representative) (h : MutateCallProxy.firstNonNull host self = .reached rep) :
    (host.supported_type rep.first = false →
        self.evaluate host =
          (.error (.unsupported_type self.name (TYPEOF rep.first)), rep.log)) ∧
      (host.supported_type rep.first = true →
        ¬ (Rf_length host.objlen rep.first = rep.indices.size ∨
          Rf_length host.objlen rep.first = 1) →
        self.evaluate host =
          (.error (.length_mismatch self.name (Rf_length host.objlen rep.first)
            rep.indices.size), rep.log)) ∧
      (∀ first i, Event.gatherer first i ∉ rep.log) ∧
      (∀ first i, Event.gatherer first i ∈ (self.evaluate host).2 →
        host.supported_type rep.first = true ∧
          (Rf_length host.objlen rep.first = rep.indices.size ∨
            Rf_length host.objlen rep.first = 1)) := by
  have hev : self.evaluate host = self.checkAndGather host rep := by
    simp [MutateCallProxy.evaluate, h]
  have hlog : ∀ first i, Event.gatherer first i ∉ rep.log := by
    intro first i hmem
    obtain ⟨g, hg⟩ := MutateCallProxy.firstNonNull_log host self rep h _ hmem
    cases hg
  refine ⟨fun hs => ?_, fun hs hlen => ?_, hlog, fun first i hmem => ?_⟩
  · rw [hev, MutateCallProxy.checkAndGather_unsupported host self rep hs]
  · rw [hev, MutateCallProxy.checkAndGather_length host self rep hs hlen]
  · cases hs : host.supported_type rep.first with
    | false =>
      rw [hev, MutateCallProxy.checkAndGather_unsupported host self rep hs] at hmem
      exact absurd hmem (hlog first i)
    | true =>
      refine ⟨rfl, ?_⟩
      by_contra hlen
      rw [hev, MutateCallProxy.checkAndGather_length host self rep hs hlen] at hmem
      exact absurd hmem (hlog first i)

/-- Witness for C18 as amended: with the first group `NULL` and the second
group yielding an integer vector of length 3 for 2 rows, `evaluate` fails with
the length mismatch before a gatherer is built. -/
theorem evaluate_checks_first_result_witness :
    MutateCallProxy.evaluate
        (exampleHost [SEXP.R_NilValue, SEXP.intsxp ⟨[1, 2, 3], []⟩])
        { data := { kind := .GroupedDataFrame, nrows := 4,
                    groups := [⟨[0, 1], 0⟩, ⟨[2, 3], 1⟩], group_vars := ["g"] }
          subsets := { vars := [] }, expr := SEXP.lang 0, env := 0, name := "y" } =
      (.error (.length_mismatch "y" 3 2), [Event.get ⟨[0, 1], 0⟩, Event.get ⟨[2, 3], 1⟩]) :=
  (evaluate_checks_first_result
    (exampleHost [SEXP.R_NilValue, SEXP.intsxp ⟨[1, 2, 3], []⟩])
    { data := { kind := .GroupedDataFrame, nrows := 4,
                groups := [⟨[0, 1], 0⟩, ⟨[2, 3], 1⟩], group_vars := ["g"] }
      subsets := { vars := [] }, expr := SEXP.lang 0, env := 0, name := "y" }
    { first := SEXP.intsxp ⟨[1, 2, 3], []⟩, indices := ⟨[2, 3], 1⟩, i := 1, rest := [],
      log := [Event.get ⟨[0, 1], 0⟩, Event.get ⟨[2, 3], 1⟩] }
    (by simp [MutateCallProxy.firstNonNull, MutateCallProxy.get_indices,
      MutateCallProxy.skipNull, exampleHost, Rf_inherits, ATTRIB, Rf_isNull, TYPEOF,
      TableView.ngroups])).2.1 rfl (by simp [Rf_length, SlicingIndex.size])

/-! ## Named lists and objects -/

/-- A binding is found under its name. -/
theorem lookup_bind_self {β : Type} (l : List (String × β)) (k : String) (x : β) :
    (bind l k x).lookup k = some x := by
  induction l with
  | nil => simp [bind, List.lookup]
  | cons e l ih =>
    obtain ⟨k2, v2⟩ := e
    by_cases h : k2 = k
    · simp [bind, h, List.lookup]
    · have h2 : (k == k2) = false := by simpa using fun hk : k = k2 => h hk.symm
      simp [bind, h, List.lookup, h2, ih]

/-- A binding leaves the other names as they were. -/
theorem lookup_bind_ne {β : Type} (l : List (String × β)) (k k2 : String) (x : β)
    (h : k2 ≠ k) : (bind l k x).lookup k2 = l.lookup k2 := by
  induction l with
  | nil =>
    have h2 : (k2 == k) = false := by simpa using h
    simp [bind, List.lookup, h2]
  | cons e l ih =>
    obtain ⟨k3, v3⟩ := e
    by_cases h3 : k3 = k
    · subst h3
      have h2 : (k2 == k3) = false := by simpa using h
      simp [bind, List.lookup, h2]
    · cases h4 : (k2 == k3) <;> simp [bind, h3, List.lookup, h4, ih]

/-- A binding adds no entry under another name and keeps no other object
than those bound before. -/
theorem mem_bind {β : Type} (l : List (String × β)) (k : String) (x : β) (e : String × β)
    (h : e ∈ bind l k x) : e ∈ l ∨ e = (k, x) := by
  induction l with
  | nil => simpa [bind] using h
  | cons e2 l ih =>
    obtain ⟨k2, v2⟩ := e2
    by_cases h2 : k2 = k
    · simp only [bind, h2, if_true, List.mem_cons] at h
      rcases h with h | h
      · exact Or.inr h
      · exact Or.inl (List.mem_cons_of_mem _ h)
    · simp only [bind, h2, if_false, List.mem_cons] at h
      rcases h with h | h
      · exact Or.inl (by simp [h])
      · rcases ih h with h | h
        · exact Or.inl (List.mem_cons_of_mem _ h)
        · exact Or.inr h

/-- Removing a name leaves the other names as they were. -/
theorem lookup_rm_ne {β : Type} (l : List (String × β)) (k k2 : String) (h : k2 ≠ k) :
    (l.filter (fun e => !(decide (e.1 = k)))).lookup k2 = l.lookup k2 := by
  induction l with
  | nil => rfl
  | cons e l ih =>
    obtain ⟨k3, v3⟩ := e
    by_cases h3 : k3 = k
    · subst h3
      have h2 : (k2 == k3) = false := by simpa using h
      simp [List.filter, List.lookup, h2, ih]
    · cases h4 : (k2 == k3) <;> simp [List.filter, h3, List.lookup, h4, ih]

/-- The content found under a name is the content of the object found under
that name. -/
theorem lookup_map_obj {β γ : Type} (l : List (String × β)) (f : β → γ) (k : String) :
    (l.map (fun e => (e.1, f e.2))).lookup k = (l.lookup k).map f := by
  induction l with
  | nil => rfl
  | cons e l ih =>
    obtain ⟨k2, v2⟩ := e
    cases h : (k == k2) <;> simp [List.lookup, h, ih]

/-- An object found under a name is an entry of the list. -/
theorem mem_of_lookup {β : Type} (l : List (String × β)) (k : String) (x : β)
    (h : l.lookup k = some x) : (k, x) ∈ l := by
  induction l with
  | nil => simp [List.lookup] at h
  | cons e l ih =>
    obtain ⟨k2, v2⟩ := e
    cases h2 : (k == k2) with
    | true =>
      have hk : k = k2 := by simpa using h2
      simp only [List.lookup, h2, Option.some.injEq] at h
      simp [hk, h]
    | false =>
      simp only [List.lookup, h2] at h
      exact List.mem_cons_of_mem _ (ih h)

/-- Clearing the names of an object whose names are cleared changes
nothing. -/
theorem clearNames_clearNames (x : SEXP) : clearNames (clearNames x) = clearNames x := by
  cases x <;> simp [clearNames, List.filter_filter]

/-! ## The object returned by `get()` -/

/-- When the origin is a binding of the namespace, `get()` returns the column
bound there, without a call. -/
theorem MutateCallProxy.get_of_bound (host : Host) (self : MutateCallProxy) (name : String)
    (horigin : self.origin host = .bound name) (v : SEXP) (calls : List Event)
    (hget : self.get host = (.ok v, calls)) :
    self.subsets.get_variable name = some v ∧ calls = [] := by
  cases h1 : Rf_isNull self.expr with
  | true => simp [MutateCallProxy.origin, h1] at horigin
  | false =>
    cases h2 : (decide (TYPEOF self.expr = .SYMSXP) &&
        self.subsets.has_variable (PRINTNAME self.expr)) with
    | true =>
      have hname : PRINTNAME self.expr = name := by
        simpa [MutateCallProxy.origin, h1, h2] using horigin
      subst hname
      cases hvar : self.subsets.get_variable (PRINTNAME self.expr) with
      | none => simp [MutateCallProxy.get, h1, h2, hvar] at hget
      | some column =>
        simp only [MutateCallProxy.get, h1, Bool.false_eq_true, if_false, h2, if_true, hvar,
          Prod.mk.injEq, Except.ok.injEq] at hget
        exact ⟨by rw [hget.1], hget.2.symm⟩
    | false =>
      cases h3 : (decide (TYPEOF self.expr = .LANGSXP) ||
          decide (TYPEOF self.expr = .SYMSXP)) with
      | true => simp [MutateCallProxy.origin, h1, h2, h3] at horigin
      | false =>
        by_cases h4 : Rf_length host.objlen self.expr = 1
        · simp [MutateCallProxy.origin, h1, h2, h3, h4] at horigin
        · simp [MutateCallProxy.origin, h1, h2, h3, h4] at horigin

/-- When the origin is the expression, `get()` returns the expression
object. -/
theorem MutateCallProxy.get_of_expression (host : Host) (self : MutateCallProxy)
    (horigin : self.origin host = .expression) (v : SEXP) (calls : List Event)
    (hget : self.get host = (.ok v, calls)) : v = self.expr := by
  cases h1 : Rf_isNull self.expr with
  | true =>
    simp only [MutateCallProxy.get, h1, if_true, Prod.mk.injEq, Except.ok.injEq] at hget
    exact hget.1.symm
  | false =>
    cases h2 : (decide (TYPEOF self.expr = .SYMSXP) &&
        self.subsets.has_variable (PRINTNAME self.expr)) with
    | true => simp [MutateCallProxy.origin, h1, h2] at horigin
    | false =>
      cases h3 : (decide (TYPEOF self.expr = .LANGSXP) ||
          decide (TYPEOF self.expr = .SYMSXP)) with
      | true => simp [MutateCallProxy.origin, h1, h2, h3] at horigin
      | false =>
        by_cases h4 : Rf_length host.objlen self.expr = 1
        · simp [MutateCallProxy.origin, h1, h2, h3, h4] at horigin
        · have hval : self.validate_unquoted_value host = .ok v := by
            have := congrArg Prod.fst hget
            simpa [MutateCallProxy.get, h1, h2, h3, h4] using this
          simp only [MutateCallProxy.validate_unquoted_value] at hval
          split at hval
          · split at hval
            · cases hval
            · simp only [Except.ok.injEq] at hval
              exact hval.symm
          · cases hval

/-! ## The loop of `mutate_grouped` -/

/-- The loop over no expression returns the state and the calls as they
are. -/
theorem mutate_grouped.loop_nil (host : Host) (gdf : TableView) (st : MutateState)
    (log : List Event) : mutate_grouped.loop host gdf [] st log = (.ok st, log) := by
  simp [mutate_grouped.loop]

/-- One turn of the loop on an expression whose result is `NULL`: the name is
removed from the accumulator; the memory and the namespace are passed on as
they are. -/
theorem mutate_grouped.loop_null (host : Host) (gdf : TableView) (q : NamedQuosure)
    (rest : List NamedQuosure) (st : MutateState) (log : List Event) (v : SEXP)
    (calls : List Event)
    (hget : MutateCallProxy.get host (st.proxy gdf q) = (.ok v, calls))
    (hv : Rf_isNull v = true) :
    mutate_grouped.loop host gdf (q :: rest) st log =
      mutate_grouped.loop host gdf rest { st with accumulator := st.accumulator.rm q.name }
        (log ++ calls) := by
  simp [mutate_grouped.loop, hget, hv]

/-- One turn of the loop on an expression whose result is the object at `a`:
the names of the object are cleared in place unless the table is a plain one,
and the object is bound in the namespace and in the accumulator. -/
theorem mutate_grouped.loop_store (host : Host) (gdf : TableView) (q : NamedQuosure)
    (rest : List NamedQuosure) (st : MutateState) (log : List Event) (v : SEXP)
    (calls : List Event) (memory : Memory) (a : Addr)
    (hget : MutateCallProxy.get host (st.proxy gdf q) = (.ok v, calls))
    (hv : Rf_isNull v = false)
    (hloc : st.locate q (MutateCallProxy.origin host (st.proxy gdf q)) v = some (memory, a)) :
    mutate_grouped.loop host gdf (q :: rest) st log =
      mutate_grouped.loop host gdf rest (st.store gdf.kind q.name memory a) (log ++ calls) := by
  simp [mutate_grouped.loop, hget, hv, hloc]

/-- One turn of the loop on an expression that fails. -/
theorem mutate_grouped.loop_error (host : Host) (gdf : TableView) (q : NamedQuosure)
    (rest : List NamedQuosure) (st : MutateState) (log : List Event) (e : MutateError)
    (calls : List Event)
    (hget : MutateCallProxy.get host (st.proxy gdf q) = (.error e, calls)) :
    mutate_grouped.loop host gdf (q :: rest) st log = (.error e, log ++ calls) := by
  simp [mutate_grouped.loop, hget]

/-- One turn of the loop on a result whose object is not found. -/
theorem mutate_grouped.loop_lost (host : Host) (gdf : TableView) (q : NamedQuosure)
    (rest : List NamedQuosure) (st : MutateState) (log : List Event) (v : SEXP)
    (calls : List Event)
    (hget : MutateCallProxy.get host (st.proxy gdf q) = (.ok v, calls))
    (hv : Rf_isNull v = false)
    (hloc : st.locate q (MutateCallProxy.origin host (st.proxy gdf q)) v = none) :
    mutate_grouped.loop host gdf (q :: rest) st log = (.error .undefined, log ++ calls) := by
  simp [mutate_grouped.loop, hget, hv, hloc]

/-- The loop over a request is the loop over its first part followed by the
loop over the rest from the state reached: the expressions are processed in
request order. -/
theorem mutate_grouped.loop_append (host : Host) (gdf : TableView)
    (pre post : List NamedQuosure) (st : MutateState) (log : List Event) :
    mutate_grouped.loop host gdf (pre ++ post) st log =
      match mutate_grouped.loop host gdf pre st log with
      | (.ok st2, log2) => mutate_grouped.loop host gdf post st2 log2
      | (.error e, log2) => (.error e, log2) := by
  induction pre generalizing st log with
  | nil => simp [mutate_grouped.loop]
  | cons q pre ih =>
    rcases hget : MutateCallProxy.get host (st.proxy gdf q) with ⟨res, calls⟩
    cases res with
    | error e =>
      rw [List.cons_append, mutate_grouped.loop_error host gdf q _ st log e calls hget,
        mutate_grouped.loop_error host gdf q _ st log e calls hget]
    | ok v =>
      cases hv : Rf_isNull v with
      | true =>
        rw [List.cons_append, mutate_grouped.loop_null host gdf q _ st log v calls hget hv,
          mutate_grouped.loop_null host gdf q _ st log v calls hget hv]
        exact ih _ _
      | false =>
        cases hloc : st.locate q (MutateCallProxy.origin host (st.proxy gdf q)) v with
        | none =>
          rw [List.cons_append, mutate_grouped.loop_lost host gdf q _ st log v calls hget hv hloc,
            mutate_grouped.loop_lost host gdf q _ st log v calls hget hv hloc]
        | some found =>
          obtain ⟨memory, a⟩ := found
          rw [List.cons_append,
            mutate_grouped.loop_store host gdf q _ st log v calls memory a hget hv hloc,
            mutate_grouped.loop_store host gdf q _ st log v calls memory a hget hv hloc]
          exact ih _ _

/-- The memory in which the returned object is located is the memory of the
state, or that memory with one new object at its first unused address. -/
theorem MutateState.locate_memory (st : MutateState) (q : NamedQuosure) (origin : Origin)
    (v : SEXP) (memory : Memory) (a : Addr)
    (hloc : st.locate q origin v = some (memory, a)) :
    st.memory.next ≤ memory.next ∧ ∀ b, b < st.memory.next → memory.obj b = st.memory.obj b := by
  cases origin with
  | bound name =>
    cases hl : st.subsets.lookup name with
    | none => simp [MutateState.locate, hl] at hloc
    | some a2 =>
      simp only [MutateState.locate, hl, Option.map_some', Option.some.injEq,
        Prod.mk.injEq] at hloc
      rw [← hloc.1]
      exact ⟨le_refl _, fun _ _ => rfl⟩
  | expression =>
    simp only [MutateState.locate, Option.some.injEq, Prod.mk.injEq] at hloc
    rw [← hloc.1]
    exact ⟨le_refl _, fun _ _ => rfl⟩
  | created =>
    simp only [MutateState.locate, Memory.alloc, Option.some.injEq, Prod.mk.injEq] at hloc
    rw [← hloc.1]
    refine ⟨Nat.le_succ _, fun b hb => ?_⟩
    have hne : b ≠ st.memory.next := Nat.ne_of_lt hb
    simp [hne]

/-- An object whose names are clear, or any object of a plain table, keeps its
content through the loop, whatever the expressions are. -/
theorem mutate_grouped.loop_keeps_object (host : Host) (gdf : TableView)
    (dots : List NamedQuosure) (st : MutateState) (log : List Event) (st2 : MutateState)
    (log2 : List Event) (a : Addr) (c : SEXP) (ha : a < st.memory.next)
    (hobj : st.memory.obj a = c) (hclear : gdf.kind ≠ .NaturalDataFrame → clearNames c = c)
    (h : mutate_grouped.loop host gdf dots st log = (.ok st2, log2)) :
    st2.memory.obj a = c ∧ a < st2.memory.next := by
  induction dots generalizing st log with
  | nil =>
    simp only [mutate_grouped.loop, Prod.mk.injEq, Except.ok.injEq] at h
    rw [← h.1]
    exact ⟨hobj, ha⟩
  | cons q dots ih =>
    rcases hget : MutateCallProxy.get host (st.proxy gdf q) with ⟨res, calls⟩
    cases res with
    | error e =>
      rw [mutate_grouped.loop_error host gdf q _ st log e calls hget] at h
      simp at h
    | ok v =>
      cases hv : Rf_isNull v with
      | true =>
        rw [mutate_grouped.loop_null host gdf q _ st log v calls hget hv] at h
        exact ih { st with accumulator := st.accumulator.rm q.name } _ ha hobj h
      | false =>
        cases hloc : st.locate q (MutateCallProxy.origin host (st.proxy gdf q)) v with
        | none =>
          rw [mutate_grouped.loop_lost host gdf q _ st log v calls hget hv hloc] at h
          simp at h
        | some found =>
          obtain ⟨memory, a2⟩ := found
          rw [mutate_grouped.loop_store host gdf q _ st log v calls memory a2 hget hv hloc] at h
          obtain ⟨hnext, hsame⟩ := MutateState.locate_memory st q _ v memory a2 hloc
          have hobj2 : memory.obj a = c := by rw [hsame a ha, hobj]
          refine ih (st.store gdf.kind q.name memory a2) _ ?_ ?_ h
          · by_cases hk : gdf.kind = .NaturalDataFrame
            · simp only [MutateState.store, hk, ne_eq, not_true_eq_false, if_false]
              exact Nat.lt_of_lt_of_le ha hnext
            · simp only [MutateState.store, hk, ne_eq, not_false_eq_true, if_true,
                Memory.update]
              exact Nat.lt_of_lt_of_le ha hnext
          · by_cases hk : gdf.kind = .NaturalDataFrame
            · simp only [MutateState.store, hk, ne_eq, not_true_eq_false, if_false]
              exact hobj2
            · simp only [MutateState.store, hk, ne_eq, not_false_eq_true, if_true,
                Memory.update]
              by_cases haa : a = a2
              · subst haa
                simp only [if_true, hobj2]
                exact hclear hk
              · simp only [haa, if_false]
                exact hobj2

/-- The loop over expressions none of which is named `k` leaves the objects
bound to `k` in the namespace and in the accumulator as they were, and adds no
column named `k`. -/
theorem mutate_grouped.loop_other_names (host : Host) (gdf : TableView) (k : String)
    (mid : List NamedQuosure) (hmid : ∀ m ∈ mid, m.name ≠ k) (st : MutateState)
    (log : List Event) (st2 : MutateState) (log2 : List Event)
    (h : mutate_grouped.loop host gdf mid st log = (.ok st2, log2)) :
    st2.subsets.lookup k = st.subsets.lookup k ∧
      st2.accumulator.entries.lookup k = st.accumulator.entries.lookup k ∧
      ((∀ e ∈ st.accumulator.entries, e.1 ≠ k) → ∀ e ∈ st2.accumulator.entries, e.1 ≠ k) := by
  induction mid generalizing st log with
  | nil =>
    simp only [mutate_grouped.loop, Prod.mk.injEq, Except.ok.injEq] at h
    rw [← h.1]
    exact ⟨rfl, rfl, fun h => h⟩
  | cons q mid ih =>
    have hq : q.name ≠ k := hmid q (List.mem_cons_self _ _)
    have hmid2 : ∀ m ∈ mid, m.name ≠ k := fun m hm => hmid m (List.mem_cons_of_mem _ hm)
    rcases hget : MutateCallProxy.get host (st.proxy gdf q) with ⟨res, calls⟩
    cases res with
    | error e =>
      rw [mutate_grouped.loop_error host gdf q _ st log e calls hget] at h
      simp at h
    | ok v =>
      cases hv : Rf_isNull v with
      | true =>
        rw [mutate_grouped.loop_null host gdf q _ st log v calls hget hv] at h
        obtain ⟨h1, h2, h3⟩ := ih hmid2 _ _ h
        refine ⟨h1, ?_, fun hno => h3 ?_⟩
        · rw [h2]
          exact lookup_rm_ne _ _ _ (Ne.symm hq)
        · intro e he
          simp only [NamedListAccumulator.rm, List.mem_filter] at he
          exact hno e he.1
      | false =>
        cases hloc : st.locate q (MutateCallProxy.origin host (st.proxy gdf q)) v with
        | none =>
          rw [mutate_grouped.loop_lost host gdf q _ st log v calls hget hv hloc] at h
          simp at h
        | some found =>
          obtain ⟨memory, a⟩ := found
          rw [mutate_grouped.loop_store host gdf q _ st log v calls memory a hget hv hloc] at h
          obtain ⟨h1, h2, h3⟩ := ih hmid2 _ _ h
          refine ⟨?_, ?_, fun hno => h3 ?_⟩
          · rw [h1]
            exact lookup_bind_ne _ _ _ _ (Ne.symm hq)
          · rw [h2]
            exact lookup_bind_ne _ _ _ _ (Ne.symm hq)
          · intro e he
            rcases mem_bind _ _ _ _ he with he | he
            · exact hno e he
            · rw [he]
              exact hq

/-- The object returned by `get()` is found in memory: its address holds the
value returned, and is an address in use when the addresses of the namespace
and of the expression are. -/
theorem MutateState.locate_get (host : Host) (gdf : TableView) (q : NamedQuosure)
    (st : MutateState) (v : SEXP) (calls : List Event)
    (hget : MutateCallProxy.get host (st.proxy gdf q) = (.ok v, calls))
    (hsubsets : ∀ e ∈ st.subsets, e.2 < st.memory.next)
    (hexpr : q.expr < st.memory.next) :
    ∃ memory a, st.locate q (MutateCallProxy.origin host (st.proxy gdf q)) v = some (memory, a) ∧
      memory.obj a = v ∧ a < memory.next := by
  cases horigin : MutateCallProxy.origin host (st.proxy gdf q) with
  | bound name =>
    have hb := (MutateCallProxy.get_of_bound host _ name horigin v calls hget).1
    simp only [MutateState.proxy, MutateState.subsetsView, Subsets.get_variable,
      lookup_map_obj] at hb
    cases hl : st.subsets.lookup name with
    | none => simp [hl] at hb
    | some a =>
      simp only [hl, Option.map_some', Option.some.injEq] at hb
      exact ⟨st.memory, a, by simp [MutateState.locate, hl], hb,
        hsubsets _ (mem_of_lookup _ _ _ hl)⟩
  | expression =>
    have he := MutateCallProxy.get_of_expression host _ horigin v calls hget
    exact ⟨st.memory, q.expr, rfl, he.symm, hexpr⟩
  | created =>
    exact ⟨(st.memory.alloc v).1, (st.memory.alloc v).2, rfl, by simp [Memory.alloc],
      by simp [Memory.alloc]⟩

/-- After the object at `a` is stored under a name, the name is bound to `a`
in the namespace and in the accumulator, and the object holds its former
content with the names cleared unless the table is a plain one. -/
theorem MutateState.store_spec (st : MutateState) (kind : DataKind) (name : String)
    (memory : Memory) (a : Addr) :
    (st.store kind name memory a).subsets.lookup name = some a ∧
      (st.store kind name memory a).accumulator.entries.lookup name = some a ∧
      (st.store kind name memory a).memory.obj a =
        (if kind ≠ .NaturalDataFrame then clearNames (memory.obj a) else memory.obj a) ∧
      (st.store kind name memory a).memory.next = memory.next := by
  refine ⟨lookup_bind_self _ _ _, lookup_bind_self _ _ _, ?_, ?_⟩
  · by_cases hk : kind = .NaturalDataFrame
    · simp [MutateState.store, hk]
    · simp [MutateState.store, hk, Memory.update]
  · by_cases hk : kind = .NaturalDataFrame
    · simp [MutateState.store, hk]
    · simp [MutateState.store, hk, Memory.update]

/-- The content read under a name of the namespace is the content of the
object bound to the name. -/
theorem MutateState.get_variable_of_lookup (st : MutateState) (k : String) (a : Addr)
    (h : st.subsets.lookup k = some a) :
    st.subsetsView.get_variable k = some (st.memory.obj a) ∧
      st.subsetsView.has_variable k = true := by
  simp [MutateState.subsetsView, Subsets.get_variable, Subsets.has_variable, lookup_map_obj, h]

/-- The column of the output table under a name is the content of the object
the accumulator holds under the name. -/
theorem MutateState.table_of_lookup (st : MutateState) (k : String) (a : Addr)
    (h : st.accumulator.entries.lookup k = some a) :
    st.table.lookup k = some (st.memory.obj a) := by
  simp [MutateState.table, lookup_map_obj, h]

/-- The loop keeps every address of the namespace in use. -/
theorem mutate_grouped.loop_wellformed (host : Host) (gdf : TableView)
    (dots : List NamedQuosure) (st : MutateState) (log : List Event) (st2 : MutateState)
    (log2 : List Event) (hsubsets : ∀ e ∈ st.subsets, e.2 < st.memory.next)
    (hdots : ∀ q ∈ dots, q.expr < st.memory.next)
    (h : mutate_grouped.loop host gdf dots st log = (.ok st2, log2)) :
    (∀ e ∈ st2.subsets, e.2 < st2.memory.next) ∧ st.memory.next ≤ st2.memory.next := by
  induction dots generalizing st log with
  | nil =>
    simp only [mutate_grouped.loop, Prod.mk.injEq, Except.ok.injEq] at h
    rw [← h.1]
    exact ⟨hsubsets, le_refl _⟩
  | cons q dots ih =>
    have hq : q.expr < st.memory.next := hdots q (List.mem_cons_self _ _)
    have hdots2 : ∀ r ∈ dots, r.expr < st.memory.next :=
      fun r hr => hdots r (List.mem_cons_of_mem _ hr)
    rcases hget : MutateCallProxy.get host (st.proxy gdf q) with ⟨res, calls⟩
    cases res with
    | error e =>
      rw [mutate_grouped.loop_error host gdf q _ st log e calls hget] at h
      simp at h
    | ok v =>
      cases hv : Rf_isNull v with
      | true =>
        rw [mutate_grouped.loop_null host gdf q _ st log v calls hget hv] at h
        exact ih { st with accumulator := st.accumulator.rm q.name } _ hsubsets hdots2 h
      | false =>
        obtain ⟨memory, a, hloc, _, ha⟩ :=
          MutateState.locate_get host gdf q st v calls hget hsubsets hq
        rw [mutate_grouped.loop_store host gdf q _ st log v calls memory a hget hv hloc] at h
        obtain ⟨hnext, _⟩ := MutateState.locate_memory st q _ v memory a hloc
        have hn := (MutateState.store_spec st gdf.kind q.name memory a).2.2.2
        have h2 := ih (st.store gdf.kind q.name memory a) _ ?_ ?_ h
        · exact ⟨h2.1, Nat.le_trans (Nat.le_trans hnext (Nat.le_of_eq hn.symm)) h2.2⟩
        · intro e he
          rw [hn]
          rcases mem_bind _ _ _ _ he with he | he
          · exact Nat.lt_of_lt_of_le (hsubsets e he) hnext
          · rw [he]
            exact ha
        · intro r hr
          rw [hn]
          exact Nat.lt_of_lt_of_le (hdots2 r hr) hnext

/-! ## The orchestrator: claims -/

/-- C16: the loop processes the expressions in request order; after an
expression named `k` returns an object that is not `NULL`, that object, whose
names are cleared in place unless the table is a plain one, is bound to `k` in
the namespace and in the accumulator, replacing any earlier binding; its
content `c` is the value returned with its names cleared (or the value itself
on a plain table).  As long as no later expression is named `k`, `k` stays
bound to that object and the object keeps the content `c`, whatever the later
expressions do to the objects in memory: the namespace every later expression
is resolved with reads `c` under `k`, a later symbol `k` returns `c` without a
call, and the output table holds `c` under `k`.  The addresses of the namespace
and of the expression are addresses in use. -/
theorem later_expressions_see_column (host : Host) (gdf : TableView) (q : NamedQuosure)
    (mid : List NamedQuosure) (st : MutateState) (log : List Event) (v c : SEXP)
    (calls : List Event)
    (hget : MutateCallProxy.get host (st.proxy gdf q) = (.ok v, calls))
    (hv : Rf_isNull v = false)
    (hc : c = if gdf.kind ≠ .NaturalDataFrame then clearNames v else v)
    (hsubsets : ∀ e ∈ st.subsets, e.2 < st.memory.next)
    (hexpr : q.expr < st.memory.next)
    (hmid : ∀ m ∈ mid, m.name ≠ q.name) :
    (∀ post : List NamedQuosure,
        mutate_grouped.loop host gdf (q :: mid ++ post) st log =
          match mutate_grouped.loop host gdf (q :: mid) st log with
          | (.ok st2, log2) => mutate_grouped.loop host gdf post st2 log2
          | (.error e, log2) => (.error e, log2)) ∧
      ∃ (memory : Memory) (a : Addr),
        st.locate q (MutateCallProxy.origin host (st.proxy gdf q)) v = some (memory, a) ∧
        memory.obj a = v ∧
        mutate_grouped.loop host gdf (q :: mid) st log =
          mutate_grouped.loop host gdf mid (st.store gdf.kind q.name memory a) (log ++ calls) ∧
        (st.store gdf.kind q.name memory a).subsets.lookup q.name = some a ∧
        (st.store gdf.kind q.name memory a).accumulator.entries.lookup q.name = some a ∧
        (st.store gdf.kind q.name memory a).memory.obj a = c ∧
        (st.store gdf.kind q.name memory a).subsetsView.get_variable q.name = some c ∧
        (st.store gdf.kind q.name memory a).table.lookup q.name = some c ∧
        (∀ (st2 : MutateState) (log2 : List Event),
          mutate_grouped.loop host gdf (q :: mid) st log = (.ok st2, log2) →
          st2.subsets.lookup q.name = some a ∧
            st2.accumulator.entries.lookup q.name = some a ∧
            st2.memory.obj a = c ∧
            st2.subsetsView.get_variable q.name = some c ∧
            st2.table.lookup q.name = some c ∧
            ∀ r : NamedQuosure, st2.memory.obj r.expr = SEXP.symbol q.name →
              MutateCallProxy.origin host (st2.proxy gdf r) = .bound q.name ∧
                MutateCallProxy.get host (st2.proxy gdf r) = (.ok c, [])) := by
  refine ⟨fun post => ?_, ?_⟩
  · have := mutate_grouped.loop_append host gdf (q :: mid) post st log
    simpa using this
  · obtain ⟨memory, a, hloc, hobj, ha⟩ :=
      MutateState.locate_get host gdf q st v calls hget hsubsets hexpr
    have hstep := mutate_grouped.loop_store host gdf q mid st log v calls memory a hget hv hloc
    obtain ⟨hs1, hs2, hs3, hs4⟩ := MutateState.store_spec st gdf.kind q.name memory a
    rw [hobj, ← hc] at hs3
    have hview := (MutateState.get_variable_of_lookup _ _ _ hs1).1
    rw [hs3] at hview
    have htable := MutateState.table_of_lookup _ _ _ hs2
    rw [hs3] at htable
    refine ⟨memory, a, hloc, hobj, hstep, hs1, hs2, hs3, hview, htable,
      fun st2 log2 hloop => ?_⟩
    rw [hstep] at hloop
    obtain ⟨h1, h2, _⟩ := mutate_grouped.loop_other_names host gdf q.name mid hmid _ _ _ _ hloop
    rw [hs1] at h1
    rw [hs2] at h2
    have hclear : gdf.kind ≠ .NaturalDataFrame → clearNames c = c := by
      intro hk
      rw [hc]
      simp only [hk, ne_eq, not_false_eq_true, if_true, clearNames_clearNames]
    have ha2 : a < (st.store gdf.kind q.name memory a).memory.next := by
      rw [hs4]
      exact ha
    have hkeep := (mutate_grouped.loop_keeps_object host gdf mid _ _ st2 log2 a c ha2 hs3 hclear
      hloop).1
    obtain ⟨hget2, hhas2⟩ := MutateState.get_variable_of_lookup st2 q.name a h1
    rw [hkeep] at hget2
    have htable2 := MutateState.table_of_lookup st2 q.name a h2
    rw [hkeep] at htable2
    refine ⟨h1, h2, hkeep, hget2, htable2, fun r hr => ⟨?_, ?_⟩⟩
    · simp [MutateCallProxy.origin, MutateState.proxy, hr, Rf_isNull, TYPEOF, PRINTNAME, hhas2]
    · simp [MutateCallProxy.get, MutateState.proxy, hr, Rf_isNull, TYPEOF, PRINTNAME, hhas2,
        hget2]

/-- Witness for C16: on a plain table, the request `k = 7L`, `y = k` binds
`k` to the recycled constant and resolves `y` to that column without a call. -/
theorem later_expressions_see_column_witness :
    mutate_grouped (exampleHost [])
        { kind := .NaturalDataFrame, nrows := 2, groups := [⟨[0, 1], 0⟩], group_vars := [] }
        (exampleMemory [SEXP.intsxp ⟨[7], []⟩, SEXP.symbol "k"]) []
        [⟨"k", 0, 0⟩, ⟨"y", 1, 0⟩] =
      (.ok [("k", SEXP.intsxp ⟨[7, 7], []⟩), ("y", SEXP.intsxp ⟨[7, 7], []⟩)], []) := by
  have hget : MutateCallProxy.get (exampleHost [])
      (MutateState.proxy
        { memory := exampleMemory [SEXP.intsxp ⟨[7], []⟩, SEXP.symbol "k"]
          subsets := MutateState.seedSubsets []
          accumulator := NamedListAccumulator.ofColumns [] }
        { kind := .NaturalDataFrame, nrows := 2, groups := [⟨[0, 1], 0⟩], group_vars := [] }
        ⟨"k", 0, 0⟩) = (.ok (SEXP.intsxp ⟨[7, 7], []⟩), []) := by
    simp [MutateCallProxy.get, MutateState.proxy, exampleMemory, Rf_isNull, TYPEOF, Rf_length,
      MutateCallProxy.mutate_constant_recycle, Rf_inherits, ATTRIB, ConstantRecycler.collect,
      SEXP.asVector, SEXP.ofVector, copy_most_attributes, List.replicate]
  obtain ⟨hpost, memory, a, hloc, hobj, hstep, hs1, hs2, hs3, hview, htable, hfinal⟩ :=
    later_expressions_see_column (exampleHost [])
      { kind := .NaturalDataFrame, nrows := 2, groups := [⟨[0, 1], 0⟩], group_vars := [] }
      ⟨"k", 0, 0⟩ []
      { memory := exampleMemory [SEXP.intsxp ⟨[7], []⟩, SEXP.symbol "k"]
        subsets := MutateState.seedSubsets []
        accumulator := NamedListAccumulator.ofColumns [] } []
      (SEXP.intsxp ⟨[7, 7], []⟩) (SEXP.intsxp ⟨[7, 7], []⟩) [] hget
      (by simp [Rf_isNull, TYPEOF]) (by simp) (by simp [MutateState.seedSubsets])
      (by simp [exampleMemory]) (by simp)
  have hloop1 := hstep
  rw [mutate_grouped.loop_nil] at hloop1
  obtain ⟨h1, h2, h3, h4, h5, h6⟩ := hfinal _ _ hloop1
  have hsame := (MutateState.locate_memory _ _ _ _ memory a hloc).2 1 (by simp [exampleMemory])
  have hsym : (MutateState.store
      { memory := exampleMemory [SEXP.intsxp ⟨[7], []⟩, SEXP.symbol "k"]
        subsets := MutateState.seedSubsets []
        accumulator := NamedListAccumulator.ofColumns [] }
      DataKind.NaturalDataFrame "k" memory a).memory.obj 1 = SEXP.symbol "k" := by
    simp [MutateState.store, hsame, exampleMemory]
  obtain ⟨horigin, hget2⟩ := h6 ⟨"y", 1, 0⟩ hsym
  have hpost2 := hpost [⟨"y", 1, 0⟩]
  rw [hloop1] at hpost2
  simp only [List.nil_append] at hpost2
  rw [mutate_grouped.loop_store _ _ _ _ _ _ _ _
    (MutateState.store
      { memory := exampleMemory [SEXP.intsxp ⟨[7], []⟩, SEXP.symbol "k"]
        subsets := MutateState.seedSubsets []
        accumulator := NamedListAccumulator.ofColumns [] }
      DataKind.NaturalDataFrame "k" memory a).memory a hget2 (by simp [Rf_isNull, TYPEOF])
    (by rw [horigin]; simp [MutateState.locate, h1]), mutate_grouped.loop_nil] at hpost2
  have hrun : mutate_grouped.run (exampleHost [])
      { kind := .NaturalDataFrame, nrows := 2, groups := [⟨[0, 1], 0⟩], group_vars := [] }
      (exampleMemory [SEXP.intsxp ⟨[7], []⟩, SEXP.symbol "k"]) []
      [⟨"k", 0, 0⟩, ⟨"y", 1, 0⟩] =
      mutate_grouped.loop (exampleHost [])
        { kind := .NaturalDataFrame, nrows := 2, groups := [⟨[0, 1], 0⟩], group_vars := [] }
        ([⟨"k", 0, 0⟩] ++ [⟨"y", 1, 0⟩])
        { memory := exampleMemory [SEXP.intsxp ⟨[7], []⟩, SEXP.symbol "k"]
          subsets := MutateState.seedSubsets []
          accumulator := NamedListAccumulator.ofColumns [] } [] := by
    simp [mutate_grouped.run, check_not_groups, check_not_groups.loop, TableView.has_group]
  simp only [mutate_grouped]
  rw [hrun, hpost2]
  simp [MutateState.table, MutateState.store, NamedListAccumulator.set,
    NamedListAccumulator.ofColumns, bind, hobj]

/-- C19, evaluated where the code departs from it: on the grouped table with
columns `g` and `x`, the request `x = NULL`, `y = x` removes `x` from the output
table only; the namespace still binds `x`, so `y` is resolved from the
namespace to the old column `x`, without a call of the evaluator. -/
theorem null_result_keeps_namespace_binding :
    mutate_grouped (exampleHost [])
        { kind := .GroupedDataFrame, nrows := 2, groups := [⟨[0, 1], 0⟩], group_vars := ["g"] }
        (exampleMemory [SEXP.intsxp ⟨[1, 1], []⟩, SEXP.intsxp ⟨[5, 6], []⟩, SEXP.R_NilValue,
          SEXP.symbol "x"])
        [("g", 0), ("x", 1)] [⟨"x", 2, 0⟩, ⟨"y", 3, 0⟩] =
      (.ok [("g", SEXP.intsxp ⟨[1, 1], []⟩), ("y", SEXP.intsxp ⟨[5, 6], []⟩)], []) ∧
    mutate_grouped.run (exampleHost [])
        { kind := .GroupedDataFrame, nrows := 2, groups := [⟨[0, 1], 0⟩], group_vars := ["g"] }
        (exampleMemory [SEXP.intsxp ⟨[1, 1], []⟩, SEXP.intsxp ⟨[5, 6], []⟩, SEXP.R_NilValue,
          SEXP.symbol "x"])
        [("g", 0), ("x", 1)] [⟨"x", 2, 0⟩] =
      (.ok
        { memory := exampleMemory [SEXP.intsxp ⟨[1, 1], []⟩, SEXP.intsxp ⟨[5, 6], []⟩,
            SEXP.R_NilValue, SEXP.symbol "x"]
          subsets := [("g", 0), ("x", 1)]
          accumulator := { entries := [("g", 0)] } }, []) ∧
    MutateState.subsetsView
        { memory := exampleMemory [SEXP.intsxp ⟨[1, 1], []⟩, SEXP.intsxp ⟨[5, 6], []⟩,
            SEXP.R_NilValue, SEXP.symbol "x"]
          subsets := [("g", 0), ("x", 1)]
          accumulator := { entries := [("g", 0)] } } =
      { vars := [("g", SEXP.intsxp ⟨[1, 1], []⟩), ("x", SEXP.intsxp ⟨[5, 6], []⟩)] } := by
  refine ⟨?_, ?_, ?_⟩
  · simp [mutate_grouped, mutate_grouped.run, check_not_groups, check_not_groups.loop,
      TableView.has_group, mutate_grouped.loop, MutateCallProxy.get, MutateCallProxy.origin,
      MutateState.proxy, MutateState.subsetsView, MutateState.locate, MutateState.store,
      MutateState.table, MutateState.seedSubsets, Subsets.input, Memory.update, exampleMemory, Rf_isNull,
      TYPEOF, PRINTNAME, NamedListAccumulator.ofColumns, Subsets.has_variable,
      Subsets.get_variable, NamedListAccumulator.set, NamedListAccumulator.rm, bind,
      List.lookup, clearNames]
  · simp [mutate_grouped.run, check_not_groups, check_not_groups.loop,
      TableView.has_group, mutate_grouped.loop, MutateCallProxy.get,
      MutateState.proxy, MutateState.seedSubsets, Subsets.input, exampleMemory, Rf_isNull,
      TYPEOF, NamedListAccumulator.ofColumns,
      NamedListAccumulator.set, NamedListAccumulator.rm, bind]
  · simp [MutateState.subsetsView, exampleMemory]

/-- The names of a column are cleared in place: on the grouped table with
columns `g` and `x`, where `x` carries names, the request `y = x` returns the
column `x` itself, so the output table holds `x` and `y` without names. -/
theorem mutate_grouped.strips_names_in_place :
    mutate_grouped (exampleHost [])
        { kind := .GroupedDataFrame, nrows := 2, groups := [⟨[0, 1], 0⟩], group_vars := ["g"] }
        (exampleMemory [SEXP.intsxp ⟨[1, 1], []⟩,
          SEXP.intsxp ⟨[5, 6], [("names", ["a", "b"])]⟩, SEXP.symbol "x"])
        [("g", 0), ("x", 1)] [⟨"y", 2, 0⟩] =
      (.ok [("g", SEXP.intsxp ⟨[1, 1], []⟩), ("x", SEXP.intsxp ⟨[5, 6], []⟩),
        ("y", SEXP.intsxp ⟨[5, 6], []⟩)], []) := by
  simp [mutate_grouped, mutate_grouped.run, check_not_groups, check_not_groups.loop,
    TableView.has_group, mutate_grouped.loop, MutateCallProxy.get, MutateCallProxy.origin,
    MutateState.proxy, MutateState.subsetsView, MutateState.locate, MutateState.store,
    MutateState.table, MutateState.seedSubsets, Subsets.input, Memory.update, exampleMemory, Rf_isNull,
    TYPEOF, PRINTNAME, NamedListAccumulator.ofColumns, Subsets.has_variable,
    Subsets.get_variable, NamedListAccumulator.set, bind, List.lookup, clearNames]

namespace hybrid
namespace internal

/-! ## Sign of the variance: claims -/

/-- With a finite Mean, Variance of a non-summary column on a group of two or
more elements is the missing value or a finite value that is not negative. -/
theorem VarImpl.process_finite_mean_nonneg (r : NaNRule) (RTYPE : NumType) (NA_RM : Bool)
    (data_ptr : Nat → storage_type RTYPE) (indices : SlicingIndex)
    (hn : 2 ≤ indices.rows.length)
    (hm : R_FINITE (MeanImpl.process r RTYPE NA_RM data_ptr indices false) = true) :
    VarImpl.process r RTYPE NA_RM data_ptr indices false = Dbl.NA_REAL ∨
      ∃ q : ℚ, 0 ≤ q ∧ VarImpl.process r RTYPE NA_RM data_ptr indices false = Dbl.fin q := by
  have hvar := VarImpl.process_finite_mean r RTYPE NA_RM data_ptr indices hn hm
  by_cases hc : (included RTYPE NA_RM (groupValues data_ptr indices)).length ≤ 1
  · rw [if_pos hc] at hvar
    exact Or.inl hvar
  · rw [if_neg hc] at hvar
    obtain ⟨qs, hqs, _, hmean⟩ := MeanImpl.finite_mean_included r RTYPE NA_RM data_ptr indices hm
    have hl := congrArg List.length hqs
    simp only [List.length_map] at hl
    have hden : ((((qs.map Dbl.fin).length : Int) - 1 : Int) : ℚ) ≠ 0 := by
      have h0 : ((qs.map Dbl.fin).length : Int) - 1 ≠ 0 := by
        simp only [List.length_map]
        omega
      exact_mod_cast h0
    refine Or.inr ⟨(qs.map (fun q => (q - qs.sum / (qs.length : ℚ)) ^ 2)).sum /
      ((qs.length : ℚ) - 1), ?_, ?_⟩
    · apply div_nonneg
      · apply List.sum_nonneg
        intro x hx
        obtain ⟨q, _, rfl⟩ := List.mem_map.mp hx
        exact sq_nonneg _
      · have h2 : (2 : ℚ) ≤ (qs.length : ℚ) := by
          have : 2 ≤ qs.length := by omega
          exact_mod_cast this
        linarith
    · rw [hvar, hmean, hqs, sampleVariance, sum_squared_deviations, Dbl.ofInt,
        Dbl.div_fin_fin r _ _ hden]
      simp

/-- C17 fails as stated: for the group `{0, 1}` of the double column
`[3, -Inf]`, which has two elements and holds `-Inf`, Variance is `-Inf`. -/
theorem var_negative_infinity_counterexample :
    VarImpl.process .firstOperand .REALSXP false
        (fun i => [Dbl.fin 3, Dbl.R_NegInf].getD i (Dbl.fin 0)) ⟨[0, 1], 0⟩ false =
      Dbl.R_NegInf := by
  simp [VarImpl.process, MeanImpl.process, MeanImpl.sumLoop, SlicingIndex.size, is_na, toDouble,
    Dbl.add, Dbl.div, Dbl.isnan, Dbl.ofInt, Dbl.inf, R_FINITE]

/-- C17 as amended: StdDev takes the square root of the value of Variance,
and that value is the missing value, NaN, `+Inf`, a finite value that is not
negative, or `-Inf`; it is `-Inf` exactly for a non-summary column and a group
of two or more elements whose Mean is `-Inf`. -/
theorem var_value_sign (sqrt : Dbl → Dbl) (r : NaNRule) (RTYPE : NumType) (NA_RM : Bool)
    (data_ptr : Nat → storage_type RTYPE) (indices : SlicingIndex) (is_summary : Bool) :
    SdImpl.process sqrt r RTYPE NA_RM data_ptr indices is_summary =
        sqrt (VarImpl.process r RTYPE NA_RM data_ptr indices is_summary) ∧
      (VarImpl.process r RTYPE NA_RM data_ptr indices is_summary = Dbl.NA_REAL ∨
        VarImpl.process r RTYPE NA_RM data_ptr indices is_summary = Dbl.R_NaN ∨
        VarImpl.process r RTYPE NA_RM data_ptr indices is_summary = Dbl.R_PosInf ∨
        (∃ q : ℚ, 0 ≤ q ∧
          VarImpl.process r RTYPE NA_RM data_ptr indices is_summary = Dbl.fin q) ∨
        (VarImpl.process r RTYPE NA_RM data_ptr indices is_summary = Dbl.R_NegInf ∧
          is_summary = false ∧ 2 ≤ indices.rows.length ∧
          MeanImpl.process r RTYPE NA_RM data_ptr indices false = Dbl.R_NegInf)) ∧
      (is_summary = false → 2 ≤ indices.rows.length →
        MeanImpl.process r RTYPE NA_RM data_ptr indices false = Dbl.R_NegInf →
        VarImpl.process r RTYPE NA_RM data_ptr indices is_summary = Dbl.R_NegInf) := by
  refine ⟨rfl, ?_, fun hs hn hmean => ?_⟩
  swap
  · have hsize : ¬ indices.size ≤ 1 := by
      simp only [SlicingIndex.size]
      omega
    subst hs
    simp [VarImpl.process, hsize, hmean, R_FINITE]
  cases is_summary with
  | true => exact Or.inl (by simp [VarImpl.process])
  | false =>
    by_cases hn : indices.rows.length ≤ 1
    · have hsize : indices.size ≤ 1 := by
        simp only [SlicingIndex.size]
        omega
      exact Or.inl (by simp [VarImpl.process, hsize])
    · have hn2 : 2 ≤ indices.rows.length := by omega
      have hsize : ¬ indices.size ≤ 1 := by
        simp only [SlicingIndex.size]
        omega
      cases hfin : R_FINITE (MeanImpl.process r RTYPE NA_RM data_ptr indices false) with
      | true =>
        rcases VarImpl.process_finite_mean_nonneg r RTYPE NA_RM data_ptr indices hn2 hfin with
          h | h
        · exact Or.inl h
        · exact Or.inr (Or.inr (Or.inr (Or.inl h)))
      | false =>
        have hvar : VarImpl.process r RTYPE NA_RM data_ptr indices false =
            MeanImpl.process r RTYPE NA_RM data_ptr indices false := by
          simp [VarImpl.process, hsize, hfin]
        cases hmean : MeanImpl.process r RTYPE NA_RM data_ptr indices false with
        | NA_REAL => exact Or.inl (by rw [hvar, hmean])
        | R_NaN => exact Or.inr (Or.inl (by rw [hvar, hmean]))
        | R_PosInf => exact Or.inr (Or.inr (Or.inl (by rw [hvar, hmean])))
        | R_NegInf =>
          exact Or.inr (Or.inr (Or.inr (Or.inr ⟨by rw [hvar, hmean], rfl, hn2, rfl⟩)))
        | fin q =>
          rw [hmean] at hfin
          simp [R_FINITE] at hfin

/-- Witness for C17 as amended: the group `{0, 1}` of the double column
`[-Inf, -Inf]` has Mean `-Inf`, and Variance is `-Inf`. -/
theorem var_value_sign_witness :
    VarImpl.process .firstOperand .REALSXP false (fun _ => Dbl.R_NegInf) ⟨[0, 1], 0⟩ false =
      Dbl.R_NegInf :=
  (var_value_sign (fun x => x) .firstOperand .REALSXP false (fun _ => Dbl.R_NegInf)
    ⟨[0, 1], 0⟩ false).2.2 rfl (by simp)
    (by simp [MeanImpl.process, MeanImpl.sumLoop, SlicingIndex.size, is_na, toDouble, Dbl.add,
      Dbl.div, Dbl.isnan, Dbl.ofInt, Dbl.inf, R_FINITE])

end internal
end hybrid

namespace hybrid
namespace internal

/-! ## The elements used as numbers: claims -/

/-- The first loop of Mean computes the sum of the elements it adds, and
lowers the divisor by the number of elements it skips. -/
theorem MeanImpl.sumLoop_added (r : NaNRule) (RTYPE : NumType) (NA_RM : Bool)
    (ptr : Nat → storage_type RTYPE) (rows : List Nat) (res : Dbl) (m : Int) :
    MeanImpl.sumLoop r RTYPE NA_RM ptr rows res m =
      (MeanImpl.sumLoopAdded RTYPE NA_RM ptr rows).map (fun added =>
        ((added.map (toDouble RTYPE)).foldl (Dbl.add r) res,
          m - ((rows.length : Int) - (added.length : Int)))) := by
  induction rows generalizing res m with
  | nil => simp [MeanImpl.sumLoop, MeanImpl.sumLoopAdded]
  | cons i rest ih =>
    cases hc : ((NA_RM || decide (RTYPE = .INTSXP) || decide (RTYPE = .LGLSXP)) &&
        is_na RTYPE (ptr i)) with
    | true =>
      cases NA_RM with
      | false =>
        simp only [MeanImpl.sumLoop, MeanImpl.sumLoopAdded, hc, if_true, Bool.not_false,
          Option.map_none']
      | true =>
        simp only [MeanImpl.sumLoop, MeanImpl.sumLoopAdded, hc, if_true, Bool.not_true,
          Bool.false_eq_true, if_false, ih]
        cases MeanImpl.sumLoopAdded RTYPE true ptr rest with
        | none => rfl
        | some added =>
          simp only [Option.map_some', List.length_cons, Option.some.injEq, Prod.mk.injEq,
            true_and]
          push_cast
          omega
    | false =>
      simp only [MeanImpl.sumLoop, MeanImpl.sumLoopAdded, hc, Bool.false_eq_true, if_false, ih]
      cases MeanImpl.sumLoopAdded RTYPE NA_RM ptr rest with
      | none => rfl
      | some added =>
        simp only [Option.map_some', List.length_cons, List.map_cons, List.foldl_cons,
          Option.some.injEq, Prod.mk.injEq, true_and]
        push_cast
        omega

/-- The elements the first loop of Mean adds are the included elements. -/
theorem MeanImpl.sumLoopAdded_included (RTYPE : NumType) (NA_RM : Bool)
    (ptr : Nat → storage_type RTYPE) (rows : List Nat) (added : List (storage_type RTYPE))
    (h : MeanImpl.sumLoopAdded RTYPE NA_RM ptr rows = some added) :
    added = included RTYPE NA_RM (rows.map ptr) := by
  induction rows generalizing added with
  | nil =>
    simp only [MeanImpl.sumLoopAdded, Option.some.injEq] at h
    cases NA_RM <;> simp [included, ← h]
  | cons i rest ih =>
    cases hc : ((NA_RM || decide (RTYPE = .INTSXP) || decide (RTYPE = .LGLSXP)) &&
        is_na RTYPE (ptr i)) with
    | true =>
      cases NA_RM with
      | false =>
        simp only [MeanImpl.sumLoopAdded, hc, if_true, Bool.not_false] at h
        cases h
      | true =>
        simp only [MeanImpl.sumLoopAdded, hc, if_true, Bool.not_true, Bool.false_eq_true,
          if_false] at h
        have hna : is_na RTYPE (ptr i) = true := by simpa using hc
        have := ih added h
        simp only [included, if_true] at this ⊢
        simp [this, hna]
    | false =>
      simp only [MeanImpl.sumLoopAdded, hc, Bool.false_eq_true, if_false] at h
      cases hrest : MeanImpl.sumLoopAdded RTYPE NA_RM ptr rest with
      | none => simp [hrest] at h
      | some added2 =>
        simp only [hrest, Option.map_some', Option.some.injEq] at h
        have := ih added2 hrest
        cases NA_RM with
        | false => simp [included, ← h, this]
        | true =>
          have hna : is_na RTYPE (ptr i) = false := by simpa using hc
          simp only [included, if_true] at this ⊢
          simp [← h, this, hna]

/-- The elements whose residual the second loop of Mean adds are the included
elements. -/
theorem MeanImpl.residualLoopAdded_included (RTYPE : NumType) (NA_RM : Bool)
    (ptr : Nat → storage_type RTYPE) (rows : List Nat) :
    MeanImpl.residualLoopAdded RTYPE NA_RM ptr rows = included RTYPE NA_RM (rows.map ptr) := by
  induction rows with
  | nil => cases NA_RM <;> simp [MeanImpl.residualLoopAdded, included]
  | cons i rest ih =>
    cases NA_RM with
    | false =>
      simp only [included, Bool.false_eq_true, if_false] at ih
      simp [MeanImpl.residualLoopAdded, included, ih]
    | true =>
      simp only [included, if_true] at ih
      cases hna : is_na RTYPE (ptr i) <;>
        simp [MeanImpl.residualLoopAdded, included, ih, hna]

/-- The elements the loop of Variance uses are the included elements. -/
theorem VarImpl.loopAdded_included (RTYPE : NumType) (NA_RM : Bool)
    (data_ptr : Nat → storage_type RTYPE) (rows : List Nat) :
    VarImpl.loopAdded RTYPE NA_RM data_ptr rows = included RTYPE NA_RM (rows.map data_ptr) := by
  induction rows with
  | nil => cases NA_RM <;> simp [VarImpl.loopAdded, included]
  | cons i rest ih =>
    cases NA_RM with
    | false =>
      simp only [included, Bool.false_eq_true, if_false] at ih
      simp [VarImpl.loopAdded, included, ih]
    | true =>
      simp only [included, if_true] at ih
      cases hna : is_na RTYPE (data_ptr i) <;>
        simp [VarImpl.loopAdded, included, ih, hna]

/-- An early return of the first loop of Mean happens only without dropping,
on an integer or logical column, at a missing element. -/
theorem MeanImpl.sumLoopAdded_none (RTYPE : NumType) (NA_RM : Bool)
    (ptr : Nat → storage_type RTYPE) (rows : List Nat)
    (h : MeanImpl.sumLoopAdded RTYPE NA_RM ptr rows = none) :
    NA_RM = false ∧ RTYPE ≠ .REALSXP ∧ ∃ i ∈ rows, is_na RTYPE (ptr i) = true := by
  induction rows with
  | nil => simp [MeanImpl.sumLoopAdded] at h
  | cons i rest ih =>
    cases hc : ((NA_RM || decide (RTYPE = .INTSXP) || decide (RTYPE = .LGLSXP)) &&
        is_na RTYPE (ptr i)) with
    | true =>
      cases NA_RM with
      | false =>
        simp only [Bool.false_or, Bool.and_eq_true, Bool.or_eq_true, decide_eq_true_eq] at hc
        refine ⟨rfl, ?_, i, List.mem_cons_self _ _, hc.2⟩
        rcases hc.1 with h1 | h1 <;> simp [h1]
      | true =>
        simp only [MeanImpl.sumLoopAdded, hc, if_true, Bool.not_true, Bool.false_eq_true,
          if_false] at h
        obtain ⟨h1, _, _⟩ := ih h
        cases h1
    | false =>
      simp only [MeanImpl.sumLoopAdded, hc, Bool.false_eq_true, if_false,
        Option.map_eq_none'] at h
      obtain ⟨h1, h2, j, hj, hna⟩ := ih h
      exact ⟨h1, h2, j, List.mem_cons_of_mem _ hj, hna⟩

/-- C20: in Mean the first pass computes the sum of the elements it adds and
ends with the divisor equal to their number; the second pass sums the
residuals of exactly those elements, and the loop of Variance uses exactly
those elements; on an integer or logical column, or when missing values are
dropped, none of them is missing, so the sentinel is never used as a number;
when the first pass returns early, which happens only without dropping at a
missing integer or logical element, Mean and Variance are the missing value
and neither the second pass nor the loop of Variance runs. -/
theorem passes_use_same_elements (r : NaNRule) (RTYPE : NumType) (NA_RM : Bool)
    (ptr : Nat → storage_type RTYPE) (indices : SlicingIndex) :
    MeanImpl.sumLoop r RTYPE NA_RM ptr indices.rows (Dbl.fin 0) indices.size =
        (MeanImpl.sumLoopAdded RTYPE NA_RM ptr indices.rows).map (fun added =>
          (Dbl.sum r (added.map (toDouble RTYPE)), (added.length : Int))) ∧
      (∀ res t : Dbl, MeanImpl.residualLoop r RTYPE NA_RM ptr res indices.rows t =
        ((MeanImpl.residualLoopAdded RTYPE NA_RM ptr indices.rows).map
          (fun v => Dbl.sub r (toDouble RTYPE v) res)).foldl (Dbl.add r) t) ∧
      (∀ (m sum : Dbl) (count : Int),
        VarImpl.loop r RTYPE NA_RM ptr m indices.rows sum count =
          (((VarImpl.loopAdded RTYPE NA_RM ptr indices.rows).map
              (fun v => square r (Dbl.sub r (toDouble RTYPE v) m))).foldl (Dbl.add r) sum,
            count + ((VarImpl.loopAdded RTYPE NA_RM ptr indices.rows).length : Int))) ∧
      (∀ added, MeanImpl.sumLoopAdded RTYPE NA_RM ptr indices.rows = some added →
        MeanImpl.residualLoopAdded RTYPE NA_RM ptr indices.rows = added ∧
          VarImpl.loopAdded RTYPE NA_RM ptr indices.rows = added ∧
          (NA_RM = true ∨ RTYPE ≠ .REALSXP → ∀ v ∈ added, is_na RTYPE v = false)) ∧
      (MeanImpl.sumLoopAdded RTYPE NA_RM ptr indices.rows = none →
        NA_RM = false ∧ RTYPE ≠ .REALSXP ∧
          (∃ i ∈ indices.rows, is_na RTYPE (ptr i) = true) ∧
          MeanImpl.process r RTYPE NA_RM ptr indices false = Dbl.NA_REAL ∧
          ∀ is_summary, VarImpl.process r RTYPE NA_RM ptr indices is_summary = Dbl.NA_REAL) := by
  refine ⟨?_, fun res t => ?_, fun m sum count => ?_, fun added hadded => ?_, fun hnone => ?_⟩
  · rw [MeanImpl.sumLoop_added]
    cases hadded : MeanImpl.sumLoopAdded RTYPE NA_RM ptr indices.rows with
    | none => rfl
    | some added =>
      have hsub : added = included RTYPE NA_RM (indices.rows.map ptr) :=
        MeanImpl.sumLoopAdded_included RTYPE NA_RM ptr indices.rows added hadded
      simp only [Option.map_some', Dbl.sum, SlicingIndex.size, Option.some.injEq, Prod.mk.injEq,
        true_and]
      omega
  · rw [MeanImpl.residualLoop_eq, MeanImpl.residualLoopAdded_included]
    simp [List.map_map, Function.comp_def]
  · rw [VarImpl.loop_eq, VarImpl.loopAdded_included]
    simp [List.map_map, Function.comp_def, square]
  · have hsub := MeanImpl.sumLoopAdded_included RTYPE NA_RM ptr indices.rows added hadded
    refine ⟨by rw [MeanImpl.residualLoopAdded_included, hsub],
      by rw [VarImpl.loopAdded_included, hsub], fun hcase v hv => ?_⟩
    rw [hsub] at hv
    cases hrm : NA_RM with
    | true =>
      subst hrm
      simp only [included, if_true, List.mem_filter] at hv
      simpa using hv.2
    | false =>
      subst hrm
      have ht : RTYPE ≠ .REALSXP := by
        rcases hcase with h | h
        · cases h
        · exact h
      by_contra hna
      have hna2 : is_na RTYPE v = true := by simpa using hna
      simp only [included, Bool.false_eq_true, if_false, List.mem_map] at hv
      obtain ⟨i, hi, rfl⟩ := hv
      have hloop := MeanImpl.sumLoop_keep_na r RTYPE ptr indices.rows (Dbl.fin 0) 0 ht
        ⟨i, hi, hna2⟩
      rw [MeanImpl.sumLoop_added, hadded] at hloop
      simp at hloop
  · obtain ⟨hrm, ht, hex⟩ := MeanImpl.sumLoopAdded_none RTYPE NA_RM ptr indices.rows hnone
    subst hrm
    have hmean := MeanImpl.process_keep_na r RTYPE ptr indices ht hex
    refine ⟨rfl, ht, hex, hmean, fun is_summary => ?_⟩
    cases is_summary with
    | true => simp [VarImpl.process]
    | false =>
      by_cases hsize : indices.size ≤ 1
      · simp [VarImpl.process, hsize]
      · simp [VarImpl.process, hsize, hmean, R_FINITE]

/-- Witness for C20: on the integer column `[1, NA, 4]` with missing values
dropped, both passes of Mean and the loop of Variance use the elements 1 and
4; without dropping, the first pass returns early and Mean is missing. -/
theorem passes_use_same_elements_witness :
    MeanImpl.residualLoopAdded .INTSXP true (fun i => [1, NA_INTEGER, 4].getD i 0) [0, 1, 2] =
        [1, 4] ∧
      VarImpl.loopAdded .INTSXP true (fun i => [1, NA_INTEGER, 4].getD i 0) [0, 1, 2] = [1, 4] ∧
      MeanImpl.process .firstOperand .INTSXP false (fun i => [1, NA_INTEGER, 4].getD i 0)
        ⟨[0, 1, 2], 0⟩ false = Dbl.NA_REAL := by
  have h := passes_use_same_elements .firstOperand .INTSXP true
    (fun i => [1, NA_INTEGER, 4].getD i 0) ⟨[0, 1, 2], 0⟩
  have hadded := h.2.2.2.1 [1, 4]
    (by simp [MeanImpl.sumLoopAdded, is_na, NA_INTEGER])
  have h2 := passes_use_same_elements .firstOperand .INTSXP false
    (fun i => [1, NA_INTEGER, 4].getD i 0) ⟨[0, 1, 2], 0⟩
  exact ⟨hadded.1, hadded.2.1,
    (h2.2.2.2.2 (by simp [MeanImpl.sumLoopAdded, is_na, NA_INTEGER])).2.2.2.1⟩

end internal
end hybrid

end dplyr
